import Mathlib

/-!
# A software 3D renderer: projection, clipping and rasterization

Shallow embedding of `graphics.h` / `graphics.cpp`.

* `float` values are modelled by an arbitrary linearly ordered field `K` with a floor
  function (ideal arithmetic, no rounding, no NaN); every definition is computable
  for `K = ℚ`.
* The `<cmath>` functions and `M_PI` are collected in `FloatMath K` and passed
  explicitly; `realMath` instantiates them with the real-analytic functions.
* `int` values are modelled by `Int` (no overflow: all ints are pixel coordinates,
  colour channels or buffer indices).
* A `throw` is modelled by the message that was thrown, returned next to the state
  that had been reached when it was thrown: `σ × Option String`.
-/

set_option linter.unusedSectionVars false
set_option linter.unusedVariables false

namespace graphics

/-! ## Numeric primitives -/

/-- The `<cmath>` functions and constants used by the renderer. -/
structure FloatMath (K : Type) where
  sqrt : K → K
  cos : K → K
  sin : K → K
  tan : K → K
  pi : K

/-- The laws of the real-analytic functions that the proofs rely on. -/
structure FloatMath.Lawful {K : Type} [LinearOrderedField K] (M : FloatMath K) : Prop where
  cos_neg : ∀ t, M.cos (-t) = M.cos t
  sin_neg : ∀ t, M.sin (-t) = -M.sin t
  cos_sq_add_sin_sq : ∀ t, M.cos t * M.cos t + M.sin t * M.sin t = 1
  cos_zero : M.cos 0 = 1
  sin_zero : M.sin 0 = 0
  pi_pos : 0 < M.pi
  tan_pos : ∀ t, 0 < t → t < M.pi / 2 → 0 < M.tan t
  sqrt_nonneg : ∀ t, 0 ≤ M.sqrt t
  sqrt_mul_self : ∀ t, 0 ≤ t → M.sqrt t * M.sqrt t = t

/-- The functions of `<cmath>` over the real numbers. -/
noncomputable def realMath : FloatMath ℝ where
  sqrt := Real.sqrt
  cos := Real.cos
  sin := Real.sin
  tan := Real.tan
  pi := Real.pi

section Defs

variable {K : Type} [LinearOrderedField K] [FloorRing K]

/-- C `round`: nearest integer, halfway cases away from zero, then converted to `int`. -/
def cround (v : K) : Int :=
  if 0 ≤ v then ⌊v + 1 / 2⌋ else ⌈v - 1 / 2⌉

/-- Conversion of a `float` to `int` (truncation toward zero), as performed when a
`float` is passed for an `int` parameter. -/
def ctrunc (v : K) : Int :=
  if 0 ≤ v then ⌊v⌋ else ⌈v⌉

/-! ## Data model (graphics.h) -/

/-- `struct Vec3`. -/
@[ext]
structure Vec3 (K : Type) where
  x : K
  y : K
  z : K
deriving DecidableEq

/-- `struct Point`. -/
@[ext]
structure Point (K : Type) where
  absolutePos : Vec3 K
  cameraPos : Vec3 K
  projectedPos : Vec3 K
  screenPos : Vec3 K
  distToCamera : K
deriving DecidableEq

/-- `struct Line`. -/
@[ext]
structure Line (K : Type) where
  p1 : Point K
  p2 : Point K
deriving DecidableEq

/-- `struct Triangle` (the static `triangles` list is not part of an object). -/
@[ext]
structure Triangle (K : Type) where
  p1 : Point K
  p2 : Point K
  p3 : Point K
  normal : Vec3 K
  r : Int
  g : Int
  b : Int
deriving DecidableEq

/-- `struct Camera`. -/
@[ext]
structure Camera (K : Type) where
  pos : Vec3 K
  thetaZ : K
  thetaY : K
  fov : K
  fov_rad : K
  maxPlaneCoord : K
  direction : Vec3 K
  floorDirection : Vec3 K
deriving DecidableEq

/-- `struct PixelArray`. -/
@[ext]
structure PixelArray where
  width : Int
  height : Int
  data : List Int
deriving DecidableEq

/-- `struct ZBuffer`. -/
@[ext]
structure ZBuffer (K : Type) where
  width : Int
  height : Int
  data : List K
deriving DecidableEq

/-- `struct Window` without the SFML handle, which only `Window::draw` uses. -/
@[ext]
structure Window (K : Type) where
  width : Int
  height : Int
  pixelArray : PixelArray
  zBuffer : ZBuffer K
deriving DecidableEq

/-! ## Vec3 -/

/-- `Vec3::Vec3()`. -/
def Vec3.zero : Vec3 K := ⟨0, 0, 0⟩

/-- `Vec3::operator+` (and `operator+=`). -/
def Vec3.add (a other : Vec3 K) : Vec3 K :=
  ⟨a.x + other.x, a.y + other.y, a.z + other.z⟩

/-- `Vec3::operator-` (and `operator-=`). -/
def Vec3.sub (a other : Vec3 K) : Vec3 K :=
  ⟨a.x - other.x, a.y - other.y, a.z - other.z⟩

/-- `Vec3::operator*(float)`. -/
def Vec3.mul (a : Vec3 K) (scalar : K) : Vec3 K :=
  ⟨a.x * scalar, a.y * scalar, a.z * scalar⟩

/-- `graphics::operator*(float, const Vec3&)`. -/
def Vec3.scalarMul (scalar : K) (vec : Vec3 K) : Vec3 K :=
  ⟨vec.x * scalar, vec.y * scalar, vec.z * scalar⟩

/-- `Vec3::operator/(float)`. -/
def Vec3.div (a : Vec3 K) (scalar : K) : Vec3 K :=
  let f := 1 / scalar
  ⟨a.x * f, a.y * f, a.z * f⟩

/-- `Vec3::operator/=`. -/
def Vec3.divAssign (a : Vec3 K) (scalar : K) : Vec3 K :=
  ⟨a.x / scalar, a.y / scalar, a.z / scalar⟩

/-- `Vec3::cross`. -/
def Vec3.cross (a other : Vec3 K) : Vec3 K :=
  ⟨a.y * other.z - a.z * other.y,
   a.z * other.x - a.x * other.z,
   a.x * other.y - a.y * other.x⟩

/-- `Vec3::dot`. -/
def Vec3.dot (a other : Vec3 K) : K :=
  a.x * other.x + a.y * other.y + a.z * other.z

/-- `Vec3::mag`. -/
def Vec3.mag (M : FloatMath K) (a : Vec3 K) : K :=
  M.sqrt (a.x * a.x + a.y * a.y + a.z * a.z)

/-- `Vec3::normalize`. -/
def Vec3.normalize (M : FloatMath K) (a : Vec3 K) : Vec3 K :=
  a.divAssign (a.mag M)

/-- `Vec3::rotateZ`. -/
def Vec3.rotateZ (M : FloatMath K) (orig : Vec3 K) (thetaZ : K) : Vec3 K :=
  { orig with
    x := orig.x * M.cos thetaZ - orig.y * M.sin thetaZ
    y := orig.x * M.sin thetaZ + orig.y * M.cos thetaZ }

/-- `Vec3::rotateY`. -/
def Vec3.rotateY (M : FloatMath K) (orig : Vec3 K) (thetaY : K) : Vec3 K :=
  { orig with
    x := orig.x * M.cos thetaY - orig.z * M.sin thetaY
    z := orig.x * M.sin thetaY + orig.z * M.cos thetaY }

/-- `Vec3::rotate`: first `rotateZ`, then `rotateY`. -/
def Vec3.rotate (M : FloatMath K) (v : Vec3 K) (thetaZ thetaY : K) : Vec3 K :=
  (v.rotateZ M thetaZ).rotateY M thetaY

/-! ## Camera -/

/-- `Camera::Camera(Vec3 pos, float thetaZ, float thetaY, float fov)`. -/
def Camera.new (M : FloatMath K) (pos : Vec3 K) (thetaZ thetaY fov : K) : Camera K :=
  let fov_rad := fov * M.pi / 180
  { pos := pos
    thetaZ := thetaZ
    thetaY := thetaY
    fov := fov
    fov_rad := fov_rad
    maxPlaneCoord := M.tan (fov_rad / 2)
    direction := (Vec3.mk 1 0 0).rotate M thetaZ thetaY
    floorDirection := (Vec3.mk 1 0 0).rotate M thetaZ 0 }

/-- `Camera::Camera()`; `thetaZ` and `thetaY` are left uninitialised by the constructor and
are taken as given. -/
def Camera.default (M : FloatMath K) (thetaZ thetaY : K) : Camera K :=
  { pos := Vec3.zero
    thetaZ := thetaZ
    thetaY := thetaY
    fov := 90
    fov_rad := 90 * M.pi / 180
    maxPlaneCoord := M.tan (90 * M.pi / 180 / 2)
    direction := ⟨1, 0, 0⟩
    floorDirection := ⟨1, 0, 0⟩ }

/-- `Camera::moveRelative`. -/
def Camera.moveRelative (M : FloatMath K) (cam : Camera K) (forward sideward upward : K) :
    Camera K :=
  let sideDirection := cam.floorDirection.rotate M (-M.pi / 2) 0
  let pos := cam.pos.add ((cam.floorDirection.mul forward).add (sideDirection.mul sideward))
  { cam with pos := { pos with z := pos.z + upward } }

/-- `Camera::rotate`. -/
def Camera.rotate (M : FloatMath K) (cam : Camera K) (thetaZ thetaY : K) : Camera K :=
  let newZ := cam.thetaZ + thetaZ
  let newY := cam.thetaY + thetaY
  let newY := max newY (-M.pi / 2)
  let newY := min newY (M.pi / 2)
  { cam with
    thetaZ := newZ
    thetaY := newY
    direction := cam.direction.rotate M thetaZ thetaY
    floorDirection := cam.floorDirection.rotate M thetaZ 0 }

/-- `Camera::getCameraYFromPixel`. -/
def Camera.getCameraYFromPixel (cam : Camera K) (x width : Int) : K :=
  -cam.maxPlaneCoord * ((x : K) - 0.5 * (width : K) + 0.5) / (0.5 * (width : K))

/-- `Camera::getCameraZFromPixel`. -/
def Camera.getCameraZFromPixel (cam : Camera K) (y height : Int) : K :=
  -cam.maxPlaneCoord * ((y : K) - 0.5 * (height : K) + 0.5) / (0.5 * (height : K))

/-! ## Point -/

/-- `Point::Point(Vec3 absolutePos)`; the derived vectors are default-constructed and the
uninitialised `distToCamera` is taken to be 0. -/
def Point.new (absolutePos : Vec3 K) : Point K :=
  { absolutePos := absolutePos
    cameraPos := Vec3.zero
    projectedPos := Vec3.zero
    screenPos := Vec3.zero
    distToCamera := 0 }

/-- The assignment `p.absolutePos = pos`. -/
def Point.withAbsolutePos (p : Point K) (pos : Vec3 K) : Point K :=
  { p with absolutePos := pos }

/-- `Point::calculateCameraPos`. -/
def Point.calculateCameraPos (M : FloatMath K) (p : Point K) (cam : Camera K) : Point K :=
  let cameraPos := ((p.absolutePos.sub cam.pos).rotate M (-cam.thetaZ) (-cam.thetaY))
  { p with cameraPos := cameraPos, distToCamera := cameraPos.mag M }

/-- `Point::calculateProjectedPos`. -/
def Point.calculateProjectedPos (p : Point K) : Point K :=
  { p with
    projectedPos :=
      { y := p.cameraPos.z / p.cameraPos.x
        x := p.cameraPos.y / p.cameraPos.x
        z := if p.cameraPos.x > 0 then 1 else -1 } }

/-- `Point::calculateScreenPos`. -/
def Point.calculateScreenPos (p : Point K) (cam : Camera K) (window : Window K) : Point K :=
  { p with
    screenPos :=
      { p.screenPos with
        x := (0.5 * (window.width : K)) * (1 - p.projectedPos.x / cam.maxPlaneCoord)
        y := 0.5 * (window.height : K)
              - p.projectedPos.y / cam.maxPlaneCoord * 0.5 * (window.width : K) } }

/-- `Point::calculateAll`. -/
def Point.calculateAll (M : FloatMath K) (p : Point K) (cam : Camera K) (window : Window K) :
    Point K :=
  ((p.calculateCameraPos M cam).calculateProjectedPos).calculateScreenPos cam window

/-! ## Control flow -/

/-- A counting `for` loop whose body may throw: `body` is run at `i`, `i + 1`, ... for the
given number of trips, each time on the state the previous trip left, and the loop is
left at the first throw. The trip count of `for (v = lo; v <= hi; v++)` over `int` is
`(hi + 1 - lo).toNat`, of `for (v = lo; v < hi; v++)` over `int` it is `(hi - lo).toNat`
and over `float` it is `⌈hi - lo⌉.toNat`. -/
def loopFrom {ι σ : Type} [Add ι] [One ι] :
    Nat → ι → (ι → σ → σ × Option String) → σ → σ × Option String
  | 0, _, _, s => (s, none)
  | n + 1, i, body, s =>
    match body i s with
    | (s', some e) => (s', some e)
    | (s', none) => loopFrom n (i + 1) body s'

/-! ## utils -/

/-- `utils::clampToRange(float &value, float max)`. -/
def utils.clampToRange (value max : K) : K :=
  if value < 0 then 0 else if value > max then max else value

/-- `utils::sortAndClamp(int &toLower, int &toHigher, int max)`. -/
def utils.sortAndClamp (toLower toHigher max : Int) : Int × Int :=
  let p : Int × Int := if toLower > toHigher then (toHigher, toLower) else (toLower, toHigher)
  let lo := if p.1 < 0 then 0 else p.1
  let hi := if p.2 > max then max else p.2
  (lo, hi)

/-! ## PixelArray -/

/-- `PixelArray::PixelArray(int width, int height)`. For a negative `width * height * 3`
the `std::vector` constructor throws; the model then has an empty vector. -/
def PixelArray.new (width height : Int) : PixelArray :=
  { width := width, height := height, data := List.replicate (width * height * 3).toNat 0 }

/-- `PixelArray::getIndex`. -/
def PixelArray.getIndex (pa : PixelArray) (x y : Int) : Except String Int :=
  if x < 0 ∨ x ≥ pa.width ∨ y < 0 ∨ y ≥ pa.height then
    .error "pixel coordinates out of bounds"
  else
    .ok ((pa.width * y + x) * 3)

/-- `PixelArray::setPixel(int x, int y, int color)`. -/
def PixelArray.setPixel (pa : PixelArray) (x y color : Int) : PixelArray × Option String :=
  if color < 0 ∨ color > 255 then
    (pa, some "color value out of bounds")
  else
    match pa.getIndex x y with
    | .error e => (pa, some e)
    | .ok index =>
      ({ pa with
          data := ((pa.data.set index.toNat color).set (index + 1).toNat color).set
            (index + 2).toNat color }, none)

/-- `PixelArray::setPixel(int x, int y, int r, int g, int b)`. -/
def PixelArray.setPixelRGB (pa : PixelArray) (x y r g b : Int) : PixelArray × Option String :=
  if r < 0 ∨ g < 0 ∨ b < 0 ∨ r > 255 ∨ g > 255 ∨ b > 255 then
    (pa, some "color value out of bounds")
  else
    match pa.getIndex x y with
    | .error e => (pa, some e)
    | .ok index =>
      ({ pa with
          data := ((pa.data.set index.toNat r).set (index + 1).toNat g).set
            (index + 2).toNat b }, none)

/-- `PixelArray::getPixel`. -/
def PixelArray.getPixel (pa : PixelArray) (x y : Int) : Except String (List Int) :=
  match pa.getIndex x y with
  | .error e => .error e
  | .ok index =>
    .ok [pa.data.getD index.toNat 0, pa.data.getD (index + 1).toNat 0,
      pa.data.getD (index + 2).toNat 0]

/-- `PixelArray::getPixelMonocolor`. -/
def PixelArray.getPixelMonocolor (pa : PixelArray) (x y : Int) : Except String Int :=
  match pa.getIndex x y with
  | .error e => .error e
  | .ok index => .ok (pa.data.getD index.toNat 0)

/-- `PixelArray::clear`: `for (int i = 0; i < data.size(); i++) data[i] = 0;`. -/
def PixelArray.clear (pa : PixelArray) : PixelArray :=
  (loopFrom pa.data.length (0 : Nat)
    (fun i (p : PixelArray) => ({ p with data := p.data.set i 0 }, none)) pa).1

/-! ## ZBuffer -/

/-- `ZBuffer::ZBuffer(int width, int height)`. For a negative `width * height` the
`std::vector` constructor throws; the model then has an empty vector. -/
def ZBuffer.new (width height : Int) : ZBuffer K :=
  { width := width, height := height, data := List.replicate (width * height).toNat 99999 }

/-- `ZBuffer::getIndex`. -/
def ZBuffer.getIndex (zb : ZBuffer K) (x y : Int) : Except String Int :=
  if x < 0 ∨ x ≥ zb.width ∨ y < 0 ∨ y ≥ zb.height then
    .error "pixel coordinates out of bounds"
  else
    .ok (zb.width * y + x)

/-- `ZBuffer::setDepth`. -/
def ZBuffer.setDepth (zb : ZBuffer K) (x y : Int) (depth : K) : ZBuffer K × Option String :=
  if depth < 0 then
    (zb, some "invalid depth")
  else
    match zb.getIndex x y with
    | .error e => (zb, some e)
    | .ok index => ({ zb with data := zb.data.set index.toNat depth }, none)

/-- `ZBuffer::getDepth`. -/
def ZBuffer.getDepth (zb : ZBuffer K) (x y : Int) : Except String K :=
  match zb.getIndex x y with
  | .error e => .error e
  | .ok index => .ok (zb.data.getD index.toNat 0)

/-- `ZBuffer::clear`: `for (int i = 0; i < data.size(); i++) data[i] = 99999;`. -/
def ZBuffer.clear (zb : ZBuffer K) : ZBuffer K :=
  (loopFrom zb.data.length (0 : Nat)
    (fun i (z : ZBuffer K) => ({ z with data := z.data.set i 99999 }, none)) zb).1

/-! ## Window -/

/-- `Window::Window(int width, int height, ...)`. -/
def Window.new (width height : Int) : Window K :=
  { width := width
    height := height
    pixelArray := PixelArray.new width height
    zBuffer := ZBuffer.new width height }

/-- `Window::clear`. -/
def Window.clear (w : Window K) : Window K :=
  { w with pixelArray := w.pixelArray.clear, zBuffer := w.zBuffer.clear }

/-- The repeated prologue of a vertical run in `Window::drawLine`:
`bottom = round(yA); top = round(yB); if (top < bottom) swap; bottom = max(0, bottom);
top = min(height - 1, top);`. -/
def Window.lineSpan (w : Window K) (yA yB : K) : Int × Int :=
  let bottom := cround yA
  let top := cround yB
  let p : Int × Int := if top < bottom then (top, bottom) else (bottom, top)
  (max 0 p.1, min (w.height - 1) p.2)

/-- The vertical run of `Window::drawLine`:
`for (int yVal = bottom; yVal <= top; yVal++) pixelArray.setPixel(x, yVal, 255);`. -/
def Window.lineRun (w : Window K) (x : Int) (span : Int × Int) : Window K × Option String :=
  loopFrom (span.2 + 1 - span.1).toNat span.1
    (fun yVal (w : Window K) =>
      let r := w.pixelArray.setPixel x yVal 255
      ({ w with pixelArray := r.1 }, r.2)) w

/-- One trip of the column loop of `Window::drawLine` (lines 494-506); the loop carries
the window and `y`. -/
def Window.lineColumn (dy : K) (x : Int) (s : Window K × K) : (Window K × K) × Option String :=
  let y := s.2
  match s.1.lineRun x (s.1.lineSpan y (y + dy)) with
  | (w, some e) => ((w, y), some e)
  | (w, none) => ((w, y + dy), none)

/-- `Window::drawPoint`. -/
def Window.drawPoint (w : Window K) (point : Point K) : Window K × Option String :=
  if point.screenPos.x ≥ 0 ∧ point.screenPos.x < (w.width : K)
      ∧ point.screenPos.y ≥ 0 ∧ point.screenPos.y < (w.height : K) then
    let r := w.pixelArray.setPixel (ctrunc point.screenPos.x) (ctrunc point.screenPos.y) 255
    ({ w with pixelArray := r.1 }, r.2)
  else
    (w, none)

/-- `Window::drawLine`. -/
def Window.drawLine (w : Window K) (line : Line K) : Window K × Option String :=
  let a := line.p1
  let b := line.p2
  let ab : Point K × Point K := if a.screenPos.x > b.screenPos.x then (b, a) else (a, b)
  let a := ab.1
  let b := ab.2
  let dy := (b.screenPos.y - a.screenPos.y) / (b.screenPos.x - a.screenPos.x)
  let startVal : Int := max 0 ⌈a.screenPos.x⌉
  let endVal : Int := min (w.width - 1) ⌊b.screenPos.x⌋
  if startVal ≥ endVal then
    let startVal := cround a.screenPos.x
    if startVal < 0 ∨ startVal ≥ w.width then
      (w, none)
    else
      w.lineRun startVal (w.lineSpan a.screenPos.y b.screenPos.y)
  else
    let y := a.screenPos.y + dy * ((startVal : K) - a.screenPos.x)
    match loopFrom (endVal - startVal).toNat startVal (Window.lineColumn dy) (w, y) with
    | (s, some e) => (s.1, some e)
    | (s, none) =>
      let w := s.1
      let span := w.lineSpan a.screenPos.y
        (a.screenPos.y + ((startVal : K) - a.screenPos.x) * dy)
      let x : Int := ⌊a.screenPos.x⌋
      if x < 0 ∨ x ≥ w.width then
        (w, none)
      else
        match w.lineRun x span with
        | (w, some e) => (w, some e)
        | (w, none) =>
          let span := w.lineSpan b.screenPos.y
            (b.screenPos.y - (b.screenPos.x - (endVal : K)) * dy)
          let x := cround b.screenPos.x
          if x < 0 ∨ x ≥ w.width then
            (w, none)
          else
            w.lineRun x span

/-- The per-pixel depth test of `Window::drawTriangle` (lines 595-598, 620-623). -/
def Window.depthTest (w : Window K) (x y : Int) (depth : K) (r g b : Int) :
    Window K × Option String :=
  match w.zBuffer.getDepth x y with
  | .error e => (w, some e)
  | .ok old =>
    if depth < old then
      match w.zBuffer.setDepth x y depth with
      | (zb, some e) => ({ w with zBuffer := zb }, some e)
      | (zb, none) =>
        let r := w.pixelArray.setPixelRGB x y r g b
        ({ w with zBuffer := zb, pixelArray := r.1 }, r.2)
    else
      (w, none)

/-- The depth of the triangle's plane along the pixel ray `(1, cameraY, cameraZ)`
(lines 587-588, 615-616). -/
def planeDepth (M : FloatMath K) (normal : Vec3 K) (d1 cameraY cameraZ : K) : K :=
  let cameraX : K := 1
  (d1 / (normal.x * cameraX + normal.y * cameraY + normal.z * cameraZ))
    * M.sqrt (cameraX * cameraX + cameraY * cameraY + cameraZ * cameraZ)

/-- The body of the row loop of `Window::drawTriangle` (lines 585-598, 613-623): depth of
the pixel, negative depth set to 0, depth test. The `float` column `x` is converted to
`int` where it is passed to the buffers. -/
def Window.shadePixel (M : FloatMath K) (triangle : Triangle K) (cam : Camera K)
    (normal : Vec3 K) (d1 cameraY x : K) (y : Int) (w : Window K) : Window K × Option String :=
  let cameraZ := cam.getCameraZFromPixel y w.height
  let depth := planeDepth M normal d1 cameraY cameraZ
  let depth := if depth < 0 then 0 else depth
  w.depthTest (ctrunc x) y depth triangle.r triangle.g triangle.b

/-- One trip of a column loop of `Window::drawTriangle` (lines 579-601, 607-626); the loop
carries the window, `y1` and `y2`, and `dyShort` is `dy1` in the first loop and `dy2` in
the second. -/
def Window.fillColumn (M : FloatMath K) (triangle : Triangle K) (cam : Camera K)
    (normal : Vec3 K) (d1 dyShort dy_long : K) (x : K) (s : Window K × K × K) :
    (Window K × K × K) × Option String :=
  let w := s.1
  let y1 := s.2.1
  let y2 := s.2.2
  let span := utils.sortAndClamp (cround y1) (cround y2) (w.height - 1)
  let cameraY := cam.getCameraYFromPixel (ctrunc x) w.width
  match loopFrom (span.2 + 1 - span.1).toNat span.1
      (Window.shadePixel M triangle cam normal d1 cameraY x) w with
  | (w, some e) => ((w, y1, y2), some e)
  | (w, none) => ((w, y1 + dyShort, y2 + dy_long), none)

/-- The three conditional swaps of `Window::drawTriangle` (lines 551-559). -/
def sortByScreenX (p1 p2 p3 : Point K) : Point K × Point K × Point K :=
  let ab : Point K × Point K := if p1.screenPos.x > p2.screenPos.x then (p2, p1) else (p1, p2)
  let bc : Point K × Point K :=
    if ab.2.screenPos.x > p3.screenPos.x then (p3, ab.2) else (ab.2, p3)
  let ab : Point K × Point K :=
    if ab.1.screenPos.x > bc.1.screenPos.x then (bc.1, ab.1) else (ab.1, bc.1)
  (ab.1, ab.2, bc.2)

/-- `Window::drawTriangle`. -/
def Window.drawTriangle (M : FloatMath K) (w : Window K) (triangle : Triangle K)
    (cam : Camera K) : Window K × Option String :=
  let a := triangle.p1
  let b := triangle.p2
  let c := triangle.p3
  let normal := ((a.cameraPos.sub b.cameraPos).cross (a.cameraPos.sub c.cameraPos)).normalize M
  let d1 := normal.x * a.cameraPos.x + normal.y * a.cameraPos.y + normal.z * a.cameraPos.z
  let abc := sortByScreenX a b c
  let a := abc.1
  let b := abc.2.1
  let c := abc.2.2
  let dy_long := (c.screenPos.y - a.screenPos.y) / (c.screenPos.x - a.screenPos.x)
  let dy1 := (b.screenPos.y - a.screenPos.y) / (b.screenPos.x - a.screenPos.x)
  let dy2 := (c.screenPos.y - b.screenPos.y) / (c.screenPos.x - b.screenPos.x)
  let left := utils.clampToRange a.screenPos.x ((w.width - 1 : Int) : K)
  let mid := utils.clampToRange b.screenPos.x ((w.width - 1 : Int) : K)
  let right := utils.clampToRange c.screenPos.x ((w.width - 1 : Int) : K)
  let y1 := a.screenPos.y + dy1 * (left - a.screenPos.x)
  let y2 := a.screenPos.y + dy_long * (left - a.screenPos.x)
  match loopFrom ⌈mid - left⌉.toNat left
      (Window.fillColumn M triangle cam normal d1 dy1 dy_long) (w, y1, y2) with
  | (s, some e) => (s.1, some e)
  | (s, none) =>
    let w := s.1
    let y1 := b.screenPos.y + dy2 * (mid - b.screenPos.x)
    let y2 := a.screenPos.y + dy_long * (mid - a.screenPos.x)
    match loopFrom ⌈right - mid⌉.toNat mid
        (Window.fillColumn M triangle cam normal d1 dy2 dy_long) (w, y1, y2) with
    | (s, e) => (s.1, e)

/-! ## Line -/

/-- The near-plane push `p.projectedPos += 100 * (q.projectedPos - p.projectedPos)` used by
`Line::draw` and `Triangle::draw`. -/
def Point.pushToward (p q : Point K) : Point K :=
  { p with
    projectedPos := p.projectedPos.add (Vec3.scalarMul 100 (q.projectedPos.sub p.projectedPos)) }

/-- The assignment `p.projectedPos.z = v`. -/
def Point.setFlag (p : Point K) (v : K) : Point K :=
  { p with projectedPos := { p.projectedPos with z := v } }

/-- `Line::draw`: the line object after the call, the window after the call and the
message thrown, if any. -/
def Line.draw (M : FloatMath K) (l : Line K) (cam : Camera K) (window : Window K) :
    Line K × Window K × Option String :=
  let p1 := (l.p1.calculateCameraPos M cam).calculateProjectedPos
  let p2 := (l.p2.calculateCameraPos M cam).calculateProjectedPos
  if p1.projectedPos.z < 0 ∧ p2.projectedPos.z < 0 then
    (⟨p1, p2⟩, window, none)
  else if p1.projectedPos.z > 0 ∧ p2.projectedPos.z > 0 then
    let p1 := p1.calculateScreenPos cam window
    let p2 := p2.calculateScreenPos cam window
    (⟨p1, p2⟩, window.drawLine ⟨p1, p2⟩)
  else
    let ps : Point K × Point K :=
      if p1.projectedPos.z < 0 then
        ((p1.pushToward p2).setFlag 1, p2)
      else
        ((p1.setFlag 2), p2.pushToward p1)
    let p1 := ps.1.calculateScreenPos cam window
    let p2 := ps.2.calculateScreenPos cam window
    (⟨p1, p2⟩, window.drawLine ⟨p1, p2⟩)

/-! ## Triangle -/

/-- `Triangle::Triangle(Point p1, Point p2, Point p3)`; `rand 0`, `rand 1`, `rand 2` are
the results of the three calls of `std::rand()`. -/
def Triangle.new (M : FloatMath K) (p1 p2 p3 : Point K) (rand : Nat → Nat) : Triangle K :=
  { p1 := p1
    p2 := p2
    p3 := p3
    normal := ((p2.absolutePos.sub p1.absolutePos).cross
      (p3.absolutePos.sub p1.absolutePos)).normalize M
    r := ((rand 0 % 256 : Nat) : Int)
    g := ((rand 1 % 256 : Nat) : Int)
    b := ((rand 2 % 256 : Nat) : Int) }

/-- The target of a `Point*` into a triangle: `&p1`, `&p2` or `&p3`. -/
inductive Vertex where
  | p1
  | p2
  | p3
deriving DecidableEq, Repr

/-- Read through a vertex pointer. -/
def Triangle.get (t : Triangle K) : Vertex → Point K
  | .p1 => t.p1
  | .p2 => t.p2
  | .p3 => t.p3

/-- Write through a vertex pointer. -/
def Triangle.set (t : Triangle K) (v : Vertex) (p : Point K) : Triangle K :=
  match v with
  | .p1 => { t with p1 := p }
  | .p2 => { t with p2 := p }
  | .p3 => { t with p3 := p }

/-- What a call of `Triangle::draw` leaves behind. -/
structure DrawResult (K : Type) where
  /-- The triangle object after the call. -/
  self : Triangle K
  /-- The arguments of the calls of `Window::drawTriangle` that were made, in order. -/
  calls : List (Triangle K)
  /-- The window after the call. -/
  window : Window K
  /-- The message thrown, if any. -/
  thrown : Option String

/-- The `front` and `behind` vectors of `Triangle::draw` (lines 238-255). -/
def Triangle.classify (t : Triangle K) : List Vertex × List Vertex :=
  let fb : List Vertex × List Vertex := ([], [])
  let fb := if t.p1.projectedPos.z > 0 then (fb.1 ++ [Vertex.p1], fb.2)
    else (fb.1, fb.2 ++ [Vertex.p1])
  let fb := if t.p2.projectedPos.z > 0 then (fb.1 ++ [Vertex.p2], fb.2)
    else (fb.1, fb.2 ++ [Vertex.p2])
  let fb := if t.p3.projectedPos.z > 0 then (fb.1 ++ [Vertex.p3], fb.2)
    else (fb.1, fb.2 ++ [Vertex.p3])
  fb

/-- The first six statements of `Triangle::draw` (lines 230-236): camera position and
projected position of the three vertices. -/
def Triangle.projectAll (M : FloatMath K) (t : Triangle K) (cam : Camera K) : Triangle K :=
  let t := { t with
    p1 := t.p1.calculateCameraPos M cam
    p2 := t.p2.calculateCameraPos M cam
    p3 := t.p3.calculateCameraPos M cam }
  { t with
    p1 := t.p1.calculateProjectedPos
    p2 := t.p2.calculateProjectedPos
    p3 := t.p3.calculateProjectedPos }

/-- `Triangle::draw`; `rand` gives the results of `std::rand()` inside the constructor of
the synthesized triangle. -/
def Triangle.draw (M : FloatMath K) (t : Triangle K) (cam : Camera K) (window : Window K)
    (rand : Nat → Nat) : DrawResult K :=
  let t := t.projectAll M cam
  let front := t.classify.1
  let behind := t.classify.2
  if front.length = 0 then
    ⟨t, [], window, none⟩
  else if front.length = 1 then
    let f0 := front.getD 0 Vertex.p1
    let b0 := behind.getD 0 Vertex.p1
    let b1 := behind.getD 1 Vertex.p1
    let t := t.set b0 (((t.get b0).pushToward (t.get f0)).setFlag 1)
    let t := t.set b1 (((t.get b1).pushToward (t.get f0)).setFlag 1)
    let t := t.set f0 ((t.get f0).calculateScreenPos cam window)
    let t := t.set b0 ((t.get b0).calculateScreenPos cam window)
    let t := t.set b1 ((t.get b1).calculateScreenPos cam window)
    let r := window.drawTriangle M t cam
    ⟨t, [t], r.1, r.2⟩
  else if front.length = 2 then
    let f0 := front.getD 0 Vertex.p1
    let f1 := front.getD 1 Vertex.p1
    let b0 := behind.getD 0 Vertex.p1
    let t := t.set f0 ((t.get f0).calculateScreenPos cam window)
    let t := t.set f1 ((t.get f1).calculateScreenPos cam window)
    let behind2 := t.get b0
    let t := t.set b0 ((t.get b0).pushToward (t.get f0))
    let behind2 := behind2.pushToward (t.get f1)
    let t := t.set b0 ((t.get b0).calculateScreenPos cam window)
    let behind2 := behind2.calculateScreenPos cam window
    let behind2 := { behind2 with cameraPos := (t.get f0).cameraPos }
    let tn := Triangle.new M (t.get f1) (t.get b0) behind2 rand
    let tn := { tn with r := t.r, g := t.g, b := t.b }
    match window.drawTriangle M t cam with
    | (w, some e) => ⟨t, [t], w, some e⟩
    | (w, none) =>
      let r := w.drawTriangle M tn cam
      ⟨t, [t, tn], r.1, r.2⟩
  else
    let f0 := front.getD 0 Vertex.p1
    let f1 := front.getD 1 Vertex.p1
    let f2 := front.getD 2 Vertex.p1
    let t := t.set f0 ((t.get f0).calculateScreenPos cam window)
    let t := t.set f1 ((t.get f1).calculateScreenPos cam window)
    let t := t.set f2 ((t.get f2).calculateScreenPos cam window)
    let r := window.drawTriangle M t cam
    ⟨t, [t], r.1, r.2⟩

/-! ## Specification vocabulary -/

/-- The buffers of a window have the window's dimensions and the lengths that the
constructors give them. -/
structure Window.WF (w : Window K) : Prop where
  pixelWidth : w.pixelArray.width = w.width
  pixelHeight : w.pixelArray.height = w.height
  depthWidth : w.zBuffer.width = w.width
  depthHeight : w.zBuffer.height = w.height
  pixelLength : w.pixelArray.data.length = (w.width * w.height * 3).toNat
  depthLength : w.zBuffer.data.length = (w.width * w.height).toNat

/-- Two windows with the same dimensions and buffer lengths. -/
structure Window.SameShape (w w' : Window K) : Prop where
  width : w'.width = w.width
  height : w'.height = w.height
  pixelWidth : w'.pixelArray.width = w.pixelArray.width
  pixelHeight : w'.pixelArray.height = w.pixelArray.height
  depthWidth : w'.zBuffer.width = w.zBuffer.width
  depthHeight : w'.zBuffer.height = w.zBuffer.height
  pixelLength : w'.pixelArray.data.length = w.pixelArray.data.length
  depthLength : w'.zBuffer.data.length = w.zBuffer.data.length

/-- Every stored channel is an integer in `[0, 255]`. -/
def PixelArray.Valid (pa : PixelArray) : Prop :=
  ∀ v ∈ pa.data, 0 ≤ v ∧ v ≤ 255

/-- The window `w'` has the shape of `w`, and only valid channels if `w` has. -/
def Window.Keeps (w w' : Window K) : Prop :=
  w.SameShape w' ∧ (w.pixelArray.Valid → w'.pixelArray.Valid)

/-- The window states reachable from `Window(width, height)` by any sequence of
`Window::clear`, `PixelArray::clear`, the two `PixelArray::setPixel` overloads (whether
they throw or not), `Window::drawLine` and `Window::drawTriangle`. -/
inductive Window.Reachable (M : FloatMath K) (width height : Int) : Window K → Prop
  | new : Window.Reachable M width height (Window.new width height)
  | clear (w : Window K) : Window.Reachable M width height w →
      Window.Reachable M width height w.clear
  | clearPixels (w : Window K) : Window.Reachable M width height w →
      Window.Reachable M width height { w with pixelArray := w.pixelArray.clear }
  | setPixel (w : Window K) (x y color : Int) : Window.Reachable M width height w →
      Window.Reachable M width height
        { w with pixelArray := (w.pixelArray.setPixel x y color).1 }
  | setPixelRGB (w : Window K) (x y r g b : Int) : Window.Reachable M width height w →
      Window.Reachable M width height
        { w with pixelArray := (w.pixelArray.setPixelRGB x y r g b).1 }
  | drawLine (w : Window K) (line : Line K) : Window.Reachable M width height w →
      Window.Reachable M width height (w.drawLine line).1
  | drawTriangle (w : Window K) (t : Triangle K) (cam : Camera K) :
      Window.Reachable M width height w →
      Window.Reachable M width height (w.drawTriangle M t cam).1

/-- A colour whose three channels are in `[0, 255]`. -/
def Triangle.ColorOk (t : Triangle K) : Prop :=
  (0 ≤ t.r ∧ t.r ≤ 255) ∧ (0 ≤ t.g ∧ t.g ≤ 255) ∧ (0 ≤ t.b ∧ t.b ≤ 255)

instance (t : Triangle K) : Decidable t.ColorOk := by
  unfold Triangle.ColorOk
  infer_instance

/-- The plane normal of `Window::drawTriangle` (lines 546-547) for the camera-space corners
`a`, `b`, `c`: `(a - b).cross(a - c)`, normalized. -/
def planeNormal (M : FloatMath K) (a b c : Vec3 K) : Vec3 K :=
  ((a.sub b).cross (a.sub c)).normalize M

/-- The plane constant `d1` of `Window::drawTriangle` (line 548). -/
def planeOffset (normal a : Vec3 K) : K :=
  normal.x * a.x + normal.y * a.y + normal.z * a.z

/-- The statement `if (depth < 0) depth = 0;` of `Window::drawTriangle`
(lines 589-594, 617-619). -/
def clampDepth (depth : K) : K :=
  if depth < 0 then 0 else depth

/-- The depth that `Window::drawTriangle` computes, before the clamp, from three
camera-space corners taken in the order `p1`, `p2`, `p3` (lines 546-548, 588). -/
def cornerDepth (M : FloatMath K) (a b c : Vec3 K) (cameraY cameraZ : K) : K :=
  planeDepth M (planeNormal M a b c) (planeOffset (planeNormal M a b c) a) cameraY cameraZ

/-- The camera states reachable from either constructor by any sequence of
`Camera::rotate` and `Camera::moveRelative` calls. -/
inductive Camera.Reachable (M : FloatMath K) : Camera K → Prop
  | new (pos : Vec3 K) (thetaZ thetaY fov : K) :
      Camera.Reachable M (Camera.new M pos thetaZ thetaY fov)
  | default (thetaZ thetaY : K) : Camera.Reachable M (Camera.default M thetaZ thetaY)
  | rotate (cam : Camera K) (thetaZ thetaY : K) : Camera.Reachable M cam →
      Camera.Reachable M (cam.rotate M thetaZ thetaY)
  | moveRelative (cam : Camera K) (forward sideward upward : K) : Camera.Reachable M cam →
      Camera.Reachable M (cam.moveRelative M forward sideward upward)

/-- The part of `Window::drawTriangle` after the sort (lines 561-627): the slopes, the
clamped column bounds and the two column loops over the sorted vertices `a`, `b`, `c`, with
the plane `normal`, `d1` computed before the sort. -/
def Window.fillSorted (M : FloatMath K) (w : Window K) (triangle : Triangle K) (cam : Camera K)
    (normal : Vec3 K) (d1 : K) (a b c : Point K) : Window K × Option String :=
  let dy_long := (c.screenPos.y - a.screenPos.y) / (c.screenPos.x - a.screenPos.x)
  let dy1 := (b.screenPos.y - a.screenPos.y) / (b.screenPos.x - a.screenPos.x)
  let dy2 := (c.screenPos.y - b.screenPos.y) / (c.screenPos.x - b.screenPos.x)
  let left := utils.clampToRange a.screenPos.x ((w.width - 1 : Int) : K)
  let mid := utils.clampToRange b.screenPos.x ((w.width - 1 : Int) : K)
  let right := utils.clampToRange c.screenPos.x ((w.width - 1 : Int) : K)
  let y1 := a.screenPos.y + dy1 * (left - a.screenPos.x)
  let y2 := a.screenPos.y + dy_long * (left - a.screenPos.x)
  match loopFrom ⌈mid - left⌉.toNat left
      (Window.fillColumn M triangle cam normal d1 dy1 dy_long) (w, y1, y2) with
  | (s, some e) => (s.1, some e)
  | (s, none) =>
    let w := s.1
    let y1 := b.screenPos.y + dy2 * (mid - b.screenPos.x)
    let y2 := a.screenPos.y + dy_long * (mid - a.screenPos.x)
    match loopFrom ⌈right - mid⌉.toNat mid
        (Window.fillColumn M triangle cam normal d1 dy2 dy_long) (w, y1, y2) with
    | (s, e) => (s.1, e)

/-- The window `w'` differs from `w` only by passed depth tests: it has the same shape, no
depth entry is larger, a pixel whose depth entry is not strictly smaller has its three
colour cells unchanged, and the depth entries are in `[0, 99999]` if those of `w` are. -/
structure Window.Nearer (w w' : Window K) : Prop where
  shape : w.SameShape w'
  depth_le : ∀ i : Nat, w'.zBuffer.data.getD i 0 ≤ w.zBuffer.data.getD i 0
  color : ∀ q : Nat, w'.zBuffer.data.getD q 0 < w.zBuffer.data.getD q 0 ∨
    (w'.pixelArray.data.getD (3 * q) 0 = w.pixelArray.data.getD (3 * q) 0 ∧
      w'.pixelArray.data.getD (3 * q + 1) 0 = w.pixelArray.data.getD (3 * q + 1) 0 ∧
      w'.pixelArray.data.getD (3 * q + 2) 0 = w.pixelArray.data.getD (3 * q + 2) 0)
  bounds : (∀ d ∈ w.zBuffer.data, 0 ≤ d ∧ d ≤ 99999) →
    ∀ d ∈ w'.zBuffer.data, 0 ≤ d ∧ d ≤ 99999

/-- The window states reachable from `Window(width, height)` by any sequence of
`Window::clear`, `ZBuffer::clear` and `Window::drawTriangle` calls (whether they throw or
not). -/
inductive Window.DepthReachable (M : FloatMath K) (width height : Int) : Window K → Prop
  | new : Window.DepthReachable M width height (Window.new width height)
  | clear (w : Window K) : Window.DepthReachable M width height w →
      Window.DepthReachable M width height w.clear
  | clearDepth (w : Window K) : Window.DepthReachable M width height w →
      Window.DepthReachable M width height { w with zBuffer := w.zBuffer.clear }
  | drawTriangle (w : Window K) (t : Triangle K) (cam : Camera K) :
      Window.DepthReachable M width height w →
      Window.DepthReachable M width height (w.drawTriangle M t cam).1

/-- The part of a point that `Window::drawLine` and `Window::drawTriangle` read:
`cameraPos` and the `x`, `y` of `screenPos`; every other field is reset. -/
def Point.core (p : Point K) : Point K :=
  { absolutePos := Vec3.zero
    cameraPos := p.cameraPos
    projectedPos := Vec3.zero
    screenPos := ⟨p.screenPos.x, p.screenPos.y, 0⟩
    distToCamera := 0 }

/-- The part of a triangle that `Window::drawTriangle` reads: the cores of the three
vertices and the colour. -/
def Triangle.core (t : Triangle K) : Triangle K :=
  { p1 := t.p1.core
    p2 := t.p2.core
    p3 := t.p3.core
    normal := Vec3.zero
    r := t.r
    g := t.g
    b := t.b }

/-- The part of a line that `Window::drawLine` reads. -/
def Line.core (l : Line K) : Line K :=
  { p1 := l.p1.core, p2 := l.p2.core }

end Defs

/-! ## Concrete inputs -/

/-- An executable approximation of `<cmath>` over `ℚ` (truncated series and a few Newton
steps), for running the model on concrete inputs. -/
def approxMath : FloatMath ℚ where
  sqrt := fun v => Nat.iterate (fun s => (s + v / s) / 2) 6 ((v + 1) / 2)
  cos := fun t => 1 - t ^ 2 / 2 + t ^ 4 / 24 - t ^ 6 / 720
  sin := fun t => t - t ^ 3 / 6 + t ^ 5 / 120 - t ^ 7 / 5040
  tan := fun t => (t - t ^ 3 / 6 + t ^ 5 / 120 - t ^ 7 / 5040)
    / (1 - t ^ 2 / 2 + t ^ 4 / 24 - t ^ 6 / 720)
  pi := 355 / 113

/-- A point with the given world position whose derived fields are still zero. -/
def samplePoint (x y z : ℚ) : Point ℚ :=
  ⟨⟨x, y, z⟩, Vec3.zero, Vec3.zero, Vec3.zero, 0⟩

/-- A camera at the origin looking along `+x` with `maxPlaneCoord = 1`. -/
def sampleCamera : Camera ℚ :=
  ⟨Vec3.zero, 0, 0, 90, 355 / 226, 1, ⟨1, 0, 0⟩, ⟨1, 0, 0⟩⟩

/-- A red triangle in front of `sampleCamera`, with its screen positions for an
`8 × 8` window. -/
def sampleTriangle : Triangle ℚ :=
  { p1 := ⟨⟨5, -2, -2⟩, ⟨5, -2, -2⟩, ⟨-2 / 5, -2 / 5, 1⟩, ⟨28 / 5, 28 / 5, 0⟩, 6⟩
    p2 := ⟨⟨5, 2, -2⟩, ⟨5, 2, -2⟩, ⟨2 / 5, -2 / 5, 1⟩, ⟨12 / 5, 28 / 5, 0⟩, 6⟩
    p3 := ⟨⟨5, 0, 3⟩, ⟨5, 0, 3⟩, ⟨0, 3 / 5, 1⟩, ⟨4, 8 / 5, 0⟩, 6⟩
    normal := ⟨1, 0, 0⟩
    r := 255
    g := 0
    b := 0 }

/-- A line whose screen end points are far outside an `8 × 8` window. -/
def sampleLine : Line ℚ :=
  { p1 := ⟨⟨5, 30, 2⟩, ⟨5, 30, 2⟩, ⟨6, 2 / 5, 1⟩, ⟨-20, 12 / 5, 0⟩, 31⟩
    p2 := ⟨⟨5, -40, -9⟩, ⟨5, -40, -9⟩, ⟨-8, -9 / 5, 1⟩, ⟨36, 56 / 5, 0⟩, 42⟩ }

/-- A triangle whose third vertex is behind `sampleCamera`. -/
def splitTriangle : Triangle ℚ :=
  { p1 := samplePoint 5 (-2) (-2)
    p2 := samplePoint 5 2 (-2)
    p3 := samplePoint (-1) 0 3
    normal := ⟨0, 0, 1⟩
    r := 10
    g := 200
    b := 30 }

/-- A line whose screen end points `(0, 0)` and `(2.75, 0)` lie inside a `4 × 1` window. -/
def gapLine : Line ℚ :=
  { p1 := ⟨Vec3.zero, Vec3.zero, Vec3.zero, ⟨0, 0, 0⟩, 0⟩
    p2 := ⟨Vec3.zero, Vec3.zero, Vec3.zero, ⟨11 / 4, 0, 0⟩, 0⟩ }

/-! ## Loops -/

section Loops

variable {ι σ : Type}

theorem loopFrom_preserves [Add ι] [One ι] (P : σ → Prop) (body : ι → σ → σ × Option String)
    (hbody : ∀ i s, P s → P (body i s).1) :
    ∀ (n : Nat) (i : ι) (s : σ), P s → P (loopFrom n i body s).1 := by
  intro n
  induction n with
  | zero => intro i s hs; simpa [loopFrom] using hs
  | succ n ih =>
    intro i s hs
    have h1 := hbody i s hs
    rw [loopFrom]
    rcases hb : body i s with ⟨s', _ | e⟩
    · rw [hb] at h1
      exact ih (i + 1) s' h1
    · rw [hb] at h1
      exact h1

theorem loopFrom_ok [LinearOrderedCommRing ι] (P : σ → Prop) (body : ι → σ → σ × Option String) :
    ∀ (n : Nat) (i : ι) (s : σ), P s →
      (∀ j s, i ≤ j → j + 1 ≤ i + (n : ι) → P s → (body j s).2 = none ∧ P (body j s).1) →
      (loopFrom n i body s).2 = none ∧ P (loopFrom n i body s).1 := by
  intro n
  induction n with
  | zero => intro i s hs _; simpa [loopFrom] using hs
  | succ n ih =>
    intro i s hs hbody
    have h1 := hbody i s le_rfl (by push_cast; linarith [Nat.cast_nonneg (α := ι) n]) hs
    rw [loopFrom]
    rcases hb : body i s with ⟨s', _ | e⟩
    · rw [hb] at h1
      refine ih (i + 1) s' h1.2 ?_
      intro j t hij hjn ht
      refine hbody j t (by linarith) ?_ ht
      push_cast
      linarith
    · rw [hb] at h1
      simp at h1

/-- The guard `v <= hi` of `for (v = lo; v <= hi; v++)` over `int` holds on exactly the
first `(hi + 1 - lo).toNat` values of `v`. -/
theorem trips_int_le (lo hi : Int) (k : Nat) : lo + k ≤ hi ↔ k < (hi + 1 - lo).toNat := by
  omega

/-- The guard `v < hi` of `for (v = lo; v < hi; v++)` over `int` holds on exactly the
first `(hi - lo).toNat` values of `v`. -/
theorem trips_int_lt (lo hi : Int) (k : Nat) : lo + k < hi ↔ k < (hi - lo).toNat := by
  omega

/-- The guard `v < hi` of `for (v = lo; v < hi; v++)` over `float` holds on exactly the
first `⌈hi - lo⌉.toNat` values of `v`. -/
theorem trips_float {K : Type} [LinearOrderedField K] [FloorRing K] (lo hi : K) (k : Nat) :
    lo + (k : K) < hi ↔ k < ⌈hi - lo⌉.toNat := by
  rw [Int.lt_toNat, Int.lt_ceil]
  simp only [Int.cast_natCast]
  constructor <;> intro h <;> linarith

end Loops

/-! ## Buffer accessors -/

section Buffers

variable {K : Type} [LinearOrderedField K] [FloorRing K]

theorem Window.sameShape_refl (w : Window K) : w.SameShape w :=
  ⟨rfl, rfl, rfl, rfl, rfl, rfl, rfl, rfl⟩

theorem Window.sameShape_trans {a b c : Window K} (h1 : a.SameShape b) (h2 : b.SameShape c) :
    a.SameShape c :=
  ⟨h2.width.trans h1.width, h2.height.trans h1.height, h2.pixelWidth.trans h1.pixelWidth,
    h2.pixelHeight.trans h1.pixelHeight, h2.depthWidth.trans h1.depthWidth,
    h2.depthHeight.trans h1.depthHeight, h2.pixelLength.trans h1.pixelLength,
    h2.depthLength.trans h1.depthLength⟩

theorem Window.WF.of_sameShape {w w' : Window K} (h : w.WF) (hs : w.SameShape w') : w'.WF :=
  ⟨by rw [hs.pixelWidth, hs.width, h.pixelWidth], by rw [hs.pixelHeight, hs.height, h.pixelHeight],
    by rw [hs.depthWidth, hs.width, h.depthWidth], by rw [hs.depthHeight, hs.height, h.depthHeight],
    by rw [hs.pixelLength, hs.width, hs.height, h.pixelLength],
    by rw [hs.depthLength, hs.width, hs.height, h.depthLength]⟩

theorem PixelArray.pixelIndex_ok (pa : PixelArray) {x y : Int} (hx : 0 ≤ x) (hx' : x < pa.width)
    (hy : 0 ≤ y) (hy' : y < pa.height) : pa.getIndex x y = .ok ((pa.width * y + x) * 3) := by
  unfold PixelArray.getIndex
  rw [if_neg]
  omega

theorem ZBuffer.depthIndex_ok (zb : ZBuffer K) {x y : Int} (hx : 0 ≤ x) (hx' : x < zb.width)
    (hy : 0 ≤ y) (hy' : y < zb.height) : zb.getIndex x y = .ok (zb.width * y + x) := by
  unfold ZBuffer.getIndex
  rw [if_neg]
  omega

theorem PixelArray.setPixel_shape (pa : PixelArray) (x y color : Int) :
    (pa.setPixel x y color).1.width = pa.width ∧ (pa.setPixel x y color).1.height = pa.height ∧
      (pa.setPixel x y color).1.data.length = pa.data.length := by
  unfold PixelArray.setPixel
  split
  · simp
  · split <;> simp

theorem PixelArray.setPixelRGB_shape (pa : PixelArray) (x y r g b : Int) :
    (pa.setPixelRGB x y r g b).1.width = pa.width ∧
      (pa.setPixelRGB x y r g b).1.height = pa.height ∧
      (pa.setPixelRGB x y r g b).1.data.length = pa.data.length := by
  unfold PixelArray.setPixelRGB
  split
  · simp
  · split <;> simp

theorem ZBuffer.setDepth_shape (zb : ZBuffer K) (x y : Int) (depth : K) :
    (zb.setDepth x y depth).1.width = zb.width ∧ (zb.setDepth x y depth).1.height = zb.height ∧
      (zb.setDepth x y depth).1.data.length = zb.data.length := by
  unfold ZBuffer.setDepth
  split
  · simp
  · split <;> simp

theorem valid_set {l : List Int} (h : ∀ v ∈ l, 0 ≤ v ∧ v ≤ 255) (i : Nat) {c : Int}
    (hc : 0 ≤ c ∧ c ≤ 255) : ∀ v ∈ l.set i c, 0 ≤ v ∧ v ≤ 255 := by
  intro v hv
  rcases List.mem_or_eq_of_mem_set hv with h1 | h1
  · exact h v h1
  · rw [h1]; exact hc

theorem PixelArray.setPixel_valid (pa : PixelArray) (x y color : Int) (h : pa.Valid) :
    (pa.setPixel x y color).1.Valid := by
  unfold PixelArray.setPixel
  split
  · exact h
  · rename_i hc
    have hc' : 0 ≤ color ∧ color ≤ 255 := by omega
    split
    · exact h
    · exact valid_set (valid_set (valid_set h _ hc') _ hc') _ hc'

theorem PixelArray.setPixelRGB_valid (pa : PixelArray) (x y r g b : Int) (h : pa.Valid) :
    (pa.setPixelRGB x y r g b).1.Valid := by
  unfold PixelArray.setPixelRGB
  split
  · exact h
  · rename_i hc
    split
    · exact h
    · exact valid_set (valid_set (valid_set h _ (by omega)) _ (by omega)) _ (by omega)

theorem PixelArray.setPixel_ok (pa : PixelArray) {x y color : Int} (hc : 0 ≤ color ∧ color ≤ 255)
    (hx : 0 ≤ x) (hx' : x < pa.width) (hy : 0 ≤ y) (hy' : y < pa.height) :
    (pa.setPixel x y color).2 = none := by
  unfold PixelArray.setPixel
  rw [if_neg (by omega), PixelArray.pixelIndex_ok pa hx hx' hy hy']

theorem PixelArray.setPixelRGB_ok (pa : PixelArray) {x y r g b : Int} (hr : 0 ≤ r ∧ r ≤ 255)
    (hg : 0 ≤ g ∧ g ≤ 255) (hb : 0 ≤ b ∧ b ≤ 255)
    (hx : 0 ≤ x) (hx' : x < pa.width) (hy : 0 ≤ y) (hy' : y < pa.height) :
    (pa.setPixelRGB x y r g b).2 = none := by
  unfold PixelArray.setPixelRGB
  rw [if_neg (by omega), PixelArray.pixelIndex_ok pa hx hx' hy hy']

theorem ZBuffer.setDepth_ok (zb : ZBuffer K) {x y : Int} {depth : K} (hd : 0 ≤ depth)
    (hx : 0 ≤ x) (hx' : x < zb.width) (hy : 0 ≤ y) (hy' : y < zb.height) :
    (zb.setDepth x y depth).2 = none := by
  unfold ZBuffer.setDepth
  rw [if_neg (not_lt.mpr hd), ZBuffer.depthIndex_ok zb hx hx' hy hy']

theorem ZBuffer.getDepth_ok (zb : ZBuffer K) {x y : Int}
    (hx : 0 ≤ x) (hx' : x < zb.width) (hy : 0 ≤ y) (hy' : y < zb.height) :
    zb.getDepth x y = .ok (zb.data.getD (zb.width * y + x).toNat 0) := by
  unfold ZBuffer.getDepth
  rw [ZBuffer.depthIndex_ok zb hx hx' hy hy']

/-- The loop of the two `clear` methods on the raw vector. -/
theorem fill_getElem? {α : Type} (v : α) :
    ∀ (n i : Nat) (xs : List α) (j : Nat),
      (loopFrom n i (fun k (l : List α) => (l.set k v, none)) xs).1[j]? =
        if i ≤ j ∧ j < i + n ∧ j < xs.length then some v else xs[j]? := by
  intro n
  induction n with
  | zero =>
    intro i xs j
    have h : ¬ (i ≤ j ∧ j < i + 0 ∧ j < xs.length) := by omega
    rw [if_neg h]
    rfl
  | succ n ih =>
    intro i xs j
    rw [loopFrom]
    simp only []
    rw [ih, List.getElem?_set, List.length_set]
    by_cases h1 : i = j
    · subst h1
      by_cases h2 : i < xs.length
      · simp [h2]
      · simp [h2]
        omega
    · by_cases h2 : i ≤ j
      · have h3 : i + 1 ≤ j := by omega
        have h4 : (j < i + 1 + n) = (j < i + (n + 1)) := by rw [Nat.add_right_comm, Nat.add_assoc]
        simp [h1, h2, h3, h4]
      · have h3 : ¬ i + 1 ≤ j := by omega
        simp [h1, h2, h3]

theorem fill_all {α : Type} (v : α) (xs : List α) :
    (loopFrom xs.length 0 (fun k (l : List α) => (l.set k v, none)) xs).1
      = List.replicate xs.length v := by
  apply List.ext_getElem?
  intro j
  rw [fill_getElem?, List.getElem?_replicate]
  by_cases h : j < xs.length
  · simp [h]
  · simp [h]
    omega

theorem PixelArray.pixelClear_loop (n i : Nat) (pa : PixelArray) :
    (loopFrom n i (fun i (p : PixelArray) => ({ p with data := p.data.set i 0 }, none)) pa).1
      = { pa with data := (loopFrom n i (fun k (l : List Int) => (l.set k 0, none)) pa.data).1 } := by
  induction n generalizing i pa with
  | zero => simp [loopFrom]
  | succ n ih => rw [loopFrom, loopFrom]; simp only []; rw [ih]

theorem ZBuffer.depthClear_loop (n i : Nat) (zb : ZBuffer K) :
    (loopFrom n i (fun i (z : ZBuffer K) => ({ z with data := z.data.set i 99999 }, none)) zb).1
      = { zb with data := (loopFrom n i (fun k (l : List K) => (l.set k 99999, none)) zb.data).1 } := by
  induction n generalizing i zb with
  | zero => simp [loopFrom]
  | succ n ih => rw [loopFrom, loopFrom]; simp only []; rw [ih]

theorem PixelArray.pixelClear_eq (pa : PixelArray) :
    pa.clear = { pa with data := List.replicate pa.data.length 0 } := by
  unfold PixelArray.clear
  rw [PixelArray.pixelClear_loop, fill_all]

theorem ZBuffer.depthClear_eq (zb : ZBuffer K) :
    zb.clear = { zb with data := List.replicate zb.data.length 99999 } := by
  unfold ZBuffer.clear
  rw [ZBuffer.depthClear_loop, fill_all]

end Buffers

/-! ## Rasterizer: what every call keeps, and that it does not throw -/

section Raster

variable {K : Type} [LinearOrderedField K] [FloorRing K]

theorem Window.keeps_refl (w : Window K) : w.Keeps w :=
  ⟨Window.sameShape_refl w, id⟩

theorem Window.keeps_trans {a b c : Window K} (h1 : a.Keeps b) (h2 : b.Keeps c) : a.Keeps c :=
  ⟨Window.sameShape_trans h1.1 h2.1, fun h => h2.2 (h1.2 h)⟩

theorem Window.keeps_setPixel (w : Window K) (x y color : Int) :
    w.Keeps { w with pixelArray := (w.pixelArray.setPixel x y color).1 } := by
  have h := PixelArray.setPixel_shape w.pixelArray x y color
  exact ⟨⟨rfl, rfl, h.1, h.2.1, rfl, rfl, h.2.2, rfl⟩,
    fun hv => PixelArray.setPixel_valid _ _ _ _ hv⟩

theorem Window.keeps_setPixelRGB (w : Window K) (x y r g b : Int) :
    w.Keeps { w with pixelArray := (w.pixelArray.setPixelRGB x y r g b).1 } := by
  have h := PixelArray.setPixelRGB_shape w.pixelArray x y r g b
  exact ⟨⟨rfl, rfl, h.1, h.2.1, rfl, rfl, h.2.2, rfl⟩,
    fun hv => PixelArray.setPixelRGB_valid _ _ _ _ _ _ hv⟩

theorem Window.keeps_setDepth (w : Window K) (x y : Int) (depth : K) :
    w.Keeps { w with zBuffer := (w.zBuffer.setDepth x y depth).1 } := by
  have h := ZBuffer.setDepth_shape w.zBuffer x y depth
  exact ⟨⟨rfl, rfl, rfl, rfl, h.1, h.2.1, rfl, h.2.2⟩, fun hv => hv⟩

theorem Window.keeps_clear (w : Window K) : w.Keeps w.clear := by
  unfold Window.clear
  rw [PixelArray.pixelClear_eq, ZBuffer.depthClear_eq]
  refine ⟨⟨rfl, rfl, rfl, rfl, rfl, rfl, by simp, by simp⟩, fun _ v hv => ?_⟩
  simp only [List.mem_replicate] at hv
  rw [hv.2]
  decide

/-- The trips of an `int` loop `for (v = lo; v <= hi; v++)` have `lo ≤ v ≤ hi`. -/
theorem trip_le_hi {lo hi j : Int} (h : j + 1 ≤ lo + ((hi + 1 - lo).toNat : Int)) (hj : lo ≤ j) :
    j ≤ hi := by
  omega

/-- The trips of a `float` loop `for (v = lo; v < hi; v++)` have `v < hi`. -/
theorem trip_lt_hi {lo hi j : K} (h : j + 1 ≤ lo + ((⌈hi - lo⌉.toNat : Nat) : K)) (hj : lo ≤ j) :
    j < hi := by
  by_cases hc : 0 ≤ ⌈hi - lo⌉
  · have h1 : ((⌈hi - lo⌉.toNat : Nat) : K) = ((⌈hi - lo⌉ : Int) : K) := by
      rw [← Int.cast_natCast, Int.toNat_of_nonneg hc]
    have h2 := Int.ceil_lt_add_one (hi - lo)
    rw [h1] at h
    linarith
  · have h1 : ⌈hi - lo⌉.toNat = 0 := by omega
    rw [h1] at h
    simp at h
    linarith

theorem Window.lineSpan_bounds (w : Window K) (yA yB : K) :
    0 ≤ (w.lineSpan yA yB).1 ∧ (w.lineSpan yA yB).2 ≤ w.height - 1 := by
  unfold Window.lineSpan
  exact ⟨le_max_left _ _, min_le_left _ _⟩

theorem utils.sortAndClamp_bounds (lo hi mx : Int) :
    0 ≤ (utils.sortAndClamp lo hi mx).1 ∧ (utils.sortAndClamp lo hi mx).2 ≤ mx := by
  unfold utils.sortAndClamp
  constructor
  · simp only []
    split <;> omega
  · simp only []
    split <;> omega

theorem Window.lineRun_keeps (w0 w : Window K) (x : Int) (span : Int × Int) (h : w0.Keeps w) :
    w0.Keeps (w.lineRun x span).1 := by
  unfold Window.lineRun
  apply loopFrom_preserves (P := fun w' => w0.Keeps w') _ _ _ _ _ h
  intro i s hs
  exact Window.keeps_trans hs (Window.keeps_setPixel s x i 255)

theorem Window.lineRun_ok (w : Window K) (hw : w.WF) (x : Int) (span : Int × Int)
    (hx : 0 ≤ x) (hx' : x < w.width) (hlo : 0 ≤ span.1) (hhi : span.2 ≤ w.height - 1) :
    (w.lineRun x span).2 = none := by
  unfold Window.lineRun
  refine (loopFrom_ok (P := fun w' => w.Keeps w') _ _ _ _ (Window.keeps_refl w) ?_).1
  intro j s hj hj' hs
  have hj2 := trip_le_hi hj' hj
  refine ⟨?_, Window.keeps_trans hs (Window.keeps_setPixel s x j 255)⟩
  apply PixelArray.setPixel_ok _ (by decide) hx _ (by omega)
  · rw [hs.1.pixelHeight, hw.pixelHeight]; omega
  · rw [hs.1.pixelWidth, hw.pixelWidth]; exact hx'

theorem Window.lineColumn_keeps (w0 : Window K) (dy : K) (x : Int) (s : Window K × K)
    (h : w0.Keeps s.1) : w0.Keeps (Window.lineColumn dy x s).1.1 := by
  have h1 := Window.lineRun_keeps w0 s.1 x (s.1.lineSpan s.2 (s.2 + dy)) h
  unfold Window.lineColumn
  simp only []
  split
  · rename_i heq; rw [heq] at h1; exact h1
  · rename_i heq; rw [heq] at h1; exact h1

theorem Window.lineColumn_ok (w0 : Window K) (hw : w0.WF) (dy : K) (x : Int) (s : Window K × K)
    (h : w0.Keeps s.1) (hx : 0 ≤ x) (hx' : x < w0.width) :
    (Window.lineColumn dy x s).2 = none := by
  have hw' : s.1.WF := hw.of_sameShape h.1
  have hb := s.1.lineSpan_bounds s.2 (s.2 + dy)
  have h1 := Window.lineRun_ok s.1 hw' x (s.1.lineSpan s.2 (s.2 + dy)) hx
    (by rw [h.1.width]; exact hx') hb.1 hb.2
  unfold Window.lineColumn
  simp only []
  split
  · rename_i heq; rw [heq] at h1; simp at h1
  · rfl

theorem Window.drawLine_keeps (w : Window K) (line : Line K) : w.Keeps (w.drawLine line).1 := by
  unfold Window.drawLine
  lift_lets
  extract_lets a b ab a' b' dy startVal endVal startVal' y x x2
  simp only []
  split
  · split
    · exact Window.keeps_refl w
    · exact Window.lineRun_keeps w w _ _ (Window.keeps_refl w)
  · have h1 := loopFrom_preserves (P := fun s : Window K × K => w.Keeps s.1) (Window.lineColumn dy)
        (fun i s hs => Window.lineColumn_keeps w _ i s hs) (endVal - startVal).toNat startVal
        (w, y) (Window.keeps_refl w)
    split
    · rename_i s e heq
      rw [heq] at h1
      exact h1
    · rename_i s heq
      rw [heq] at h1
      split
      · exact h1
      · have h2 := Window.lineRun_keeps w s.1 x (s.1.lineSpan a'.screenPos.y
          (a'.screenPos.y + (↑startVal - a'.screenPos.x) * dy)) h1
        split
        · rename_i w' e heq2
          rw [heq2] at h2
          exact h2
        · rename_i w' heq2
          rw [heq2] at h2
          split
          · exact h2
          · exact Window.lineRun_keeps w w' _ _ h2

theorem Window.drawLine_ok (w : Window K) (hw : w.WF) (line : Line K) :
    (w.drawLine line).2 = none := by
  unfold Window.drawLine
  lift_lets
  extract_lets a b ab a' b' dy startVal endVal startVal' y x x2
  simp only []
  split
  · split
    · rfl
    · rename_i h
      have hb := w.lineSpan_bounds a'.screenPos.y b'.screenPos.y
      exact Window.lineRun_ok w hw _ _ (by omega) (by omega) hb.1 hb.2
  · have h1 := loopFrom_ok (P := fun s : Window K × K => w.Keeps s.1) (Window.lineColumn dy)
        (endVal - startVal).toNat startVal (w, y) (Window.keeps_refl w) (by
          intro j s hj hj' hs
          refine ⟨Window.lineColumn_ok w hw dy j s hs ?_ ?_, Window.lineColumn_keeps w dy j s hs⟩
          · have : (0 : Int) ≤ startVal := le_max_left _ _
            omega
          · have : endVal ≤ w.width - 1 := min_le_left _ _
            omega)
    split
    · rename_i s e heq
      rw [heq] at h1
      simp at h1
    · rename_i s heq
      rw [heq] at h1
      have hs : w.Keeps s.1 := h1.2
      have hws : s.1.WF := hw.of_sameShape hs.1
      split
      · rfl
      · rename_i hx
        have hb := s.1.lineSpan_bounds a'.screenPos.y
          (a'.screenPos.y + (↑startVal - a'.screenPos.x) * dy)
        have h2 := Window.lineRun_ok s.1 hws x _ (by omega) (by omega) hb.1 hb.2
        have h3 := Window.lineRun_keeps w s.1 x (s.1.lineSpan a'.screenPos.y
          (a'.screenPos.y + (↑startVal - a'.screenPos.x) * dy)) hs
        split
        · rename_i w' e heq2
          rw [heq2] at h2
          simp at h2
        · rename_i w' heq2
          rw [heq2] at h3
          split
          · rfl
          · rename_i hx2
            have hw' : w'.WF := hw.of_sameShape h3.1
            have hb2 := w'.lineSpan_bounds b'.screenPos.y
              (b'.screenPos.y - (b'.screenPos.x - ↑endVal) * dy)
            exact Window.lineRun_ok w' hw' _ _ (by omega) (by omega) hb2.1 hb2.2

theorem Window.depthTest_keeps (w : Window K) (x y : Int) (depth : K) (r g b : Int) :
    w.Keeps (w.depthTest x y depth r g b).1 := by
  unfold Window.depthTest
  split
  · exact Window.keeps_refl w
  · split
    · have h1 := Window.keeps_setDepth w x y depth
      split
      · rename_i zb e heq
        rw [heq] at h1
        exact h1
      · rename_i zb heq
        rw [heq] at h1
        exact Window.keeps_trans h1 (Window.keeps_setPixelRGB { w with zBuffer := zb } x y r g b)
    · exact Window.keeps_refl w

theorem Window.depthTest_ok (w : Window K) (hw : w.WF) {x y : Int} {depth : K} {r g b : Int}
    (hx : 0 ≤ x) (hx' : x < w.width) (hy : 0 ≤ y) (hy' : y < w.height) (hd : 0 ≤ depth)
    (hr : 0 ≤ r ∧ r ≤ 255) (hg : 0 ≤ g ∧ g ≤ 255) (hb : 0 ≤ b ∧ b ≤ 255) :
    (w.depthTest x y depth r g b).2 = none := by
  have hzx : x < w.zBuffer.width := by rw [hw.depthWidth]; exact hx'
  have hzy : y < w.zBuffer.height := by rw [hw.depthHeight]; exact hy'
  have hpx : x < w.pixelArray.width := by rw [hw.pixelWidth]; exact hx'
  have hpy : y < w.pixelArray.height := by rw [hw.pixelHeight]; exact hy'
  unfold Window.depthTest
  rw [ZBuffer.getDepth_ok w.zBuffer hx hzx hy hzy]
  simp only []
  split
  · have h1 := ZBuffer.setDepth_ok w.zBuffer hd hx hzx hy hzy
    split
    · rename_i zb e heq
      rw [heq] at h1
      simp at h1
    · exact PixelArray.setPixelRGB_ok w.pixelArray hr hg hb hx hpx hy hpy
  · rfl

theorem ctrunc_bounds {v : K} {n : Int} (h0 : 0 ≤ v) (h1 : v < (n : K)) :
    0 ≤ ctrunc v ∧ ctrunc v < n := by
  unfold ctrunc
  rw [if_pos h0]
  refine ⟨Int.floor_nonneg.mpr h0, ?_⟩
  have h2 : ((⌊v⌋ : Int) : K) < (n : K) := lt_of_le_of_lt (Int.floor_le v) h1
  exact_mod_cast h2

theorem Window.shadePixel_keeps (M : FloatMath K) (triangle : Triangle K) (cam : Camera K)
    (normal : Vec3 K) (d1 cameraY x : K) (y : Int) (w : Window K) :
    w.Keeps (w.shadePixel M triangle cam normal d1 cameraY x y).1 := by
  unfold Window.shadePixel
  exact Window.depthTest_keeps w _ _ _ _ _ _

theorem Window.shadePixel_ok (M : FloatMath K) (triangle : Triangle K) (cam : Camera K)
    (normal : Vec3 K) (d1 cameraY x : K) (y : Int) (w : Window K) (hw : w.WF)
    (hc : triangle.ColorOk) (hx : 0 ≤ x) (hx' : x < (w.width : K)) (hy : 0 ≤ y)
    (hy' : y < w.height) :
    (w.shadePixel M triangle cam normal d1 cameraY x y).2 = none := by
  unfold Window.shadePixel
  have hb := ctrunc_bounds hx hx'
  refine Window.depthTest_ok w hw hb.1 hb.2 hy hy' ?_ hc.1 hc.2.1 hc.2.2
  split
  · exact le_rfl
  · rename_i h
    exact not_lt.mp h

theorem Window.fillColumn_keeps (M : FloatMath K) (triangle : Triangle K) (cam : Camera K)
    (normal : Vec3 K) (d1 dyShort dy_long x : K) (w0 : Window K) (s : Window K × K × K)
    (h : w0.Keeps s.1) :
    w0.Keeps (Window.fillColumn M triangle cam normal d1 dyShort dy_long x s).1.1 := by
  unfold Window.fillColumn
  lift_lets
  extract_lets w y1 y2 span cameraY
  have h1 := loopFrom_preserves (P := fun w' : Window K => w0.Keeps w')
    (Window.shadePixel M triangle cam normal d1 cameraY x)
    (fun i t ht => Window.keeps_trans ht (Window.shadePixel_keeps M triangle cam normal d1 cameraY x i t))
    (span.2 + 1 - span.1).toNat span.1 w h
  split
  · rename_i w' e heq
    rw [heq] at h1
    exact h1
  · rename_i w' heq
    rw [heq] at h1
    exact h1

theorem Window.fillColumn_ok (M : FloatMath K) (triangle : Triangle K) (cam : Camera K)
    (normal : Vec3 K) (d1 dyShort dy_long x : K) (w0 : Window K) (hw : w0.WF)
    (hc : triangle.ColorOk) (s : Window K × K × K) (h : w0.Keeps s.1)
    (hx : 0 ≤ x) (hx' : x < (w0.width : K)) :
    (Window.fillColumn M triangle cam normal d1 dyShort dy_long x s).2 = none := by
  unfold Window.fillColumn
  lift_lets
  extract_lets w y1 y2 span cameraY
  have hb : 0 ≤ span.1 ∧ span.2 ≤ w.height - 1 := utils.sortAndClamp_bounds _ _ _
  have hwh : w.height = w0.height := h.1.height
  have h1 := loopFrom_ok (P := fun w' : Window K => w0.Keeps w')
    (Window.shadePixel M triangle cam normal d1 cameraY x)
    (span.2 + 1 - span.1).toNat span.1 w h (by
      intro j t hj hj' ht
      have hj2 := trip_le_hi hj' hj
      have hwt : t.WF := hw.of_sameShape ht.1
      refine ⟨Window.shadePixel_ok M triangle cam normal d1 cameraY x j t hwt hc hx ?_
        (by omega) ?_, Window.keeps_trans ht (Window.shadePixel_keeps M triangle cam normal d1 cameraY x j t)⟩
      · rw [ht.1.width]; exact hx'
      · rw [ht.1.height]; omega)
  split
  · rename_i w' e heq
    rw [heq] at h1
    simp at h1
  · rfl

theorem sortByScreenX_sorted (p1 p2 p3 : Point K) :
    (sortByScreenX p1 p2 p3).1.screenPos.x ≤ (sortByScreenX p1 p2 p3).2.1.screenPos.x ∧
      (sortByScreenX p1 p2 p3).2.1.screenPos.x ≤ (sortByScreenX p1 p2 p3).2.2.screenPos.x := by
  unfold sortByScreenX
  simp only []
  split_ifs <;> simp_all <;> first | linarith | (constructor <;> linarith)

theorem utils.clampToRange_bounds (v mx : K) (h : 0 ≤ mx) :
    0 ≤ utils.clampToRange v mx ∧ utils.clampToRange v mx ≤ mx := by
  unfold utils.clampToRange
  split_ifs with h1 h2
  · exact ⟨le_rfl, h⟩
  · exact ⟨h, le_rfl⟩
  · exact ⟨not_lt.mp h1, not_lt.mp h2⟩

theorem utils.clampToRange_anti (a b mx : K) (h : mx < 0) (hab : a ≤ b) :
    utils.clampToRange b mx ≤ utils.clampToRange a mx := by
  unfold utils.clampToRange
  split_ifs <;> linarith

theorem Window.drawTriangle_keeps (M : FloatMath K) (w : Window K) (triangle : Triangle K)
    (cam : Camera K) : w.Keeps (w.drawTriangle M triangle cam).1 := by
  unfold Window.drawTriangle
  lift_lets
  extract_lets a b c normal d1 abc a' b' c' dy_long dy1 dy2 left mid right y1 y2 y1' y2'
  have h1 := loopFrom_preserves (P := fun s : Window K × K × K => w.Keeps s.1)
    (Window.fillColumn M triangle cam normal d1 dy1 dy_long)
    (fun i s hs => Window.fillColumn_keeps M triangle cam normal d1 dy1 dy_long i w s hs)
    ⌈mid - left⌉.toNat left (w, y1, y2) (Window.keeps_refl w)
  simp only []
  split
  · rename_i s e heq
    rw [heq] at h1
    exact h1
  · rename_i s heq
    rw [heq] at h1
    exact loopFrom_preserves (P := fun s : Window K × K × K => w.Keeps s.1)
      (Window.fillColumn M triangle cam normal d1 dy2 dy_long)
      (fun i s hs => Window.fillColumn_keeps M triangle cam normal d1 dy2 dy_long i w s hs)
      ⌈right - mid⌉.toNat mid (s.1, y1', y2') h1

/-- The columns visited by a column loop of `Window::drawTriangle` lie in `[0, width - 1)`. -/
theorem column_bounds {xa xb j : K} {width : Int} (hab : xa ≤ xb)
    (hj : utils.clampToRange xa ((width - 1 : Int) : K) ≤ j)
    (hj' : j + 1 ≤ utils.clampToRange xa ((width - 1 : Int) : K)
      + ((⌈utils.clampToRange xb ((width - 1 : Int) : K)
          - utils.clampToRange xa ((width - 1 : Int) : K)⌉.toNat : Nat) : K)) :
    0 ≤ j ∧ j < (width : K) := by
  have h1 := trip_lt_hi hj' hj
  by_cases hm : (0 : K) ≤ ((width - 1 : Int) : K)
  · have ha := utils.clampToRange_bounds xa _ hm
    have hb := utils.clampToRange_bounds xb _ hm
    refine ⟨by linarith, ?_⟩
    have h2 : ((width - 1 : Int) : K) < (width : K) := by push_cast; linarith
    linarith
  · have := utils.clampToRange_anti xa xb _ (not_le.mp hm) hab
    linarith

theorem Window.drawTriangle_ok (M : FloatMath K) (w : Window K) (hw : w.WF)
    (triangle : Triangle K) (hc : triangle.ColorOk) (cam : Camera K) :
    (w.drawTriangle M triangle cam).2 = none := by
  have hsort := sortByScreenX_sorted triangle.p1 triangle.p2 triangle.p3
  unfold Window.drawTriangle
  lift_lets
  extract_lets a b c normal d1 abc a' b' c' dy_long dy1 dy2 left mid right y1 y2 y1' y2'
  have h1 := loopFrom_ok (P := fun s : Window K × K × K => w.Keeps s.1)
    (Window.fillColumn M triangle cam normal d1 dy1 dy_long)
    ⌈mid - left⌉.toNat left (w, y1, y2) (Window.keeps_refl w) (by
      intro j s hj hj' hs
      have hb := column_bounds hsort.1 hj hj'
      exact ⟨Window.fillColumn_ok M triangle cam normal d1 dy1 dy_long j w hw hc s hs hb.1 hb.2,
        Window.fillColumn_keeps M triangle cam normal d1 dy1 dy_long j w s hs⟩)
  simp only []
  split
  · rename_i s e heq
    rw [heq] at h1
    simp at h1
  · rename_i s heq
    rw [heq] at h1
    have h2 := loopFrom_ok (P := fun s : Window K × K × K => w.Keeps s.1)
      (Window.fillColumn M triangle cam normal d1 dy2 dy_long)
      ⌈right - mid⌉.toNat mid (s.1, y1', y2') h1.2 (by
        intro j s hj hj' hs
        have hb := column_bounds hsort.2 hj hj'
        exact ⟨Window.fillColumn_ok M triangle cam normal d1 dy2 dy_long j w hw hc s hs hb.1 hb.2,
          Window.fillColumn_keeps M triangle cam normal d1 dy2 dy_long j w s hs⟩)
    exact h2.1

end Raster

/-! ## Reading back what was written -/

section ReadBack

variable {K : Type} [LinearOrderedField K] [FloorRing K]

theorem Window.wf_new (width height : Int) : (Window.new width height : Window K).WF :=
  ⟨rfl, rfl, rfl, rfl, by simp [Window.new, PixelArray.new], by simp [Window.new, ZBuffer.new]⟩

theorem index_lt {x y W H : Int} (hx : 0 ≤ x) (hx' : x < W) (hy : 0 ≤ y) (hy' : y < H) :
    0 ≤ W * y + x ∧ W * y + x + 1 ≤ W * H := by
  have h1 : 0 ≤ W * y := Int.mul_nonneg (by omega) hy
  have h2 : W * (y + 1) ≤ W * H := Int.mul_le_mul_of_nonneg_left (by omega) (by omega)
  have h3 : W * (y + 1) = W * y + W := by ring
  omega

theorem ZBuffer.getDepth_setDepth (zb : ZBuffer K) {x y : Int} (depth : K)
    (hlen : zb.data.length = (zb.width * zb.height).toNat)
    (hx : 0 ≤ x) (hx' : x < zb.width) (hy : 0 ≤ y) (hy' : y < zb.height) (hd : 0 ≤ depth) :
    (zb.setDepth x y depth).1.getDepth x y = .ok depth := by
  have hi := index_lt hx hx' hy hy'
  have hs := ZBuffer.setDepth_shape zb x y depth
  rw [ZBuffer.getDepth_ok _ hx (by rw [hs.1]; exact hx') hy (by rw [hs.2.1]; exact hy'), hs.1]
  unfold ZBuffer.setDepth
  rw [if_neg (not_lt.mpr hd), ZBuffer.depthIndex_ok zb hx hx' hy hy']
  have hlt : (zb.width * y + x).toNat < zb.data.length := by rw [hlen]; omega
  simp [List.getElem?_set_self hlt]

theorem PixelArray.getPixel_setPixelRGB (pa : PixelArray) {x y r g b : Int}
    (hlen : pa.data.length = (pa.width * pa.height * 3).toNat)
    (hx : 0 ≤ x) (hx' : x < pa.width) (hy : 0 ≤ y) (hy' : y < pa.height)
    (hr : 0 ≤ r ∧ r ≤ 255) (hg : 0 ≤ g ∧ g ≤ 255) (hb : 0 ≤ b ∧ b ≤ 255) :
    (pa.setPixelRGB x y r g b).1.getPixel x y = .ok [r, g, b] := by
  have hi := index_lt hx hx' hy hy'
  have hs := PixelArray.setPixelRGB_shape pa x y r g b
  unfold PixelArray.getPixel
  rw [PixelArray.pixelIndex_ok _ hx (by rw [hs.1]; exact hx') hy (by rw [hs.2.1]; exact hy'), hs.1]
  unfold PixelArray.setPixelRGB
  rw [if_neg (by omega), PixelArray.pixelIndex_ok pa hx hx' hy hy']
  obtain ⟨n, hn⟩ : ∃ n : Nat, (pa.width * y + x) * 3 = (n : Int) :=
    ⟨((pa.width * y + x) * 3).toNat, by omega⟩
  have h0 : n + 2 < pa.data.length := by rw [hlen]; omega
  have e1 : ((n : Int) + 1).toNat = n + 1 := by omega
  have e2 : ((n : Int) + 2).toNat = n + 2 := by omega
  simp only [hn, e1, e2, Int.toNat_ofNat, List.getD_eq_getElem?_getD]
  have g0 : (((pa.data.set n r).set (n + 1) g).set (n + 2) b)[n]? = some r := by
    rw [List.getElem?_set_ne (by omega), List.getElem?_set_ne (by omega),
      List.getElem?_set_self (by omega)]
  have g1 : (((pa.data.set n r).set (n + 1) g).set (n + 2) b)[n + 1]? = some g := by
    rw [List.getElem?_set_ne (by omega), List.getElem?_set_self (by simp; omega)]
  have g2 : (((pa.data.set n r).set (n + 1) g).set (n + 2) b)[n + 2]? = some b := by
    rw [List.getElem?_set_self (by simp; omega)]
  rw [g0, g1, g2]
  rfl

/-- A fragment that is nearer than the stored depth is written. -/
theorem Window.depthTest_pass (w : Window K) (hw : w.WF) {x y : Int} {depth old : K}
    {r g b : Int} (hx : 0 ≤ x) (hx' : x < w.width) (hy : 0 ≤ y) (hy' : y < w.height)
    (hd : 0 ≤ depth) (hr : 0 ≤ r ∧ r ≤ 255) (hg : 0 ≤ g ∧ g ≤ 255) (hb : 0 ≤ b ∧ b ≤ 255)
    (hold : w.zBuffer.getDepth x y = .ok old) (hlt : depth < old) :
    (w.depthTest x y depth r g b).2 = none ∧
      (w.depthTest x y depth r g b).1.zBuffer.getDepth x y = .ok depth ∧
      (w.depthTest x y depth r g b).1.pixelArray.getPixel x y = .ok [r, g, b] := by
  have hzx : x < w.zBuffer.width := by rw [hw.depthWidth]; exact hx'
  have hzy : y < w.zBuffer.height := by rw [hw.depthHeight]; exact hy'
  have hpx : x < w.pixelArray.width := by rw [hw.pixelWidth]; exact hx'
  have hpy : y < w.pixelArray.height := by rw [hw.pixelHeight]; exact hy'
  have hz := ZBuffer.getDepth_setDepth w.zBuffer depth
    (by rw [hw.depthLength, hw.depthWidth, hw.depthHeight]) hx hzx hy hzy hd
  have hp := PixelArray.getPixel_setPixelRGB w.pixelArray
    (by rw [hw.pixelLength, hw.pixelWidth, hw.pixelHeight]) hx hpx hy hpy hr hg hb
  have h1 := ZBuffer.setDepth_ok w.zBuffer hd hx hzx hy hzy
  have h2 := PixelArray.setPixelRGB_ok w.pixelArray hr hg hb hx hpx hy hpy
  unfold Window.depthTest
  rw [hold]
  simp only [hlt, if_true]
  split
  · rename_i zb e heq
    rw [heq] at h1
    simp at h1
  · rename_i zb heq
    rw [heq] at hz
    exact ⟨h2, hz, hp⟩

/-- A fragment that is not nearer than the stored depth changes nothing. -/
theorem Window.depthTest_fail (w : Window K) {x y : Int} (depth : K) {old : K} (r g b : Int)
    (hold : w.zBuffer.getDepth x y = .ok old) (hlt : ¬ depth < old) :
    w.depthTest x y depth r g b = (w, none) := by
  unfold Window.depthTest
  rw [hold]
  simp only [hlt, if_false]

/-- In the cleared state every in-bounds pixel has the sentinel depth. -/
theorem Window.getDepth_clear (w : Window K) (hw : w.WF) {x y : Int}
    (hx : 0 ≤ x) (hx' : x < w.width) (hy : 0 ≤ y) (hy' : y < w.height) :
    w.clear.zBuffer.getDepth x y = .ok 99999 := by
  have hi := index_lt hx hx' hy hy'
  have hzw : w.clear.zBuffer.width = w.width := by
    rw [(Window.keeps_clear w).1.depthWidth, hw.depthWidth]
  have hzh : w.clear.zBuffer.height = w.height := by
    rw [(Window.keeps_clear w).1.depthHeight, hw.depthHeight]
  rw [ZBuffer.getDepth_ok _ hx (by rw [hzw]; exact hx') hy (by rw [hzh]; exact hy'), hzw]
  unfold Window.clear
  rw [ZBuffer.depthClear_eq]
  have hlt : (w.width * y + x).toNat < w.zBuffer.data.length := by
    rw [hw.depthLength]; omega
  simp [List.getElem?_replicate, hlt]

/-- A freshly constructed window is in the cleared state. -/
theorem Window.clear_new (width height : Int) :
    (Window.new width height : Window K).clear = Window.new width height := by
  unfold Window.clear
  rw [PixelArray.pixelClear_eq, ZBuffer.depthClear_eq]
  simp [Window.new, PixelArray.new, ZBuffer.new]

/-- Distinct in-bounds pixels have distinct row-major positions. -/
theorem pixel_index_inj {x y x' y' W H : Int} (hx : 0 ≤ x) (hx' : x < W) (hy : 0 ≤ y)
    (hy' : y < H) (kx : 0 ≤ x') (kx' : x' < W) (ky : 0 ≤ y') (ky' : y' < H)
    (h : W * y + x = W * y' + x') : x = x' ∧ y = y' := by
  have hW : 0 ≤ W := by omega
  rcases lt_trichotomy y y' with h1 | h1 | h1
  · have h2 : W * (y + 1) ≤ W * y' := Int.mul_le_mul_of_nonneg_left (by omega) hW
    have h3 : W * (y + 1) = W * y + W := by ring
    omega
  · subst h1
    omega
  · have h2 : W * (y' + 1) ≤ W * y := Int.mul_le_mul_of_nonneg_left (by omega) hW
    have h3 : W * (y' + 1) = W * y' + W := by ring
    omega

/-- Writing a pixel leaves every other in-bounds pixel as it was. -/
theorem PixelArray.getPixel_setPixelRGB_other (pa : PixelArray) {x y x' y' : Int} (r g b : Int)
    (hx : 0 ≤ x) (hx' : x < pa.width) (hy : 0 ≤ y) (hy' : y < pa.height)
    (kx : 0 ≤ x') (kx' : x' < pa.width) (ky : 0 ≤ y') (ky' : y' < pa.height)
    (hne : ¬ (x' = x ∧ y' = y)) :
    (pa.setPixelRGB x y r g b).1.getPixel x' y' = pa.getPixel x' y' := by
  have hs := PixelArray.setPixelRGB_shape pa x y r g b
  have hi := index_lt hx hx' hy hy'
  have hj := index_lt kx kx' ky ky'
  have hq : pa.width * y' + x' ≠ pa.width * y + x := by
    intro h
    have := pixel_index_inj kx kx' ky ky' hx hx' hy hy' h
    exact hne this
  by_cases hc : r < 0 ∨ g < 0 ∨ b < 0 ∨ r > 255 ∨ g > 255 ∨ b > 255
  · have e : (pa.setPixelRGB x y r g b).1 = pa := by
      unfold PixelArray.setPixelRGB
      rw [if_pos hc]
    rw [e]
  · have e : (pa.setPixelRGB x y r g b).1.data =
        ((pa.data.set ((pa.width * y + x) * 3).toNat r).set
          ((pa.width * y + x) * 3 + 1).toNat g).set ((pa.width * y + x) * 3 + 2).toNat b := by
      unfold PixelArray.setPixelRGB
      rw [if_neg hc, PixelArray.pixelIndex_ok pa hx hx' hy hy']
    unfold PixelArray.getPixel
    rw [PixelArray.pixelIndex_ok (pa.setPixelRGB x y r g b).1 kx (by rw [hs.1]; exact kx') ky
      (by rw [hs.2.1]; exact ky'), PixelArray.pixelIndex_ok pa kx kx' ky ky', hs.1]
    simp only [e, List.getD_eq_getElem?_getD]
    rw [List.getElem?_set_ne (by omega), List.getElem?_set_ne (by omega),
      List.getElem?_set_ne (by omega), List.getElem?_set_ne (by omega),
      List.getElem?_set_ne (by omega), List.getElem?_set_ne (by omega),
      List.getElem?_set_ne (by omega), List.getElem?_set_ne (by omega),
      List.getElem?_set_ne (by omega)]

end ReadBack

/-! ## Reachable window states -/

section Reach

variable {K : Type} [LinearOrderedField K] [FloorRing K]

theorem Window.keeps_clearPixels (w : Window K) :
    w.Keeps { w with pixelArray := w.pixelArray.clear } := by
  rw [PixelArray.pixelClear_eq]
  refine ⟨⟨rfl, rfl, rfl, rfl, rfl, rfl, by simp, rfl⟩, fun _ v hv => ?_⟩
  simp only [List.mem_replicate] at hv
  rw [hv.2]
  decide

theorem Window.keeps_of_reachable (M : FloatMath K) (width height : Int) (w : Window K)
    (h : w.Reachable M width height) : (Window.new width height : Window K).Keeps w := by
  induction h with
  | new => exact Window.keeps_refl _
  | clear w _ ih => exact Window.keeps_trans ih (Window.keeps_clear w)
  | clearPixels w _ ih => exact Window.keeps_trans ih (Window.keeps_clearPixels w)
  | setPixel w x y color _ ih => exact Window.keeps_trans ih (Window.keeps_setPixel w x y color)
  | setPixelRGB w x y r g b _ ih =>
    exact Window.keeps_trans ih (Window.keeps_setPixelRGB w x y r g b)
  | drawLine w line _ ih => exact Window.keeps_trans ih (Window.drawLine_keeps w line)
  | drawTriangle w t cam _ ih =>
    exact Window.keeps_trans ih (Window.drawTriangle_keeps M w t cam)

theorem Window.wf_of_reachable (M : FloatMath K) (width height : Int) (w : Window K)
    (h : w.Reachable M width height) : w.WF :=
  (Window.wf_new width height).of_sameShape (Window.keeps_of_reachable M width height w h).1

end Reach

/-! ## The view transform -/

section View

variable {K : Type} [LinearOrderedField K] [FloorRing K]

theorem realMath_lawful : realMath.Lawful where
  cos_neg := Real.cos_neg
  sin_neg := Real.sin_neg
  cos_sq_add_sin_sq := fun t => by
    have h := Real.cos_sq_add_sin_sq t
    simp only [realMath]
    nlinarith [h]
  cos_zero := Real.cos_zero
  sin_zero := Real.sin_zero
  pi_pos := Real.pi_pos
  tan_pos := fun t h0 h1 => Real.tan_pos_of_pos_of_lt_pi_div_two h0 h1
  sqrt_nonneg := Real.sqrt_nonneg
  sqrt_mul_self := fun t h => Real.mul_self_sqrt h

theorem Vec3.rotateZ_neg_cancel (M : FloatMath K) (hM : M.Lawful) (v : Vec3 K) (t : K) :
    (v.rotateZ M t).rotateZ M (-t) = v := by
  have h := hM.cos_sq_add_sin_sq t
  ext
  · simp only [Vec3.rotateZ, hM.cos_neg, hM.sin_neg]
    linear_combination v.x * h
  · simp only [Vec3.rotateZ, hM.cos_neg, hM.sin_neg]
    linear_combination v.y * h
  · rfl

theorem Vec3.rotateY_neg_cancel (M : FloatMath K) (hM : M.Lawful) (v : Vec3 K) (t : K) :
    (v.rotateY M t).rotateY M (-t) = v := by
  have h := hM.cos_sq_add_sin_sq t
  ext
  · simp only [Vec3.rotateY, hM.cos_neg, hM.sin_neg]
    linear_combination v.x * h
  · rfl
  · simp only [Vec3.rotateY, hM.cos_neg, hM.sin_neg]
    linear_combination v.z * h

theorem Vec3.add_sub_cancel_left (p v : Vec3 K) : (p.add v).sub p = v := by
  ext <;> simp [Vec3.add, Vec3.sub]

/-- The view transform undoes `rotateY(thetaY)` followed by `rotateZ(thetaZ)`. -/
theorem Point.cameraPos_of_view (M : FloatMath K) (hM : M.Lawful) (cam : Camera K) (v : Vec3 K)
    (p : Point K) (hp : p.absolutePos = cam.pos.add ((v.rotateY M cam.thetaY).rotateZ M cam.thetaZ)) :
    (p.calculateCameraPos M cam).cameraPos = v := by
  simp only [Point.calculateCameraPos, Vec3.rotate, hp, Vec3.add_sub_cancel_left,
    Vec3.rotateZ_neg_cancel M hM, Vec3.rotateY_neg_cancel M hM]

/-- The floor direction of a reachable camera is horizontal. -/
theorem Camera.floorDirection_z (M : FloatMath K) (hM : M.Lawful) (cam : Camera K)
    (h : cam.Reachable M) : cam.floorDirection.z = 0 := by
  induction h with
  | new pos thetaZ thetaY fov =>
    simp [Camera.new, Vec3.rotate, Vec3.rotateY, Vec3.rotateZ, hM.sin_zero]
  | default thetaZ thetaY => rfl
  | rotate cam thetaZ thetaY _ ih =>
    simp [Camera.rotate, Vec3.rotate, Vec3.rotateY, Vec3.rotateZ, hM.sin_zero, ih]
  | moveRelative cam forward sideward upward _ ih => exact ih

/-- For every camera at the world origin built by
`Camera(pos, thetaZ, thetaY, fov)` with `0 < fov < 180`, every `d > 0` and every window,
the point whose `absolutePos` is `d` times the camera's view axis, that is `(1,0,0)`
rotated by `rotateY(thetaY)` and then by `rotateZ(thetaZ)`, has after `calculateAll`
`cameraPos = (d, 0, 0)`, `screenPos.x = width / 2`, `screenPos.y = height / 2` and front
flag `projectedPos.z = 1`, with `maxPlaneCoord > 0`; and this view axis is
`Camera.direction` whenever `thetaZ = 0` or `thetaY = 0`. -/
theorem Point.view_axis_projects_to_centre (M : FloatMath K) (hM : M.Lawful)
    (thetaZ thetaY fov d : K) (hfov : 0 < fov) (hfov' : fov < 180) (hd : 0 < d)
    (w : Window K) (p : Point K) :
    ((p.withAbsolutePos (Vec3.scalarMul d (((Vec3.mk 1 0 0).rotateY M thetaY).rotateZ M thetaZ))).calculateAll M
        (Camera.new M ⟨0, 0, 0⟩ thetaZ thetaY fov) w).cameraPos = ⟨d, 0, 0⟩ ∧
    ((p.withAbsolutePos (Vec3.scalarMul d (((Vec3.mk 1 0 0).rotateY M thetaY).rotateZ M thetaZ))).calculateAll M
        (Camera.new M ⟨0, 0, 0⟩ thetaZ thetaY fov) w).screenPos.x = (w.width : K) / 2 ∧
    ((p.withAbsolutePos (Vec3.scalarMul d (((Vec3.mk 1 0 0).rotateY M thetaY).rotateZ M thetaZ))).calculateAll M
        (Camera.new M ⟨0, 0, 0⟩ thetaZ thetaY fov) w).screenPos.y = (w.height : K) / 2 ∧
    ((p.withAbsolutePos (Vec3.scalarMul d (((Vec3.mk 1 0 0).rotateY M thetaY).rotateZ M thetaZ))).calculateAll M
        (Camera.new M ⟨0, 0, 0⟩ thetaZ thetaY fov) w).projectedPos.z = 1 ∧
    0 < (Camera.new M ⟨0, 0, 0⟩ thetaZ thetaY fov).maxPlaneCoord ∧
    ((thetaZ = 0 ∨ thetaY = 0) →
      (Camera.new M ⟨0, 0, 0⟩ thetaZ thetaY fov).direction
        = ((Vec3.mk 1 0 0).rotateY M thetaY).rotateZ M thetaZ) := by
  have hcam : ((p.withAbsolutePos (Vec3.scalarMul d (((Vec3.mk 1 0 0).rotateY M thetaY).rotateZ M thetaZ))).calculateCameraPos M
        (Camera.new M ⟨0, 0, 0⟩ thetaZ thetaY fov)).cameraPos = ⟨d, 0, 0⟩ := by
    apply Point.cameraPos_of_view M hM
    ext <;> simp [Camera.new, Vec3.add, Vec3.scalarMul, Vec3.rotateY, Vec3.rotateZ,
      Point.withAbsolutePos] <;> ring
  have hhalf : (0.5 : K) = 1 / 2 := by norm_num
  refine ⟨?_, ?_, ?_, ?_, ?_, ?_⟩
  · simpa [Point.calculateAll, Point.calculateProjectedPos, Point.calculateScreenPos] using hcam
  · simp only [Point.calculateAll, Point.calculateScreenPos, Point.calculateProjectedPos, hcam,
      hhalf]
    simp
    ring
  · simp only [Point.calculateAll, Point.calculateScreenPos, Point.calculateProjectedPos, hcam,
      hhalf]
    simp
    ring
  · simp only [Point.calculateAll, Point.calculateScreenPos, Point.calculateProjectedPos, hcam]
    simp [hd]
  · simp only [Camera.new]
    apply hM.tan_pos
    · have := hM.pi_pos
      positivity
    · have := hM.pi_pos
      have h2 : fov * M.pi / 180 / 2 = (fov / 180) * (M.pi / 2) := by ring
      rw [h2]
      have h3 : fov / 180 < 1 := by rw [div_lt_one (by norm_num)]; exact hfov'
      nlinarith
  · rintro (h | h)
    · subst h
      ext <;> simp [Camera.new, Vec3.rotate, Vec3.rotateY, Vec3.rotateZ, hM.cos_zero, hM.sin_zero]
    · subst h
      ext <;> simp [Camera.new, Vec3.rotate, Vec3.rotateY, Vec3.rotateZ, hM.cos_zero, hM.sin_zero]

end View

/-! ## The plane of a triangle -/

section Plane

variable {K : Type} [LinearOrderedField K] [FloorRing K]

/-- The row loop body of `Window::drawTriangle` tests the clamped plane depth. -/
theorem Window.shadePixel_eq (M : FloatMath K) (triangle : Triangle K) (cam : Camera K)
    (normal : Vec3 K) (d1 cameraY x : K) (y : Int) (w : Window K) :
    w.shadePixel M triangle cam normal d1 cameraY x y =
      w.depthTest (ctrunc x) y
        (clampDepth (planeDepth M normal d1 cameraY (cam.getCameraZFromPixel y w.height)))
        triangle.r triangle.g triangle.b :=
  rfl

/-- The two column loops of `Window::drawTriangle` run with the plane normal and the
plane constant of the triangle's three `cameraPos` values, taken before the sort. -/
theorem Window.drawTriangle_uses_plane (M : FloatMath K) (w : Window K) (triangle : Triangle K)
    (cam : Camera K) :
    ∃ (dy1 dy2 dy_long left mid right y1 y2 y1' y2' : K),
      w.drawTriangle M triangle cam =
        match loopFrom ⌈mid - left⌉.toNat left
          (Window.fillColumn M triangle cam
            (planeNormal M triangle.p1.cameraPos triangle.p2.cameraPos triangle.p3.cameraPos)
            (planeOffset
              (planeNormal M triangle.p1.cameraPos triangle.p2.cameraPos triangle.p3.cameraPos)
              triangle.p1.cameraPos) dy1 dy_long) (w, y1, y2) with
        | (s, some e) => (s.1, some e)
        | (s, none) =>
          match loopFrom ⌈right - mid⌉.toNat mid
            (Window.fillColumn M triangle cam
              (planeNormal M triangle.p1.cameraPos triangle.p2.cameraPos triangle.p3.cameraPos)
              (planeOffset
                (planeNormal M triangle.p1.cameraPos triangle.p2.cameraPos triangle.p3.cameraPos)
                triangle.p1.cameraPos) dy2 dy_long) (s.1, y1', y2') with
          | (s, e) => (s.1, e) :=
  ⟨_, _, _, _, _, _, _, _, _, _, rfl⟩

/-- For lawful `sqrt`, a non-negative `y` with `y * y = x` is `sqrt x`. -/
theorem FloatMath.Lawful.sqrt_of_mul_self {M : FloatMath K} (hM : M.Lawful) {x y : K}
    (hy : 0 ≤ y) (h : y * y = x) : M.sqrt x = y := by
  have hx : 0 ≤ x := by rw [← h]; exact mul_self_nonneg y
  have h1 := hM.sqrt_mul_self x hx
  have h2 := hM.sqrt_nonneg x
  exact (mul_self_inj h2 hy).mp (h1.trans h.symm)

theorem Vec3.sumsq_nonneg (v : Vec3 K) : 0 ≤ v.x * v.x + v.y * v.y + v.z * v.z := by
  have h1 := mul_self_nonneg v.x
  have h2 := mul_self_nonneg v.y
  have h3 := mul_self_nonneg v.z
  linarith

theorem Vec3.mag_mul_self (M : FloatMath K) (hM : M.Lawful) (v : Vec3 K) :
    v.mag M * v.mag M = v.x * v.x + v.y * v.y + v.z * v.z :=
  hM.sqrt_mul_self _ v.sumsq_nonneg

theorem Vec3.mag_normalize (M : FloatMath K) (hM : M.Lawful) (v : Vec3 K) (hv : v.mag M ≠ 0) :
    (v.normalize M).mag M = 1 := by
  have hm := Vec3.mag_mul_self M hM v
  have harg : (v.normalize M).x * (v.normalize M).x + (v.normalize M).y * (v.normalize M).y
      + (v.normalize M).z * (v.normalize M).z = 1 := by
    simp only [Vec3.normalize, Vec3.divAssign]
    field_simp
    linarith
  unfold Vec3.mag
  rw [harg]
  exact hM.sqrt_of_mul_self zero_le_one (one_mul 1)

theorem Vec3.mag_ne_zero (M : FloatMath K) (hM : M.Lawful) (v : Vec3 K)
    (hv : v ≠ Vec3.zero) : v.mag M ≠ 0 := by
  intro h0
  have hm := Vec3.mag_mul_self M hM v
  rw [h0] at hm
  have h1 := mul_self_nonneg v.x
  have h2 := mul_self_nonneg v.y
  have h3 := mul_self_nonneg v.z
  have hx : v.x * v.x = 0 := by linarith
  have hy : v.y * v.y = 0 := by linarith
  have hz : v.z * v.z = 0 := by linarith
  apply hv
  ext
  · exact mul_self_eq_zero.mp hx
  · exact mul_self_eq_zero.mp hy
  · exact mul_self_eq_zero.mp hz

/-- The three corners have the same product with the plane normal. -/
theorem planeNormal_dot_corners (M : FloatMath K) (a b c : Vec3 K) :
    (planeNormal M a b c).dot a = (planeNormal M a b c).dot b ∧
      (planeNormal M a b c).dot a = (planeNormal M a b c).dot c := by
  constructor <;>
    simp only [planeNormal, Vec3.normalize, Vec3.divAssign, Vec3.cross, Vec3.sub, Vec3.dot] <;>
    ring

/-- The plane depth is the ray parameter times the length of the ray. -/
theorem planeDepth_eq (M : FloatMath K) (normal : Vec3 K) (d1 cameraY cameraZ : K) :
    planeDepth M normal d1 cameraY cameraZ
      = d1 / normal.dot ⟨1, cameraY, cameraZ⟩ * (Vec3.mk 1 cameraY cameraZ).mag M :=
  rfl

/-- The length of a non-negative multiple of a vector. -/
theorem Vec3.mag_scalarMul (M : FloatMath K) (hM : M.Lawful) (t : K) (ht : 0 ≤ t) (r : Vec3 K) :
    (Vec3.scalarMul t r).mag M = t * r.mag M := by
  have hq := Vec3.mag_mul_self M hM r
  have hr : 0 ≤ r.mag M := hM.sqrt_nonneg _
  apply hM.sqrt_of_mul_self (mul_nonneg ht hr)
  simp only [Vec3.scalarMul]
  linear_combination (t * t) * hq

end Plane

/-! ## Line clipping and line columns -/

section Clip

variable {K : Type} [LinearOrderedField K] [FloorRing K]

theorem Point.flag_behind (p : Point K) (h : p.cameraPos.x < 0) :
    p.calculateProjectedPos.projectedPos.z = -1 := by
  simp [Point.calculateProjectedPos, not_lt.mpr h.le]

theorem Point.flag_front (p : Point K) (h : 0 < p.cameraPos.x) :
    p.calculateProjectedPos.projectedPos.z = 1 := by
  simp [Point.calculateProjectedPos, h]

/-- `Line::draw` when `p1` is behind and `p2` in front. -/
theorem Line.draw_first_behind (M : FloatMath K) (l : Line K) (cam : Camera K) (w : Window K)
    (h1 : (l.p1.calculateCameraPos M cam).cameraPos.x < 0)
    (h2 : 0 < (l.p2.calculateCameraPos M cam).cameraPos.x) :
    l.draw M cam w =
      (⟨((((l.p1.calculateCameraPos M cam).calculateProjectedPos).pushToward
            ((l.p2.calculateCameraPos M cam).calculateProjectedPos)).setFlag 1).calculateScreenPos
            cam w,
          ((l.p2.calculateCameraPos M cam).calculateProjectedPos).calculateScreenPos cam w⟩,
        w.drawLine
          ⟨((((l.p1.calculateCameraPos M cam).calculateProjectedPos).pushToward
            ((l.p2.calculateCameraPos M cam).calculateProjectedPos)).setFlag 1).calculateScreenPos
            cam w,
          ((l.p2.calculateCameraPos M cam).calculateProjectedPos).calculateScreenPos cam w⟩) := by
  have z1 := Point.flag_behind _ h1
  have z2 := Point.flag_front _ h2
  unfold Line.draw
  simp only [z1, z2]
  norm_num

/-- `Line::draw` when `p1` is in front and `p2` behind. -/
theorem Line.draw_second_behind (M : FloatMath K) (l : Line K) (cam : Camera K) (w : Window K)
    (h1 : 0 < (l.p1.calculateCameraPos M cam).cameraPos.x)
    (h2 : (l.p2.calculateCameraPos M cam).cameraPos.x < 0) :
    l.draw M cam w =
      (⟨(((l.p1.calculateCameraPos M cam).calculateProjectedPos).setFlag 2).calculateScreenPos
            cam w,
          (((l.p2.calculateCameraPos M cam).calculateProjectedPos).pushToward
            ((l.p1.calculateCameraPos M cam).calculateProjectedPos)).calculateScreenPos cam w⟩,
        w.drawLine
          ⟨(((l.p1.calculateCameraPos M cam).calculateProjectedPos).setFlag 2).calculateScreenPos
            cam w,
          (((l.p2.calculateCameraPos M cam).calculateProjectedPos).pushToward
            ((l.p1.calculateCameraPos M cam).calculateProjectedPos)).calculateScreenPos
            cam w⟩) := by
  have z1 := Point.flag_front _ h1
  have z2 := Point.flag_behind _ h2
  unfold Line.draw
  simp only [z1, z2]
  norm_num

theorem floor_half : ⌊(1 / 2 : ℚ)⌋ = 0 := by
  rw [Int.floor_eq_iff]
  norm_num

theorem floor_eleven_quarters : ⌊(11 / 4 : ℚ)⌋ = 2 := by
  rw [Int.floor_eq_iff]
  norm_num

theorem cround_zero : cround (0 : ℚ) = 0 := by
  unfold cround
  norm_num [floor_half]

theorem cround_eleven_quarters : cround (11 / 4 : ℚ) = 3 := by
  unfold cround
  rw [if_pos (by norm_num), Int.floor_eq_iff]
  norm_num

/-- The window that `Window::drawLine` leaves for `gapLine` on a fresh `4 × 1` window: the
pixels of columns 0, 1 and 3 are white, the pixel of column 2 is still black. -/
theorem gapLine_drawn : ((Window.new 4 1 : Window ℚ).drawLine gapLine) =
    (⟨4, 1, ⟨4, 1, [255, 255, 255, 255, 255, 255, 0, 0, 0, 255, 255, 255]⟩, ZBuffer.new 4 1⟩,
      none) := by
  norm_num [Window.drawLine, gapLine, Window.lineColumn, Window.lineRun, Window.lineSpan, loopFrom,
    PixelArray.setPixel, PixelArray.getIndex, Window.new, PixelArray.new, Vec3.zero,
    floor_eleven_quarters, cround_zero, cround_eleven_quarters]
  rfl

end Clip

/-! ## Depth buffer -/

section Depth
variable {K : Type} [LinearOrderedField K] [FloorRing K]

theorem Window.drawTriangle_eq_fillSorted (M : FloatMath K) (w : Window K)
    (triangle : Triangle K) (cam : Camera K) :
    w.drawTriangle M triangle cam =
      w.fillSorted M triangle cam
        (planeNormal M triangle.p1.cameraPos triangle.p2.cameraPos triangle.p3.cameraPos)
        (planeOffset
          (planeNormal M triangle.p1.cameraPos triangle.p2.cameraPos triangle.p3.cameraPos)
          triangle.p1.cameraPos)
        (sortByScreenX triangle.p1 triangle.p2 triangle.p3).1
        (sortByScreenX triangle.p1 triangle.p2 triangle.p3).2.1
        (sortByScreenX triangle.p1 triangle.p2 triangle.p3).2.2 :=
  rfl

theorem sortByScreenX_perm (p1 p2 p3 : Point K) :
    List.Perm [(sortByScreenX p1 p2 p3).1, (sortByScreenX p1 p2 p3).2.1,
      (sortByScreenX p1 p2 p3).2.2] [p1, p2, p3] := by
  unfold sortByScreenX
  simp only []
  split_ifs <;> simp only [] <;>
    first
    | exact List.Perm.refl _
    | exact List.Perm.swap p1 p2 [p3]
    | exact (List.Perm.swap p2 p3 []).cons p1
    | exact (List.Perm.swap p1 p3 [p2]).trans ((List.Perm.swap p2 p3 []).cons p1)
    | exact ((List.Perm.swap p1 p3 []).cons p2).trans (List.Perm.swap p1 p2 [p3])
    | exact (List.Perm.swap p2 p3 [p1]).trans
        (((List.Perm.swap p1 p3 []).cons p2).trans (List.Perm.swap p1 p2 [p3]))

theorem getD_set {α : Type} (l : List α) (i j : Nat) (a d : α) :
    (l.set i a).getD j d = if i = j ∧ i < l.length then a else l.getD j d := by
  simp only [List.getD_eq_getElem?_getD, List.getElem?_set]
  by_cases h : i = j
  · subst h
    by_cases h2 : i < l.length
    · simp [h2]
    · simp [h2, List.getElem?_eq_none (not_lt.mp h2)]
  · simp [h]

theorem Window.nearer_refl (w : Window K) : w.Nearer w :=
  ⟨Window.sameShape_refl w, fun _ => le_rfl, fun _ => Or.inr ⟨rfl, rfl, rfl⟩, fun h => h⟩

theorem Window.nearer_trans {a b c : Window K} (h1 : a.Nearer b) (h2 : b.Nearer c) :
    a.Nearer c := by
  refine ⟨Window.sameShape_trans h1.shape h2.shape, fun i => (h2.depth_le i).trans (h1.depth_le i),
    fun q => ?_, fun h => h2.bounds (h1.bounds h)⟩
  rcases h2.color q with h | ⟨e0, e1, e2⟩
  · exact Or.inl (lt_of_lt_of_le h (h1.depth_le q))
  · rcases h1.color q with h | ⟨f0, f1, f2⟩
    · exact Or.inl (lt_of_le_of_lt (h2.depth_le q) h)
    · exact Or.inr ⟨e0.trans f0, e1.trans f1, e2.trans f2⟩

theorem Window.nearer_write (w : Window K) (q : Nat) (depth : K) (pdata : List Int)
    (h0 : 0 ≤ depth) (hlt : depth < w.zBuffer.data.getD q 0)
    (hlen : pdata.length = w.pixelArray.data.length)
    (hp : ∀ j : Nat, j ≠ 3 * q → j ≠ 3 * q + 1 → j ≠ 3 * q + 2 →
      pdata.getD j 0 = w.pixelArray.data.getD j 0) :
    w.Nearer { w with
      zBuffer := { w.zBuffer with data := w.zBuffer.data.set q depth }
      pixelArray := { w.pixelArray with data := pdata } } := by
  have hq : q < w.zBuffer.data.length := by
    by_contra hq
    rw [List.getD_eq_default _ _ (not_lt.mp hq)] at hlt
    exact absurd hlt (not_lt.mpr h0)
  refine ⟨⟨rfl, rfl, rfl, rfl, rfl, rfl, hlen, by simp⟩, fun i => ?_, fun q' => ?_, fun hb d hd => ?_⟩
  · simp only [getD_set]
    split_ifs with h
    · rw [← h.1]; exact hlt.le
    · exact le_rfl
  · simp only [getD_set]
    by_cases hqq : q = q'
    · subst hqq
      left
      rw [if_pos ⟨rfl, hq⟩]
      exact hlt
    · right
      exact ⟨hp _ (by omega) (by omega) (by omega), hp _ (by omega) (by omega) (by omega),
        hp _ (by omega) (by omega) (by omega)⟩
  · rcases List.mem_or_eq_of_mem_set hd with h | h
    · exact hb d h
    · subst h
      refine ⟨h0, hlt.le.trans ?_⟩
      rw [List.getD_eq_getElem _ _ hq]
      exact (hb _ (List.getElem_mem _)).2


theorem Window.depthTest_nearer (w : Window K) (hw : w.WF) (x y : Int) (depth : K)
    (r g b : Int) : w.Nearer (w.depthTest x y depth r g b).1 := by
  by_cases hb : x < 0 ∨ x ≥ w.zBuffer.width ∨ y < 0 ∨ y ≥ w.zBuffer.height
  · have : w.depthTest x y depth r g b = (w, some "pixel coordinates out of bounds") := by
      simp only [Window.depthTest, ZBuffer.getDepth, ZBuffer.getIndex, if_pos hb]
    rw [this]
    exact Window.nearer_refl w
  · have hb' : ¬ (x < 0 ∨ x ≥ w.pixelArray.width ∨ y < 0 ∨ y ≥ w.pixelArray.height) := by
      rw [hw.pixelWidth, hw.pixelHeight, ← hw.depthWidth, ← hw.depthHeight]
      exact hb
    have hww : w.pixelArray.width = w.zBuffer.width := by rw [hw.pixelWidth, hw.depthWidth]
    simp only [not_or, not_lt, ge_iff_le, not_le] at hb
    obtain ⟨hx, hx', hy, hy'⟩ := hb
    have hn : 0 ≤ w.zBuffer.width * y + x := by
      have : 0 ≤ w.zBuffer.width * y := mul_nonneg (by omega) hy
      omega
    simp only [Window.depthTest, ZBuffer.getDepth, ZBuffer.getIndex, ZBuffer.setDepth,
      PixelArray.setPixelRGB, PixelArray.getIndex, if_neg hb',
      if_neg (show ¬ (x < 0 ∨ x ≥ w.zBuffer.width ∨ y < 0 ∨ y ≥ w.zBuffer.height) by omega)]
    by_cases hlt : depth < w.zBuffer.data.getD (w.zBuffer.width * y + x).toNat 0
    · rw [if_pos hlt]
      by_cases hneg : depth < 0
      · rw [if_pos hneg]
        exact Window.nearer_refl w
      · rw [if_neg hneg]
        simp only []
        by_cases hc : r < 0 ∨ g < 0 ∨ b < 0 ∨ r > 255 ∨ g > 255 ∨ b > 255
        · rw [if_pos hc]
          exact Window.nearer_write w _ depth w.pixelArray.data (not_lt.mp hneg) hlt rfl
            (fun _ _ _ _ => rfl)
        · rw [if_neg hc]
          refine Window.nearer_write w _ depth _ (not_lt.mp hneg) hlt (by simp) ?_
          intro j h0 h1 h2
          rw [hww]
          generalize w.zBuffer.width * y + x = n at hn h0 h1 h2
          simp only [getD_set]
          rw [if_neg (by omega), if_neg (by omega), if_neg (by omega)]
    · rw [if_neg hlt]
      exact Window.nearer_refl w

/-- A relation on windows that is reflexive, transitive and holds across every depth test
holds across `Window::drawTriangle`. -/
theorem Window.drawTriangle_rel (R : Window K → Window K → Prop) (hrefl : ∀ w, R w w)
    (htrans : ∀ a b c, R a b → R b c → R a c)
    (hstep : ∀ (w : Window K) (x y : Int) (depth : K) (r g b : Int),
      R w (w.depthTest x y depth r g b).1)
    (M : FloatMath K) (w : Window K) (triangle : Triangle K) (cam : Camera K) :
    R w (w.drawTriangle M triangle cam).1 := by
  have hcol : ∀ (normal : Vec3 K) (d1 dyShort dy_long x : K) (s : Window K × K × K),
      R w s.1 → R w (Window.fillColumn M triangle cam normal d1 dyShort dy_long x s).1.1 := by
    intro normal d1 dyShort dy_long x s h
    unfold Window.fillColumn
    lift_lets
    extract_lets w1 y1 y2 span cameraY
    have h1 := loopFrom_preserves (P := fun w' : Window K => R w w')
      (Window.shadePixel M triangle cam normal d1 cameraY x)
      (fun i t ht => htrans _ _ _ ht (hstep t _ _ _ _ _ _))
      (span.2 + 1 - span.1).toNat span.1 w1 h
    split
    · rename_i w' e heq
      rw [heq] at h1
      exact h1
    · rename_i w' heq
      rw [heq] at h1
      exact h1
  unfold Window.drawTriangle
  lift_lets
  extract_lets a b c normal d1 abc a' b' c' dy_long dy1 dy2 left mid right y1 y2 y1' y2'
  have h1 := loopFrom_preserves (P := fun s : Window K × K × K => R w s.1)
    (Window.fillColumn M triangle cam normal d1 dy1 dy_long)
    (fun i s hs => hcol normal d1 dy1 dy_long i s hs)
    ⌈mid - left⌉.toNat left (w, y1, y2) (hrefl w)
  simp only []
  split
  · rename_i s e heq
    rw [heq] at h1
    exact h1
  · rename_i s heq
    rw [heq] at h1
    exact loopFrom_preserves (P := fun s : Window K × K × K => R w s.1)
      (Window.fillColumn M triangle cam normal d1 dy2 dy_long)
      (fun i s hs => hcol normal d1 dy2 dy_long i s hs)
      ⌈right - mid⌉.toNat mid (s.1, y1', y2') h1

theorem Window.drawTriangle_nearer (M : FloatMath K) (w : Window K) (hw : w.WF)
    (triangle : Triangle K) (cam : Camera K) : w.Nearer (w.drawTriangle M triangle cam).1 :=
  Window.drawTriangle_rel (fun a b => a.WF → a.Nearer b) (fun a _ => Window.nearer_refl a)
    (fun a b c h1 h2 ha => Window.nearer_trans (h1 ha) (h2 (ha.of_sameShape (h1 ha).shape)))
    (fun a x y depth r g b ha => Window.depthTest_nearer a ha x y depth r g b)
    M w triangle cam hw

theorem Window.depth_bounds_clear (zb : ZBuffer K) :
    ∀ d ∈ zb.clear.data, (0 : K) ≤ d ∧ d ≤ 99999 := by
  intro d hd
  rw [ZBuffer.depthClear_eq] at hd
  rw [List.eq_of_mem_replicate hd]
  norm_num

theorem Window.depth_bounds_of_reachable (M : FloatMath K) (width height : Int) (w : Window K)
    (h : w.DepthReachable M width height) :
    w.WF ∧ ∀ d ∈ w.zBuffer.data, (0 : K) ≤ d ∧ d ≤ 99999 := by
  induction h with
  | new =>
    refine ⟨Window.wf_new width height, fun d hd => ?_⟩
    simp only [Window.new, ZBuffer.new] at hd
    rw [List.eq_of_mem_replicate hd]
    norm_num
  | clear w _ ih =>
    exact ⟨ih.1.of_sameShape (Window.keeps_clear w).1, Window.depth_bounds_clear w.zBuffer⟩
  | clearDepth w _ ih =>
    refine ⟨?_, Window.depth_bounds_clear w.zBuffer⟩
    have hs := (Window.keeps_clear w).1
    exact ⟨ih.1.pixelWidth, ih.1.pixelHeight, hs.depthWidth.trans ih.1.depthWidth,
      hs.depthHeight.trans ih.1.depthHeight, ih.1.pixelLength,
      hs.depthLength.trans ih.1.depthLength⟩
  | drawTriangle w t cam _ ih =>
    have hn := Window.drawTriangle_nearer M w ih.1 t cam
    exact ⟨ih.1.of_sameShape hn.shape, hn.bounds ih.2⟩


theorem Window.getPixel_eq_of_cells (pa pa' : PixelArray) (x y : Int)
    (hw : pa'.width = pa.width) (hh : pa'.height = pa.height)
    (hx : 0 ≤ x) (hy : 0 ≤ y) (hwd : 0 ≤ pa.width)
    (h : pa'.data.getD (3 * (pa.width * y + x).toNat) 0
          = pa.data.getD (3 * (pa.width * y + x).toNat) 0 ∧
      pa'.data.getD (3 * (pa.width * y + x).toNat + 1) 0
          = pa.data.getD (3 * (pa.width * y + x).toNat + 1) 0 ∧
      pa'.data.getD (3 * (pa.width * y + x).toNat + 2) 0
          = pa.data.getD (3 * (pa.width * y + x).toNat + 2) 0) :
    pa'.getPixel x y = pa.getPixel x y := by
  have hn : 0 ≤ pa.width * y + x := by
    have : 0 ≤ pa.width * y := mul_nonneg hwd hy
    omega
  have e0 : ((pa.width * y + x) * 3).toNat = 3 * (pa.width * y + x).toNat := by omega
  have e1 : ((pa.width * y + x) * 3 + 1).toNat = 3 * (pa.width * y + x).toNat + 1 := by omega
  have e2 : ((pa.width * y + x) * 3 + 2).toNat = 3 * (pa.width * y + x).toNat + 2 := by omega
  simp only [PixelArray.getPixel, PixelArray.getIndex, hw, hh]
  split_ifs
  · rfl
  · simp only [e0, e1, e2, h.1, h.2.1, h.2.2]

end Depth

/-! ## Stale vertex state -/

section Stale
variable {K : Type} [LinearOrderedField K] [FloorRing K]

theorem Window.fillSorted_core (M : FloatMath K) (w : Window K) (triangle : Triangle K)
    (cam : Camera K) (normal : Vec3 K) (d1 : K) (a b c : Point K) :
    w.fillSorted M triangle.core cam normal d1 a.core b.core c.core
      = w.fillSorted M triangle cam normal d1 a b c :=
  rfl

theorem sortByScreenX_core (p1 p2 p3 : Point K) :
    sortByScreenX p1.core p2.core p3.core =
      ((sortByScreenX p1 p2 p3).1.core, (sortByScreenX p1 p2 p3).2.1.core,
        (sortByScreenX p1 p2 p3).2.2.core) := by
  have e : ∀ p : Point K, p.core.screenPos.x = p.screenPos.x := fun _ => rfl
  unfold sortByScreenX
  simp only [e]
  split_ifs <;> first | rfl | (exfalso; simp_all; linarith) | (exfalso; simp_all)

theorem Window.drawTriangle_core (M : FloatMath K) (w : Window K) (triangle : Triangle K)
    (cam : Camera K) : w.drawTriangle M triangle.core cam = w.drawTriangle M triangle cam := by
  rw [Window.drawTriangle_eq_fillSorted, Window.drawTriangle_eq_fillSorted]
  show w.fillSorted M triangle.core cam _ _
    (sortByScreenX triangle.p1.core triangle.p2.core triangle.p3.core).1
    (sortByScreenX triangle.p1.core triangle.p2.core triangle.p3.core).2.1
    (sortByScreenX triangle.p1.core triangle.p2.core triangle.p3.core).2.2 = _
  rw [sortByScreenX_core]
  rfl

theorem Window.drawTriangle_congr (M : FloatMath K) (w : Window K) (X Y : Triangle K)
    (cam : Camera K) (h : X.core = Y.core) : w.drawTriangle M X cam = w.drawTriangle M Y cam := by
  rw [← Window.drawTriangle_core M w X, ← Window.drawTriangle_core M w Y, h]

theorem Window.drawLine_core (w : Window K) (line : Line K) :
    w.drawLine line.core = w.drawLine line := by
  have ex : ∀ p : Point K, p.core.screenPos.x = p.screenPos.x := fun _ => rfl
  have ey : ∀ p : Point K, p.core.screenPos.y = p.screenPos.y := fun _ => rfl
  unfold Window.drawLine
  simp only [Line.core, ex]
  by_cases h : line.p1.screenPos.x > line.p2.screenPos.x
  · simp only [if_pos h, ex, ey]
  · simp only [if_neg h, ex, ey]

theorem Window.drawLine_congr (w : Window K) (X Y : Line K) (h : X.core = Y.core) :
    w.drawLine X = w.drawLine Y := by
  rw [← Window.drawLine_core w X, ← Window.drawLine_core w Y, h]


theorem pair_of_eq {α β : Type} {a b : α × β} (h : a = b) : a.1 = b.1 ∧ a.2 = b.2 :=
  ⟨congrArg Prod.fst h, congrArg Prod.snd h⟩

theorem Point.project_congr (M : FloatMath K) (cam : Camera K) (p q : Point K)
    (h : p.absolutePos = q.absolutePos) :
    ((p.calculateCameraPos M cam).calculateProjectedPos).cameraPos
        = ((q.calculateCameraPos M cam).calculateProjectedPos).cameraPos
      ∧ ((p.calculateCameraPos M cam).calculateProjectedPos).projectedPos
        = ((q.calculateCameraPos M cam).calculateProjectedPos).projectedPos := by
  simp [Point.calculateCameraPos, Point.calculateProjectedPos, h]

theorem Triangle.triangle_draw_congr (M : FloatMath K) (cam : Camera K) (w : Window K)
    (t t' : Triangle K) (rand rand' : Nat → Nat)
    (h1 : t.p1.absolutePos = t'.p1.absolutePos) (h2 : t.p2.absolutePos = t'.p2.absolutePos)
    (h3 : t.p3.absolutePos = t'.p3.absolutePos)
    (hr : t.r = t'.r) (hg : t.g = t'.g) (hb : t.b = t'.b) :
    (t.draw M cam w rand).window = (t'.draw M cam w rand').window
      ∧ (t.draw M cam w rand).thrown = (t'.draw M cam w rand').thrown := by
  have c1 : (t.projectAll M cam).p1.cameraPos = (t'.projectAll M cam).p1.cameraPos :=
    (Point.project_congr M cam _ _ h1).1
  have c2 : (t.projectAll M cam).p2.cameraPos = (t'.projectAll M cam).p2.cameraPos :=
    (Point.project_congr M cam _ _ h2).1
  have c3 : (t.projectAll M cam).p3.cameraPos = (t'.projectAll M cam).p3.cameraPos :=
    (Point.project_congr M cam _ _ h3).1
  have q1 : (t.projectAll M cam).p1.projectedPos = (t'.projectAll M cam).p1.projectedPos :=
    (Point.project_congr M cam _ _ h1).2
  have q2 : (t.projectAll M cam).p2.projectedPos = (t'.projectAll M cam).p2.projectedPos :=
    (Point.project_congr M cam _ _ h2).2
  have q3 : (t.projectAll M cam).p3.projectedPos = (t'.projectAll M cam).p3.projectedPos :=
    (Point.project_congr M cam _ _ h3).2
  have er : (t.projectAll M cam).r = (t'.projectAll M cam).r := hr
  have eg : (t.projectAll M cam).g = (t'.projectAll M cam).g := hg
  have eb : (t.projectAll M cam).b = (t'.projectAll M cam).b := hb
  have hcore : ∀ X Y : Triangle K, X.core = Y.core →
      w.drawTriangle M X cam = w.drawTriangle M Y cam :=
    fun X Y h => Window.drawTriangle_congr M w X Y cam h
  by_cases f1 : (t.projectAll M cam).p1.projectedPos.z > 0 <;>
  by_cases f2 : (t.projectAll M cam).p2.projectedPos.z > 0 <;>
  by_cases f3 : (t.projectAll M cam).p3.projectedPos.z > 0
  all_goals
    have f1' := f1
    have f2' := f2
    have f3' := f3
    rw [q1] at f1'
    rw [q2] at f2'
    rw [q3] at f3'
    simp only [Triangle.draw, Triangle.classify, f1, f2, f3, f1', f2', f3', Triangle.get,
      Triangle.set, List.length_cons, List.length_nil, List.nil_append, List.cons_append,
      List.getD_cons_zero, List.getD_cons_succ, if_true, if_false, not_false_eq_true]
    try simp only [Nat.reduceAdd, OfNat.ofNat_ne_zero, OfNat.ofNat_ne_one, if_false]
  all_goals
    first
    | exact ⟨trivial, trivial⟩
    | (apply pair_of_eq
       apply hcore
       simp [Triangle.core, Point.core, Point.calculateScreenPos, Point.pushToward,
         Point.setFlag, c1, c2, c3, q1, q2, q3, er, eg, eb])
    | skip
  all_goals
    split <;> rename_i heq <;> split <;> rename_i heq2
    all_goals
      rw [← Window.drawTriangle_core] at heq heq2
      simp only [Triangle.core, Point.core, Point.calculateScreenPos, Point.pushToward,
        Point.setFlag, c1, c2, c3, q1, q2, q3, er, eg, eb] at heq heq2
      rw [heq] at heq2
      cases heq2 <;>
        first
        | exact ⟨rfl, rfl⟩
        | (apply pair_of_eq
           apply Window.drawTriangle_congr
           simp [Triangle.core, Point.core, Point.calculateScreenPos, Point.pushToward,
             Point.setFlag, Triangle.new, c1, c2, c3, q1, q2, q3, er, eg, eb])


theorem Line.line_draw_congr (M : FloatMath K) (cam : Camera K) (w : Window K) (l l' : Line K)
    (h1 : l.p1.absolutePos = l'.p1.absolutePos) (h2 : l.p2.absolutePos = l'.p2.absolutePos) :
    (l.draw M cam w).2 = (l'.draw M cam w).2 := by
  have c1 := (Point.project_congr M cam _ _ h1).1
  have c2 := (Point.project_congr M cam _ _ h2).1
  have q1 := (Point.project_congr M cam _ _ h1).2
  have q2 := (Point.project_congr M cam _ _ h2).2
  unfold Line.draw
  simp only [q1, q2]
  split_ifs
  · rfl
  · apply Window.drawLine_congr
    simp [Line.core, Point.core, Point.calculateScreenPos, c1, c2, q1, q2]
  · apply Window.drawLine_congr
    simp [Line.core, Point.core, Point.calculateScreenPos, Point.pushToward, Point.setFlag,
      c1, c2, q1, q2]
  · apply Window.drawLine_congr
    simp [Line.core, Point.core, Point.calculateScreenPos, Point.pushToward, Point.setFlag,
      c1, c2, q1, q2]

end Stale

/-! ## The claims -/

section Claims

variable {K : Type} [LinearOrderedField K] [FloorRing K]

/-- C1: on a window whose buffers have the window's dimensions (in particular on every
window with `width ≥ 1` and `height ≥ 1` built by the constructor), for every camera,
every line and every triangle whose `r`, `g`, `b` are in `[0, 255]`, whatever the screen
coordinates are, `Window::drawTriangle` and `Window::drawLine` return without any throw:
no `getIndex` call takes its out-of-bounds branch and no `setPixel` / `setDepth` call
takes its invalid-colour / negative-depth branch. -/
theorem C1_rasterizer_never_throws (M : FloatMath K) (w : Window K) (hw : w.WF)
    (cam : Camera K) (line : Line K) (triangle : Triangle K) (hc : triangle.ColorOk) :
    (w.drawTriangle M triangle cam).2 = none ∧ (w.drawLine line).2 = none :=
  ⟨Window.drawTriangle_ok M w hw triangle hc cam, Window.drawLine_ok w hw line⟩

/-- C1 at a concrete input: a triangle and a far off-screen line on an `8 × 8` window. -/
theorem C1_witness :
    (0 ≤ sampleTriangle.r ∧ sampleTriangle.r ≤ 255) ∧
    ((Window.new 8 8 : Window ℚ).drawTriangle approxMath sampleTriangle sampleCamera).2 = none ∧
      ((Window.new 8 8 : Window ℚ).drawLine sampleLine).2 = none :=
  ⟨by decide, C1_rasterizer_never_throws approxMath (Window.new 8 8) (Window.wf_new 8 8)
    sampleCamera sampleLine sampleTriangle (by decide)⟩

/-- C2 (amended): for every in-bounds pixel `(x, y)` of a window in the cleared state
(its depth entry is the sentinel 99999, as after the constructor or `Window::clear`, see
`Window.getDepth_clear`) and every two fragments with depths
`0 ≤ d1 < d2`, `d1 < 99999`, and colours `c1`, `c2` with channels in `[0, 255]`, applying
the per-pixel depth test in the order (1 then 2) and in the order (2 then 1) does not
throw and leaves `ColorBuffer[x,y] = c1` and `ZBuffer[x,y] = d1`. -/
theorem C2_depth_test_order_independent (w : Window K) (hw : w.WF) (x y : Int)
    (hx : 0 ≤ x ∧ x < w.width) (hy : 0 ≤ y ∧ y < w.height)
    (hclear : w.zBuffer.getDepth x y = .ok 99999)
    (d1 d2 : K) (h0 : 0 ≤ d1) (h12 : d1 < d2) (hnear : d1 < 99999)
    (r1 g1 b1 r2 g2 b2 : Int)
    (hc1 : (0 ≤ r1 ∧ r1 ≤ 255) ∧ (0 ≤ g1 ∧ g1 ≤ 255) ∧ (0 ≤ b1 ∧ b1 ≤ 255))
    (hc2 : (0 ≤ r2 ∧ r2 ≤ 255) ∧ (0 ≤ g2 ∧ g2 ≤ 255) ∧ (0 ≤ b2 ∧ b2 ≤ 255)) :
    ((w.depthTest x y d1 r1 g1 b1).2 = none ∧
      ((w.depthTest x y d1 r1 g1 b1).1.depthTest x y d2 r2 g2 b2).2 = none ∧
      ((w.depthTest x y d1 r1 g1 b1).1.depthTest x y d2 r2 g2 b2).1.pixelArray.getPixel x y
        = .ok [r1, g1, b1] ∧
      ((w.depthTest x y d1 r1 g1 b1).1.depthTest x y d2 r2 g2 b2).1.zBuffer.getDepth x y
        = .ok d1) ∧
    ((w.depthTest x y d2 r2 g2 b2).2 = none ∧
      ((w.depthTest x y d2 r2 g2 b2).1.depthTest x y d1 r1 g1 b1).2 = none ∧
      ((w.depthTest x y d2 r2 g2 b2).1.depthTest x y d1 r1 g1 b1).1.pixelArray.getPixel x y
        = .ok [r1, g1, b1] ∧
      ((w.depthTest x y d2 r2 g2 b2).1.depthTest x y d1 r1 g1 b1).1.zBuffer.getDepth x y
        = .ok d1) := by
  have hd2 : 0 ≤ d2 := le_of_lt (lt_of_le_of_lt h0 h12)
  constructor
  · have p1 := Window.depthTest_pass w hw hx.1 hx.2 hy.1 hy.2 h0 hc1.1 hc1.2.1 hc1.2.2
      hclear hnear
    have f2 := Window.depthTest_fail (w.depthTest x y d1 r1 g1 b1).1 d2 r2 g2 b2 p1.2.1
      (not_lt.mpr (le_of_lt h12))
    rw [f2]
    exact ⟨p1.1, rfl, p1.2.2, p1.2.1⟩
  · by_cases h2 : d2 < 99999
    · have p2 := Window.depthTest_pass w hw hx.1 hx.2 hy.1 hy.2 hd2 hc2.1 hc2.2.1 hc2.2.2
        hclear h2
      have hk := Window.depthTest_keeps w x y d2 r2 g2 b2
      have hw2 : (w.depthTest x y d2 r2 g2 b2).1.WF := hw.of_sameShape hk.1
      have p1 := Window.depthTest_pass (w.depthTest x y d2 r2 g2 b2).1 hw2
        hx.1 (by rw [hk.1.width]; exact hx.2) hy.1 (by rw [hk.1.height]; exact hy.2)
        h0 hc1.1 hc1.2.1 hc1.2.2 p2.2.1 h12
      exact ⟨p2.1, p1.1, p1.2.2, p1.2.1⟩
    · have f2 := Window.depthTest_fail w d2 r2 g2 b2 hclear h2
      rw [f2]
      have p1 := Window.depthTest_pass w hw hx.1 hx.2 hy.1 hy.2 h0 hc1.1 hc1.2.1 hc1.2.2
        hclear hnear
      exact ⟨rfl, p1.1, p1.2.2, p1.2.1⟩

/-- C2 at a concrete input: depths 3 and 7 at pixel `(1, 0)` of a fresh `2 × 2` window. -/
theorem C2_witness :
    (((Window.new 2 2 : Window ℚ).depthTest 1 0 3 255 0 0).1.depthTest 1 0 7 0 255 0).1.pixelArray.getPixel
        1 0 = .ok [255, 0, 0] ∧
    (((Window.new 2 2 : Window ℚ).depthTest 1 0 7 0 255 0).1.depthTest 1 0 3 255 0 0).1.pixelArray.getPixel
        1 0 = .ok [255, 0, 0] := by
  have h := C2_depth_test_order_independent (Window.new 2 2 : Window ℚ) (Window.wf_new 2 2) 1 0
    (by decide) (by decide) (by rfl) 3 7 (by norm_num) (by norm_num) (by norm_num)
    255 0 0 0 255 0 (by decide) (by decide)
  exact ⟨h.1.2.2.1, h.2.2.2.1⟩

/-- C2 as stated fails when the nearer fragment is not nearer than the sentinel: with
`d1 = 100000 < d2 = 200000` on a cleared `1 × 1` window neither fragment is written, and
the pixel keeps colour `(0,0,0)` and depth 99999 instead of `c1 = (255,0,0)` and `d1`. -/
theorem C2_counterexample :
    (100000 : ℚ) < 200000 ∧
    (((Window.new 1 1 : Window ℚ).depthTest 0 0 100000 255 0 0).1.depthTest
        0 0 200000 0 255 0).1.pixelArray.getPixel 0 0 = .ok [0, 0, 0] ∧
    (((Window.new 1 1 : Window ℚ).depthTest 0 0 100000 255 0 0).1.depthTest
        0 0 200000 0 255 0).1.zBuffer.getDepth 0 0 = .ok 99999 ∧
    (((Window.new 1 1 : Window ℚ).depthTest 0 0 100000 255 0 0).1.depthTest
        0 0 200000 0 255 0).1.pixelArray.getPixel 0 0 ≠ .ok [255, 0, 0] := by
  have hold : (Window.new 1 1 : Window ℚ).zBuffer.getDepth 0 0 = .ok 99999 := by rfl
  have f1 := Window.depthTest_fail (Window.new 1 1 : Window ℚ) 100000 255 0 0 hold
    (by norm_num)
  have f2 := Window.depthTest_fail (Window.new 1 1 : Window ℚ) 200000 0 255 0 hold
    (by norm_num)
  rw [f1, f2]
  refine ⟨by norm_num, by rfl, hold, ?_⟩
  have hp : (Window.new 1 1 : Window ℚ).pixelArray.getPixel 0 0 = .ok [0, 0, 0] := by rfl
  rw [hp]
  intro h
  injection h with h
  simp at h

/-- C3 fails at yaw = pitch = `π/2` (`fov = 90`, `d = 1`, a `100 × 100` window): the
constructor gives `Camera.direction = (0,1,0)`, and the point at distance 1 along it gets
`cameraPos = (0,0,-1)`, so it is classified behind (`projectedPos.z = -1`, not 1) instead
of projecting to the centre. The axis that `Point::calculateCameraPos` maps to `+x` is
`rotateZ(thetaZ)(rotateY(thetaY)(1,0,0))`, here `(0,0,1)`: its point gets
`cameraPos = (1,0,0)` and the front flag 1. -/
theorem C3_direction_is_not_the_view_axis :
    (Camera.new realMath ⟨0, 0, 0⟩ (Real.pi / 2) (Real.pi / 2) 90).direction = ⟨0, 1, 0⟩ ∧
    ((Point.new (Vec3.scalarMul 1 (Camera.new realMath ⟨0, 0, 0⟩ (Real.pi / 2) (Real.pi / 2) 90).direction) : Point ℝ).calculateAll realMath
      (Camera.new realMath ⟨0, 0, 0⟩ (Real.pi / 2) (Real.pi / 2) 90)
      (Window.new 100 100)).cameraPos = ⟨0, 0, -1⟩ ∧
    ((Point.new (Vec3.scalarMul 1 (Camera.new realMath ⟨0, 0, 0⟩ (Real.pi / 2) (Real.pi / 2) 90).direction) : Point ℝ).calculateAll realMath
      (Camera.new realMath ⟨0, 0, 0⟩ (Real.pi / 2) (Real.pi / 2) 90)
      (Window.new 100 100)).projectedPos.z = -1 ∧
    ((Point.new (Vec3.scalarMul 1 (Camera.new realMath ⟨0, 0, 0⟩ (Real.pi / 2) (Real.pi / 2) 90).direction) : Point ℝ).calculateAll realMath
      (Camera.new realMath ⟨0, 0, 0⟩ (Real.pi / 2) (Real.pi / 2) 90)
      (Window.new 100 100)).projectedPos.z ≠ 1 ∧
    ((Vec3.mk 1 0 0 : Vec3 ℝ).rotateY realMath (Real.pi / 2)).rotateZ realMath (Real.pi / 2)
      = ⟨0, 0, 1⟩ ∧
    ((Point.new (Vec3.scalarMul 1 (⟨0, 0, 1⟩ : Vec3 ℝ)) : Point ℝ).calculateAll realMath
      (Camera.new realMath ⟨0, 0, 0⟩ (Real.pi / 2) (Real.pi / 2) 90)
      (Window.new 100 100)).cameraPos = ⟨1, 0, 0⟩ ∧
    ((Point.new (Vec3.scalarMul 1 (⟨0, 0, 1⟩ : Vec3 ℝ)) : Point ℝ).calculateAll realMath
      (Camera.new realMath ⟨0, 0, 0⟩ (Real.pi / 2) (Real.pi / 2) 90)
      (Window.new 100 100)).projectedPos.z = 1 := by
  have hd : (Camera.new realMath ⟨0, 0, 0⟩ (Real.pi / 2) (Real.pi / 2) 90).direction
      = ⟨0, 1, 0⟩ := by
    ext <;> simp [Camera.new, Vec3.rotate, Vec3.rotateY, Vec3.rotateZ, realMath]
  have hc : ((Point.new (Vec3.scalarMul 1 (Camera.new realMath ⟨0, 0, 0⟩ (Real.pi / 2) (Real.pi / 2) 90).direction) : Point ℝ).calculateAll realMath
      (Camera.new realMath ⟨0, 0, 0⟩ (Real.pi / 2) (Real.pi / 2) 90)
      (Window.new 100 100)).cameraPos = ⟨0, 0, -1⟩ := by
    rw [hd]
    ext <;> simp [Point.calculateAll, Point.calculateScreenPos, Point.calculateProjectedPos,
      Point.calculateCameraPos, Camera.new, Vec3.rotate, Vec3.rotateY, Vec3.rotateZ, Vec3.sub,
      Vec3.scalarMul, realMath, Point.new]
  have hz : ((Point.new (Vec3.scalarMul 1 (Camera.new realMath ⟨0, 0, 0⟩ (Real.pi / 2) (Real.pi / 2) 90).direction) : Point ℝ).calculateAll realMath
      (Camera.new realMath ⟨0, 0, 0⟩ (Real.pi / 2) (Real.pi / 2) 90)
      (Window.new 100 100)).projectedPos.z = -1 := by
    rw [hd]
    simp [Point.calculateAll, Point.calculateScreenPos, Point.calculateProjectedPos,
      Point.calculateCameraPos, Camera.new, Vec3.rotate, Vec3.rotateY, Vec3.rotateZ, Vec3.sub,
      Vec3.scalarMul, realMath, Point.new]
  have hv : ((Point.new (Vec3.scalarMul 1 (⟨0, 0, 1⟩ : Vec3 ℝ)) : Point ℝ).calculateAll realMath
      (Camera.new realMath ⟨0, 0, 0⟩ (Real.pi / 2) (Real.pi / 2) 90)
      (Window.new 100 100)).cameraPos = ⟨1, 0, 0⟩ := by
    ext <;> simp [Point.calculateAll, Point.calculateScreenPos, Point.calculateProjectedPos,
      Point.calculateCameraPos, Camera.new, Vec3.rotate, Vec3.rotateY, Vec3.rotateZ, Vec3.sub,
      Vec3.scalarMul, realMath, Point.new]
  refine ⟨hd, hc, hz, ?_, ?_, hv, ?_⟩
  · rw [hz]
    norm_num
  · ext <;> simp [Vec3.rotateY, Vec3.rotateZ, realMath]
  · simp [Point.calculateAll, Point.calculateScreenPos, Point.calculateProjectedPos,
      Point.calculateCameraPos, Camera.new, Vec3.rotate, Vec3.rotateY, Vec3.rotateZ, Vec3.sub,
      Vec3.scalarMul, realMath, Point.new]

/-- C4 (amended): `Point::calculateCameraPos` is the inverse of the camera's orientation
taken as `rotateY(thetaY)` followed by `rotateZ(thetaZ)`: for every camera with position
`p`, yaw `thetaZ` and pitch `thetaY` and every vector `v`, the point whose `absolutePos`
is `p + rotateZ(thetaZ)(rotateY(thetaY)(v))` gets `cameraPos = v` and
`distToCamera = |v|`. -/
theorem C4_cameraPos_inverts_view (M : FloatMath K) (hM : M.Lawful) (cam : Camera K)
    (v : Vec3 K) (p : Point K) :
    ((p.withAbsolutePos (cam.pos.add ((v.rotateY M cam.thetaY).rotateZ M cam.thetaZ))).calculateCameraPos M cam).cameraPos = v ∧
    ((p.withAbsolutePos (cam.pos.add ((v.rotateY M cam.thetaY).rotateZ M cam.thetaZ))).calculateCameraPos M cam).distToCamera = v.mag M := by
  have h := Point.cameraPos_of_view M hM cam v
    (p.withAbsolutePos (cam.pos.add ((v.rotateY M cam.thetaY).rotateZ M cam.thetaZ))) rfl
  refine ⟨h, ?_⟩
  have h2 : ((p.withAbsolutePos (cam.pos.add ((v.rotateY M cam.thetaY).rotateZ M cam.thetaZ))).calculateCameraPos M cam).distToCamera
      = ((p.withAbsolutePos (cam.pos.add ((v.rotateY M cam.thetaY).rotateZ M cam.thetaZ))).calculateCameraPos M cam).cameraPos.mag M := rfl
  rw [h2, h]

/-- C4 at a concrete input: camera at `(1,2,3)` with yaw 2 and pitch 1, `v = (4,5,6)`. -/
theorem C4_witness :
    ((Point.new ((Vec3.mk 1 2 3).add (((Vec3.mk 4 5 6).rotateY realMath 1).rotateZ realMath 2)) : Point ℝ).calculateCameraPos realMath
      (Camera.new realMath ⟨1, 2, 3⟩ 2 1 90)).cameraPos = ⟨4, 5, 6⟩ :=
  (C4_cameraPos_inverts_view realMath realMath_lawful (Camera.new realMath ⟨1, 2, 3⟩ 2 1 90)
    ⟨4, 5, 6⟩ (Point.new Vec3.zero)).1

/-- C4 as stated fails: for a camera at the origin with yaw and pitch both `π/2` and
`v = (1,0,0)`, `v` rotated by `Vec3::rotate(thetaZ, thetaY)` is `(0,1,0)`, and the point
there gets `cameraPos = (0,0,-1)`, not `v`. -/
theorem C4_counterexample :
    ((Point.new ((Vec3.mk 0 0 0).add ((Vec3.mk 1 0 0).rotate realMath (Real.pi / 2) (Real.pi / 2))) : Point ℝ).calculateCameraPos realMath
      (Camera.new realMath ⟨0, 0, 0⟩ (Real.pi / 2) (Real.pi / 2) 90)).cameraPos = ⟨0, 0, -1⟩ ∧
    ((Point.new ((Vec3.mk 0 0 0).add ((Vec3.mk 1 0 0).rotate realMath (Real.pi / 2) (Real.pi / 2))) : Point ℝ).calculateCameraPos realMath
      (Camera.new realMath ⟨0, 0, 0⟩ (Real.pi / 2) (Real.pi / 2) 90)).cameraPos ≠ ⟨1, 0, 0⟩ := by
  have h : ((Point.new ((Vec3.mk 0 0 0).add ((Vec3.mk 1 0 0).rotate realMath (Real.pi / 2) (Real.pi / 2))) : Point ℝ).calculateCameraPos realMath
      (Camera.new realMath ⟨0, 0, 0⟩ (Real.pi / 2) (Real.pi / 2) 90)).cameraPos
      = ⟨0, 0, -1⟩ := by
    ext <;> simp [Point.calculateCameraPos, Camera.new, Vec3.rotate, Vec3.rotateY, Vec3.rotateZ,
      Vec3.sub, Vec3.add, realMath, Point.new]
  refine ⟨h, ?_⟩
  rw [h]
  intro hc
  have := congrArg Vec3.x hc
  norm_num at this

/-- C5 (the code at a failing input): in a `200 × 100` window with `maxPlaneCoord = 1`,
the point whose projected position is given by the two pixel-to-ray functions at pixel
`(0, 0)` is mapped by `calculateScreenPos` to `screenPos = (0.5, -49)`, not to
`(0.5, 0.5)`: `getCameraZFromPixel` divides by `0.5 * height` while `calculateScreenPos`
scales the vertical axis by `0.5 * width`. -/
theorem C5_pixel_ray_not_inverted_in_wide_window :
    sampleCamera.getCameraZFromPixel 0 100 = 99 / 100 ∧
    (({ samplePoint 0 0 0 with
          projectedPos := ⟨sampleCamera.getCameraYFromPixel 0 200,
            sampleCamera.getCameraZFromPixel 0 100, 1⟩ } : Point ℚ).calculateScreenPos
        sampleCamera (Window.new 200 100)).screenPos.x = 0 + 1 / 2 ∧
    (({ samplePoint 0 0 0 with
          projectedPos := ⟨sampleCamera.getCameraYFromPixel 0 200,
            sampleCamera.getCameraZFromPixel 0 100, 1⟩ } : Point ℚ).calculateScreenPos
        sampleCamera (Window.new 200 100)).screenPos.y = -49 := by
  refine ⟨?_, ?_, ?_⟩ <;>
    norm_num [Point.calculateScreenPos, Camera.getCameraYFromPixel, Camera.getCameraZFromPixel,
      sampleCamera, samplePoint, Window.new]

/-- C6: a point whose `cameraPos.x ≤ 0` gets `projectedPos.z = -1` (behind) and one whose
`cameraPos.x > 0` gets `projectedPos.z = 1` (front); and for every camera, window and
line whose two end points are both classified behind, `Line::draw` does not throw and
leaves the window, that is the `PixelArray` and the `ZBuffer`, exactly as it was. -/
theorem C6_behind_line_draws_nothing (M : FloatMath K) (cam : Camera K) (w : Window K)
    (p : Point K) (l : Line K)
    (h1 : (l.p1.calculateCameraPos M cam).cameraPos.x ≤ 0)
    (h2 : (l.p2.calculateCameraPos M cam).cameraPos.x ≤ 0) :
    (p.cameraPos.x ≤ 0 → p.calculateProjectedPos.projectedPos.z = -1) ∧
    (p.cameraPos.x > 0 → p.calculateProjectedPos.projectedPos.z = 1) ∧
    ((l.p1.calculateCameraPos M cam).calculateProjectedPos.projectedPos.z = -1 ∧
      (l.p2.calculateCameraPos M cam).calculateProjectedPos.projectedPos.z = -1) ∧
    (l.draw M cam w).2 = (w, none) := by
  have e1 : (l.p1.calculateCameraPos M cam).calculateProjectedPos.projectedPos.z = -1 := by
    simp [Point.calculateProjectedPos, not_lt.mpr h1]
  have e2 : (l.p2.calculateCameraPos M cam).calculateProjectedPos.projectedPos.z = -1 := by
    simp [Point.calculateProjectedPos, not_lt.mpr h2]
  refine ⟨?_, ?_, ⟨e1, e2⟩, ?_⟩
  · intro h
    simp [Point.calculateProjectedPos, not_lt.mpr h]
  · intro h
    simp [Point.calculateProjectedPos, h]
  · unfold Line.draw
    simp only []
    rw [if_pos]
    rw [e1, e2]
    constructor <;> norm_num

/-- C6 at a concrete input: a line from `(-5,1,1)` to `(-2,0,3)` behind `sampleCamera`. -/
theorem C6_witness :
    ((Line.mk (samplePoint (-5) 1 1) (samplePoint (-2) 0 3)).draw approxMath sampleCamera
      (Window.new 8 8)).2 = (Window.new 8 8, none) :=
  (C6_behind_line_draws_nothing approxMath sampleCamera (Window.new 8 8) (samplePoint 1 0 0)
    (Line.mk (samplePoint (-5) 1 1) (samplePoint (-2) 0 3))
    (by norm_num [Point.calculateCameraPos, Vec3.rotate, Vec3.rotateY, Vec3.rotateZ, Vec3.sub,
      samplePoint, sampleCamera, approxMath, Vec3.zero])
    (by norm_num [Point.calculateCameraPos, Vec3.rotate, Vec3.rotateY, Vec3.rotateZ, Vec3.sub,
      samplePoint, sampleCamera, approxMath, Vec3.zero])).2.2.2

/-- C9: after `Window::clear` every entry of the colour buffer is 0 and every entry of
the depth buffer is the sentinel 99999, whatever the buffers held before, and the
widths, heights and buffer lengths are unchanged. -/
theorem C9_clear_resets_every_entry (w : Window K) :
    w.clear.pixelArray.data = List.replicate w.pixelArray.data.length 0 ∧
    w.clear.zBuffer.data = List.replicate w.zBuffer.data.length 99999 ∧
    (∀ v ∈ w.clear.pixelArray.data, v = 0) ∧
    (∀ d ∈ w.clear.zBuffer.data, d = 99999) ∧
    w.SameShape w.clear := by
  have hk := Window.keeps_clear w
  have hp : w.clear.pixelArray.data = List.replicate w.pixelArray.data.length 0 := by
    unfold Window.clear
    rw [PixelArray.pixelClear_eq]
  have hz : w.clear.zBuffer.data = List.replicate w.zBuffer.data.length 99999 := by
    unfold Window.clear
    rw [ZBuffer.depthClear_eq]
  refine ⟨hp, hz, ?_, ?_, hk.1⟩
  · intro v hv
    rw [hp] at hv
    exact (List.mem_replicate.mp hv).2
  · intro d hd
    rw [hz] at hd
    exact (List.mem_replicate.mp hd).2

/-- C10: in every state reachable from `PixelArray(width, height)` by any sequence of
`clear`, `setPixel` (both overloads, whether they succeed or throw), `Window::drawLine`
and `Window::drawTriangle` calls, the colour buffer keeps its dimensions, `data` has the
length the constructor gave it, which is `width * height * 3`, and every entry is an
integer in `[0, 255]`. -/
theorem C10_color_buffer_invariant (M : FloatMath K) (width height : Int) (w : Window K)
    (h : w.Reachable M width height) :
    w.pixelArray.width = width ∧ w.pixelArray.height = height ∧
    w.pixelArray.data.length = (width * height * 3).toNat ∧
    (0 ≤ width * height → (w.pixelArray.data.length : Int) = width * height * 3) ∧
    ∀ v ∈ w.pixelArray.data, 0 ≤ v ∧ v ≤ 255 := by
  have hk := Window.keeps_of_reachable M width height w h
  have hlen : w.pixelArray.data.length = (width * height * 3).toNat := by
    rw [hk.1.pixelLength]
    simp [Window.new, PixelArray.new]
  refine ⟨hk.1.pixelWidth, hk.1.pixelHeight, hlen, ?_, ?_⟩
  · intro h0
    rw [hlen]
    omega
  · apply hk.2
    intro v hv
    simp only [Window.new, PixelArray.new, List.mem_replicate] at hv
    rw [hv.2]
    decide

/-- C10 at a concrete input: the state after a line and a triangle were drawn on a fresh
`8 × 8` window. -/
theorem C10_witness :
    (((Window.new 8 8 : Window ℚ).drawLine sampleLine).1.drawTriangle approxMath sampleTriangle
      sampleCamera).1.pixelArray.data.length = 192 ∧
    ∀ v ∈ (((Window.new 8 8 : Window ℚ).drawLine sampleLine).1.drawTriangle approxMath
      sampleTriangle sampleCamera).1.pixelArray.data, 0 ≤ v ∧ v ≤ 255 :=
  have h := C10_color_buffer_invariant approxMath 8 8 _
    (Window.Reachable.drawTriangle _ sampleTriangle sampleCamera
      (Window.Reachable.drawLine _ sampleLine Window.Reachable.new))
  ⟨h.2.2.1, h.2.2.2.2⟩

/-- C11: the buffer accessors fail exactly on the three error kinds and the setters are
atomic: `setPixel(x,y,r,g,b)` fails iff some channel is outside `[0,255]` or `(x,y)` is
outside `[0,width) × [0,height)` (likewise the one-colour overload); `setDepth(x,y,d)`
fails iff `d < 0` or `(x,y)` is out of bounds; `getPixel` / `getDepth` fail iff `(x,y)` is
out of bounds; and a setter that fails leaves the buffer as it was. -/
theorem C11_accessors_fail_fast_and_atomic (pa : PixelArray) (zb : ZBuffer K)
    (x y r g b color : Int) (d : K) :
    (((pa.setPixelRGB x y r g b).2 ≠ none ↔
        (¬ (0 ≤ r ∧ r ≤ 255) ∨ ¬ (0 ≤ g ∧ g ≤ 255) ∨ ¬ (0 ≤ b ∧ b ≤ 255)) ∨
          ¬ (0 ≤ x ∧ x < pa.width ∧ 0 ≤ y ∧ y < pa.height)) ∧
      ((pa.setPixelRGB x y r g b).2 ≠ none → (pa.setPixelRGB x y r g b).1 = pa)) ∧
    (((pa.setPixel x y color).2 ≠ none ↔
        ¬ (0 ≤ color ∧ color ≤ 255) ∨ ¬ (0 ≤ x ∧ x < pa.width ∧ 0 ≤ y ∧ y < pa.height)) ∧
      ((pa.setPixel x y color).2 ≠ none → (pa.setPixel x y color).1 = pa)) ∧
    (((zb.setDepth x y d).2 ≠ none ↔
        d < 0 ∨ ¬ (0 ≤ x ∧ x < zb.width ∧ 0 ≤ y ∧ y < zb.height)) ∧
      ((zb.setDepth x y d).2 ≠ none → (zb.setDepth x y d).1 = zb)) ∧
    ((∃ e, pa.getPixel x y = .error e) ↔ ¬ (0 ≤ x ∧ x < pa.width ∧ 0 ≤ y ∧ y < pa.height)) ∧
    ((∃ e, zb.getDepth x y = .error e) ↔ ¬ (0 ≤ x ∧ x < zb.width ∧ 0 ≤ y ∧ y < zb.height)) := by
  refine ⟨⟨?_, ?_⟩, ⟨?_, ?_⟩, ⟨?_, ?_⟩, ?_, ?_⟩
  · unfold PixelArray.setPixelRGB PixelArray.getIndex
    split_ifs with h1 h2 <;> simp <;> omega
  · unfold PixelArray.setPixelRGB PixelArray.getIndex
    split_ifs with h1 h2 <;> simp
  · unfold PixelArray.setPixel PixelArray.getIndex
    split_ifs with h1 h2 <;> simp <;> omega
  · unfold PixelArray.setPixel PixelArray.getIndex
    split_ifs with h1 h2 <;> simp
  · unfold ZBuffer.setDepth ZBuffer.getIndex
    split_ifs with h1 h2
    · simp [h1]
    · simp [h1]; omega
    · simp [h1]; omega
  · unfold ZBuffer.setDepth ZBuffer.getIndex
    split_ifs with h1 h2 <;> simp
  · unfold PixelArray.getPixel PixelArray.getIndex
    split_ifs with h1 <;> simp <;> omega
  · unfold ZBuffer.getDepth ZBuffer.getIndex
    split_ifs with h1 <;> simp <;> omega

/-- C12: for every `PixelArray` whose `data` has the length the constructor gives it,
every in-bounds `(x,y)` and channels `r`, `g`, `b` in `[0,255]`: after
`setPixel(x,y,r,g,b)`, `getPixel(x,y)` returns `[r,g,b]` and `getPixel(x',y')` is unchanged
for every other in-bounds `(x',y')`; the three indices `getIndex(x,y) .. getIndex(x,y)+2`
lie in `[0, width*height*3)` and do not overlap those of any other in-bounds pixel. -/
theorem C12_pixel_store_round_trip (pa : PixelArray)
    (hlen : pa.data.length = (pa.width * pa.height * 3).toNat) (x y r g b : Int)
    (hx : 0 ≤ x ∧ x < pa.width) (hy : 0 ≤ y ∧ y < pa.height)
    (hc : (0 ≤ r ∧ r ≤ 255) ∧ (0 ≤ g ∧ g ≤ 255) ∧ (0 ≤ b ∧ b ≤ 255)) :
    (pa.setPixelRGB x y r g b).2 = none ∧
    (pa.setPixelRGB x y r g b).1.getPixel x y = .ok [r, g, b] ∧
    (∀ x' y' : Int, 0 ≤ x' ∧ x' < pa.width → 0 ≤ y' ∧ y' < pa.height → ¬ (x' = x ∧ y' = y) →
      (pa.setPixelRGB x y r g b).1.getPixel x' y' = pa.getPixel x' y') ∧
    ∃ i : Int, pa.getIndex x y = .ok i ∧ 0 ≤ i ∧ i + 2 < pa.width * pa.height * 3 ∧
      (i + 2).toNat < pa.data.length ∧
      ∀ x' y' : Int, 0 ≤ x' ∧ x' < pa.width → 0 ≤ y' ∧ y' < pa.height → ¬ (x' = x ∧ y' = y) →
        ∃ j : Int, pa.getIndex x' y' = .ok j ∧ (j + 2 < i ∨ i + 2 < j) := by
  have hi := index_lt hx.1 hx.2 hy.1 hy.2
  refine ⟨PixelArray.setPixelRGB_ok pa hc.1 hc.2.1 hc.2.2 hx.1 hx.2 hy.1 hy.2,
    PixelArray.getPixel_setPixelRGB pa hlen hx.1 hx.2 hy.1 hy.2 hc.1 hc.2.1 hc.2.2, ?_, ?_⟩
  · intro x' y' kx ky hne
    exact PixelArray.getPixel_setPixelRGB_other pa r g b hx.1 hx.2 hy.1 hy.2 kx.1 kx.2 ky.1 ky.2
      hne
  · refine ⟨(pa.width * y + x) * 3, PixelArray.pixelIndex_ok pa hx.1 hx.2 hy.1 hy.2, by omega,
      by omega, by rw [hlen]; omega, ?_⟩
    intro x' y' kx ky hne
    refine ⟨(pa.width * y' + x') * 3, PixelArray.pixelIndex_ok pa kx.1 kx.2 ky.1 ky.2, ?_⟩
    have hq : pa.width * y' + x' ≠ pa.width * y + x := by
      intro h
      exact hne (pixel_index_inj kx.1 kx.2 ky.1 ky.2 hx.1 hx.2 hy.1 hy.2 h)
    omega

/-- C12 at a concrete input: pixel `(1, 0)` of a fresh `2 × 2` buffer. -/
theorem C12_witness :
    ((PixelArray.new 2 2).setPixelRGB 1 0 10 20 30).1.getPixel 1 0 = .ok [10, 20, 30] ∧
      ((PixelArray.new 2 2).setPixelRGB 1 0 10 20 30).1.getPixel 0 1
        = (PixelArray.new 2 2).getPixel 0 1 :=
  have h := C12_pixel_store_round_trip (PixelArray.new 2 2) (by rfl) 1 0 10 20 30 (by decide)
    (by decide) (by decide)
  ⟨h.2.1, h.2.2.1 0 1 (by decide) (by decide) (by decide)⟩

/-- C13: for all vectors `a` and `b`, `cross(a,b)` is orthogonal to both:
`dot(cross(a,b), a) = 0` and `dot(cross(a,b), b) = 0`. -/
theorem C13_cross_is_orthogonal (a b : Vec3 K) :
    (a.cross b).dot a = 0 ∧ (a.cross b).dot b = 0 := by
  constructor <;> simp only [Vec3.cross, Vec3.dot] <;> ring

/-- C14: for every vector `v` and every angle `t`, `rotateZ(t)` followed by `rotateZ(-t)`
gives back `v`, and `rotateY(t)` followed by `rotateY(-t)` gives back `v`. -/
theorem C14_rotation_round_trip (M : FloatMath K) (hM : M.Lawful) (v : Vec3 K) (t : K) :
    (v.rotateZ M t).rotateZ M (-t) = v ∧ (v.rotateY M t).rotateY M (-t) = v :=
  ⟨Vec3.rotateZ_neg_cancel M hM v t, Vec3.rotateY_neg_cancel M hM v t⟩

/-- C14 at a concrete input: the vector `(1,2,3)` and the angle 2 over the reals. -/
theorem C14_witness :
    ((Vec3.mk 1 2 3 : Vec3 ℝ).rotateZ realMath 2).rotateZ realMath (-2) = ⟨1, 2, 3⟩ ∧
      ((Vec3.mk 1 2 3 : Vec3 ℝ).rotateY realMath 2).rotateY realMath (-2) = ⟨1, 2, 3⟩ :=
  C14_rotation_round_trip realMath realMath_lawful ⟨1, 2, 3⟩ 2

/-- C15: for every vector `v` with non-zero magnitude, after `normalize` the vector has
magnitude exactly 1 and the original is `mag(v)` times the normalized vector, with
`mag(v) > 0`. -/
theorem C15_normalize_gives_unit_vector (M : FloatMath K) (hM : M.Lawful) (v : Vec3 K)
    (hv : v.mag M ≠ 0) :
    (v.normalize M).mag M = 1 ∧ 0 < v.mag M ∧
      v = (v.normalize M).mul (v.mag M) ∧ v = Vec3.scalarMul (v.mag M) (v.normalize M) := by
  have hpos : 0 < v.mag M := lt_of_le_of_ne (hM.sqrt_nonneg _) (Ne.symm hv)
  refine ⟨Vec3.mag_normalize M hM v hv, hpos, ?_, ?_⟩
  · ext <;> simp [Vec3.normalize, Vec3.divAssign, Vec3.mul, div_mul_cancel₀ _ hv]
  · ext <;> simp [Vec3.normalize, Vec3.divAssign, Vec3.scalarMul, div_mul_cancel₀ _ hv]

/-- C15 at a concrete input: the vector `(3,0,4)` over the reals. -/
theorem C15_witness : ((Vec3.mk 3 0 4 : Vec3 ℝ).normalize realMath).mag realMath = 1 := by
  have h5 : (Vec3.mk 3 0 4 : Vec3 ℝ).mag realMath = 5 :=
    realMath_lawful.sqrt_of_mul_self (by norm_num) (by norm_num)
  exact (C15_normalize_gives_unit_vector realMath realMath_lawful ⟨3, 0, 4⟩
    (by rw [h5]; norm_num)).1

/-- C16: for every camera state and every call `rotate(deltaYaw, deltaPitch)`, the
resulting pitch is the clamp of `thetaY + deltaPitch` to `[-pi/2, pi/2]`, so it lies in
that interval, and the yaw becomes `thetaZ + deltaYaw`. -/
theorem C16_pitch_is_clamped (M : FloatMath K) (hpi : 0 ≤ M.pi) (cam : Camera K)
    (deltaYaw deltaPitch : K) :
    -M.pi / 2 ≤ (cam.rotate M deltaYaw deltaPitch).thetaY ∧
    (cam.rotate M deltaYaw deltaPitch).thetaY ≤ M.pi / 2 ∧
    (cam.rotate M deltaYaw deltaPitch).thetaY =
      (if cam.thetaY + deltaPitch < -M.pi / 2 then -M.pi / 2
        else if cam.thetaY + deltaPitch > M.pi / 2 then M.pi / 2
        else cam.thetaY + deltaPitch) ∧
    (cam.rotate M deltaYaw deltaPitch).thetaZ = cam.thetaZ + deltaYaw := by
  have hlo : -M.pi / 2 ≤ M.pi / 2 := by linarith
  have e : (cam.rotate M deltaYaw deltaPitch).thetaY
      = min (max (cam.thetaY + deltaPitch) (-M.pi / 2)) (M.pi / 2) := rfl
  refine ⟨?_, ?_, ?_, rfl⟩
  · rw [e]
    exact le_min (le_max_right _ _) hlo
  · rw [e]
    exact min_le_right _ _
  · rw [e]
    split_ifs with h1 h2
    · rw [max_eq_right (le_of_lt h1), min_eq_left hlo]
    · rw [max_eq_left (not_lt.mp h1), min_eq_right (le_of_lt h2)]
    · rw [max_eq_left (not_lt.mp h1), min_eq_left (not_lt.mp h2)]

/-- C16 at a concrete input: pitch 0 plus 5 is clamped with `pi = 355/113`. -/
theorem C16_witness :
    (sampleCamera.rotate approxMath 2 5).thetaY ≤ approxMath.pi / 2 ∧
      (sampleCamera.rotate approxMath 2 5).thetaZ = sampleCamera.thetaZ + 2 :=
  have h := C16_pitch_is_clamped approxMath (by norm_num [approxMath]) sampleCamera 2 5
  ⟨h.2.1, h.2.2.2⟩

/-- C17 (the code at failing inputs): after `Camera(pos, 0, 0, 90)` and `rotate(0, pi)` the
pitch field is clamped to `pi/2` but `direction` was rotated by the whole `pi`, so it is
`(-1,0,0)` while `(1,0,0)` rotated by the current yaw and pitch is `(0,0,1)`; and after
`Camera(pos, 0, pi/2, 90)` and `rotate(pi/2, 0)`, where nothing is clamped, `direction` is
`(0,0,1)` while `(1,0,0)` rotated by the current yaw and pitch is `(0,1,0)`. -/
theorem C17_direction_drifts_from_angles :
    (((Camera.new realMath ⟨0, 0, 0⟩ 0 0 90).rotate realMath 0 Real.pi).thetaZ = 0 ∧
      ((Camera.new realMath ⟨0, 0, 0⟩ 0 0 90).rotate realMath 0 Real.pi).thetaY = Real.pi / 2 ∧
      ((Camera.new realMath ⟨0, 0, 0⟩ 0 0 90).rotate realMath 0 Real.pi).direction = ⟨-1, 0, 0⟩ ∧
      (Vec3.mk 1 0 0 : Vec3 ℝ).rotate realMath
        ((Camera.new realMath ⟨0, 0, 0⟩ 0 0 90).rotate realMath 0 Real.pi).thetaZ
        ((Camera.new realMath ⟨0, 0, 0⟩ 0 0 90).rotate realMath 0 Real.pi).thetaY = ⟨0, 0, 1⟩) ∧
    (((Camera.new realMath ⟨0, 0, 0⟩ 0 (Real.pi / 2) 90).rotate realMath (Real.pi / 2) 0).thetaZ
        = Real.pi / 2 ∧
      ((Camera.new realMath ⟨0, 0, 0⟩ 0 (Real.pi / 2) 90).rotate realMath (Real.pi / 2) 0).thetaY
        = Real.pi / 2 ∧
      ((Camera.new realMath ⟨0, 0, 0⟩ 0 (Real.pi / 2) 90).rotate realMath (Real.pi / 2) 0).direction
        = ⟨0, 0, 1⟩ ∧
      (Vec3.mk 1 0 0 : Vec3 ℝ).rotate realMath
        ((Camera.new realMath ⟨0, 0, 0⟩ 0 (Real.pi / 2) 90).rotate realMath (Real.pi / 2) 0).thetaZ
        ((Camera.new realMath ⟨0, 0, 0⟩ 0 (Real.pi / 2) 90).rotate realMath (Real.pi / 2) 0).thetaY
        = ⟨0, 1, 0⟩) := by
  have hp := Real.pi_pos
  have hY1 : ((Camera.new realMath ⟨0, 0, 0⟩ 0 0 90).rotate realMath 0 Real.pi).thetaY
      = Real.pi / 2 := by
    show min (max (0 + Real.pi) (-Real.pi / 2)) (Real.pi / 2) = Real.pi / 2
    rw [max_eq_left (by linarith), min_eq_right (by linarith)]
  have hZ1 : ((Camera.new realMath ⟨0, 0, 0⟩ 0 0 90).rotate realMath 0 Real.pi).thetaZ = 0 := by
    show (0 : ℝ) + 0 = 0
    norm_num
  have hY2 : ((Camera.new realMath ⟨0, 0, 0⟩ 0 (Real.pi / 2) 90).rotate realMath
      (Real.pi / 2) 0).thetaY = Real.pi / 2 := by
    show min (max (Real.pi / 2 + 0) (-Real.pi / 2)) (Real.pi / 2) = Real.pi / 2
    rw [max_eq_left (by linarith), min_eq_right (by linarith)]
  have hZ2 : ((Camera.new realMath ⟨0, 0, 0⟩ 0 (Real.pi / 2) 90).rotate realMath
      (Real.pi / 2) 0).thetaZ = Real.pi / 2 := by
    show (0 : ℝ) + Real.pi / 2 = Real.pi / 2
    norm_num
  refine ⟨⟨hZ1, hY1, ?_, ?_⟩, ⟨hZ2, hY2, ?_, ?_⟩⟩
  · ext <;> simp [Camera.rotate, Camera.new, Vec3.rotate, Vec3.rotateY, Vec3.rotateZ, realMath]
  · rw [hZ1, hY1]
    ext <;> simp [Vec3.rotate, Vec3.rotateY, Vec3.rotateZ, realMath]
  · ext <;> simp [Camera.rotate, Camera.new, Vec3.rotate, Vec3.rotateY, Vec3.rotateZ, realMath]
  · rw [hZ2, hY2]
    ext <;> simp [Vec3.rotate, Vec3.rotateY, Vec3.rotateZ, realMath]

/-- C18: for every camera reachable from either constructor by any sequence of `rotate`
and `moveRelative` calls, `moveRelative(forward, sideward, upward)` changes `pos.z` by
exactly `upward`, moves `pos.x` and `pos.y` by `floorDirection * forward` plus
(`floorDirection` rotated by `-pi/2` about Z) `* sideward`, and leaves `thetaZ`, `thetaY`,
`direction`, `floorDirection`, `fov`, `fov_rad` and `maxPlaneCoord` unchanged. -/
theorem C18_vertical_motion_is_decoupled (M : FloatMath K) (hM : M.Lawful) (cam : Camera K)
    (h : cam.Reachable M) (forward sideward upward : K) :
    (cam.moveRelative M forward sideward upward).pos.z = cam.pos.z + upward ∧
    (cam.moveRelative M forward sideward upward).pos.x = cam.pos.x +
      (cam.floorDirection.x * forward
        + (cam.floorDirection.rotateZ M (-M.pi / 2)).x * sideward) ∧
    (cam.moveRelative M forward sideward upward).pos.y = cam.pos.y +
      (cam.floorDirection.y * forward
        + (cam.floorDirection.rotateZ M (-M.pi / 2)).y * sideward) ∧
    (cam.moveRelative M forward sideward upward).thetaZ = cam.thetaZ ∧
    (cam.moveRelative M forward sideward upward).thetaY = cam.thetaY ∧
    (cam.moveRelative M forward sideward upward).direction = cam.direction ∧
    (cam.moveRelative M forward sideward upward).floorDirection = cam.floorDirection ∧
    (cam.moveRelative M forward sideward upward).fov = cam.fov ∧
    (cam.moveRelative M forward sideward upward).fov_rad = cam.fov_rad ∧
    (cam.moveRelative M forward sideward upward).maxPlaneCoord = cam.maxPlaneCoord := by
  have hz := Camera.floorDirection_z M hM cam h
  refine ⟨?_, ?_, ?_, rfl, rfl, rfl, rfl, rfl, rfl, rfl⟩
  · simp [Camera.moveRelative, Vec3.add, Vec3.mul, Vec3.rotate, Vec3.rotateY, Vec3.rotateZ,
      hM.sin_zero, hM.cos_zero, hz]
  · simp [Camera.moveRelative, Vec3.add, Vec3.mul, Vec3.rotate, Vec3.rotateY, Vec3.rotateZ,
      hM.sin_zero, hM.cos_zero, hz]
  · simp [Camera.moveRelative, Vec3.add, Vec3.mul, Vec3.rotate, Vec3.rotateY, Vec3.rotateZ,
      hM.sin_zero, hM.cos_zero, hz]

/-- C18 at a concrete input: a camera built with yaw 2 and pitch 1, rotated once, then
moved by `(3, 4, 5)`. -/
theorem C18_witness :
    ((((Camera.new realMath ⟨1, 2, 3⟩ 2 1 90).rotate realMath 1 1).moveRelative realMath
      3 4 5).pos.z = ((Camera.new realMath ⟨1, 2, 3⟩ 2 1 90).rotate realMath 1 1).pos.z + 5) :=
  (C18_vertical_motion_is_decoupled realMath realMath_lawful _
    (Camera.Reachable.rotate _ 1 1 (Camera.Reachable.new ⟨1, 2, 3⟩ 2 1 90)) 3 4 5).1

/-- C19: for camera-space corners `a`, `b`, `c` that are not collinear,
`n = normalize((a-b) x (a-c))`, `d1 = n.a` and the pixel ray `r = (1, cameraY, cameraZ)`
with `n.r ≠ 0`: `n` is a unit vector, the three corners satisfy `n.a = n.b = n.c = d1`, the
point `P = (d1/(n.r)) * r` lies on that plane (`n.P = d1`), the depth computed from `n`,
`d1` and the ray is `|P|` when `d1/(n.r) ≥ 0` and 0 when `d1/(n.r) < 0`; and for every
triangle with these corners `Window::drawTriangle` runs its column loops with this `n` and
`d1`, the row-loop body at a pixel whose ray is `r` is the depth test with `|P|`
(respectively 0), and when that test passes on a well-formed window the depth buffer then
holds `|P|` at the pixel. -/
theorem C19_depth_is_distance_to_plane (M : FloatMath K) (hM : M.Lawful) (a b c : Vec3 K)
    (cameraY cameraZ : K) (hcol : (a.sub b).cross (a.sub c) ≠ Vec3.zero)
    (hray : (planeNormal M a b c).dot ⟨1, cameraY, cameraZ⟩ ≠ 0) :
    (planeNormal M a b c).mag M = 1 ∧
    ((planeNormal M a b c).dot a = planeOffset (planeNormal M a b c) a ∧
      (planeNormal M a b c).dot b = planeOffset (planeNormal M a b c) a ∧
      (planeNormal M a b c).dot c = planeOffset (planeNormal M a b c) a) ∧
    (planeNormal M a b c).dot
        (Vec3.scalarMul
          (planeOffset (planeNormal M a b c) a / (planeNormal M a b c).dot ⟨1, cameraY, cameraZ⟩)
          ⟨1, cameraY, cameraZ⟩)
      = planeOffset (planeNormal M a b c) a ∧
    (0 ≤ planeOffset (planeNormal M a b c) a / (planeNormal M a b c).dot ⟨1, cameraY, cameraZ⟩ →
      clampDepth (cornerDepth M a b c cameraY cameraZ) =
        (Vec3.scalarMul
          (planeOffset (planeNormal M a b c) a / (planeNormal M a b c).dot ⟨1, cameraY, cameraZ⟩)
          ⟨1, cameraY, cameraZ⟩).mag M) ∧
    (planeOffset (planeNormal M a b c) a / (planeNormal M a b c).dot ⟨1, cameraY, cameraZ⟩ < 0 →
      clampDepth (cornerDepth M a b c cameraY cameraZ) = 0) ∧
    (∀ (t : Triangle K) (cam : Camera K) (w : Window K) (x : K) (y : Int),
      t.p1.cameraPos = a → t.p2.cameraPos = b → t.p3.cameraPos = c →
      cam.getCameraZFromPixel y w.height = cameraZ →
      w.drawTriangle M t cam =
          w.fillSorted M t cam (planeNormal M a b c) (planeOffset (planeNormal M a b c) a)
            (sortByScreenX t.p1 t.p2 t.p3).1 (sortByScreenX t.p1 t.p2 t.p3).2.1
            (sortByScreenX t.p1 t.p2 t.p3).2.2
        ∧ (0 ≤ planeOffset (planeNormal M a b c) a
              / (planeNormal M a b c).dot ⟨1, cameraY, cameraZ⟩ →
            w.shadePixel M t cam (planeNormal M a b c) (planeOffset (planeNormal M a b c) a)
                cameraY x y
              = w.depthTest (ctrunc x) y
                  ((Vec3.scalarMul
                    (planeOffset (planeNormal M a b c) a
                      / (planeNormal M a b c).dot ⟨1, cameraY, cameraZ⟩)
                    ⟨1, cameraY, cameraZ⟩).mag M) t.r t.g t.b)
        ∧ (planeOffset (planeNormal M a b c) a
              / (planeNormal M a b c).dot ⟨1, cameraY, cameraZ⟩ < 0 →
            w.shadePixel M t cam (planeNormal M a b c) (planeOffset (planeNormal M a b c) a)
                cameraY x y
              = w.depthTest (ctrunc x) y 0 t.r t.g t.b)
        ∧ (0 ≤ planeOffset (planeNormal M a b c) a
              / (planeNormal M a b c).dot ⟨1, cameraY, cameraZ⟩ →
            w.WF → t.ColorOk → 0 ≤ x → x < (w.width : K) → 0 ≤ y → y < w.height →
            ∀ old : K, w.zBuffer.getDepth (ctrunc x) y = .ok old →
              (Vec3.scalarMul
                (planeOffset (planeNormal M a b c) a
                  / (planeNormal M a b c).dot ⟨1, cameraY, cameraZ⟩)
                ⟨1, cameraY, cameraZ⟩).mag M < old →
              (w.shadePixel M t cam (planeNormal M a b c)
                  (planeOffset (planeNormal M a b c) a) cameraY x y).1.zBuffer.getDepth
                  (ctrunc x) y
                = .ok ((Vec3.scalarMul
                    (planeOffset (planeNormal M a b c) a
                      / (planeNormal M a b c).dot ⟨1, cameraY, cameraZ⟩)
                    ⟨1, cameraY, cameraZ⟩).mag M))) := by
  have hcorn := planeNormal_dot_corners M a b c
  have hmag : ((a.sub b).cross (a.sub c)).mag M ≠ 0 := Vec3.mag_ne_zero M hM _ hcol
  have hdepth : cornerDepth M a b c cameraY cameraZ
      = planeOffset (planeNormal M a b c) a / (planeNormal M a b c).dot ⟨1, cameraY, cameraZ⟩
        * (Vec3.mk 1 cameraY cameraZ).mag M := rfl
  have hlen : 0 ≤ (Vec3.mk 1 cameraY cameraZ).mag M := hM.sqrt_nonneg _
  have hpos : 0 ≤ planeOffset (planeNormal M a b c) a
        / (planeNormal M a b c).dot ⟨1, cameraY, cameraZ⟩ →
      clampDepth (cornerDepth M a b c cameraY cameraZ) =
        (Vec3.scalarMul
          (planeOffset (planeNormal M a b c) a / (planeNormal M a b c).dot ⟨1, cameraY, cameraZ⟩)
          ⟨1, cameraY, cameraZ⟩).mag M := by
    intro ht
    rw [Vec3.mag_scalarMul M hM _ ht, hdepth]
    unfold clampDepth
    rw [if_neg (not_lt.mpr (mul_nonneg ht hlen))]
  have hneg : planeOffset (planeNormal M a b c) a
        / (planeNormal M a b c).dot ⟨1, cameraY, cameraZ⟩ < 0 →
      clampDepth (cornerDepth M a b c cameraY cameraZ) = 0 := by
    intro ht
    rw [hdepth]
    unfold clampDepth
    split_ifs with h
    · rfl
    · have := mul_nonpos_of_nonpos_of_nonneg (le_of_lt ht) hlen
      exact le_antisymm this (not_lt.mp h)
  refine ⟨Vec3.mag_normalize M hM _ hmag, ⟨rfl, hcorn.1.symm, hcorn.2.symm⟩, ?_, hpos, hneg, ?_⟩
  · have e : (planeNormal M a b c).dot
        (Vec3.scalarMul
          (planeOffset (planeNormal M a b c) a / (planeNormal M a b c).dot ⟨1, cameraY, cameraZ⟩)
          ⟨1, cameraY, cameraZ⟩)
        = planeOffset (planeNormal M a b c) a / (planeNormal M a b c).dot ⟨1, cameraY, cameraZ⟩
          * (planeNormal M a b c).dot ⟨1, cameraY, cameraZ⟩ := by
      simp only [Vec3.dot, Vec3.scalarMul]
      ring
    rw [e, div_mul_cancel₀ _ hray]
  · intro t cam w x y ha hb hc hz
    have hshade : w.shadePixel M t cam (planeNormal M a b c)
        (planeOffset (planeNormal M a b c) a) cameraY x y
        = w.depthTest (ctrunc x) y (clampDepth (cornerDepth M a b c cameraY cameraZ))
            t.r t.g t.b := by
      rw [Window.shadePixel_eq, hz]
      rfl
    refine ⟨?_, ?_, ?_, ?_⟩
    · rw [Window.drawTriangle_eq_fillSorted, ha, hb, hc]
    · intro ht
      rw [hshade, hpos ht]
    · intro ht
      rw [hshade, hneg ht]
    · intro ht hw hcl hx hx' hy hy' old hold hlt
      rw [hshade, hpos ht]
      have hb := ctrunc_bounds hx hx'
      exact (Window.depthTest_pass w hw hb.1 hb.2 hy hy' (hM.sqrt_nonneg _) hcl.1 hcl.2.1
        hcl.2.2 hold hlt).2.1

/-- C19 at a concrete input: the plane `x = 1` through `(1,0,0)`, `(1,1,0)`, `(1,0,1)`, a
camera with `maxPlaneCoord = 1`, the pixel of column 3 and row 4 of an `8 × 8` window and
the ray `(1, 1/2, cameraZ)` of that row, over the reals. -/
theorem C19_witness :
    (planeNormal realMath (⟨1, 0, 0⟩ : Vec3 ℝ) ⟨1, 1, 0⟩ ⟨1, 0, 1⟩).mag realMath = 1 ∧
    (Window.new 8 8 : Window ℝ).shadePixel realMath
        (Triangle.mk ⟨Vec3.zero, ⟨1, 0, 0⟩, Vec3.zero, Vec3.zero, 0⟩
          ⟨Vec3.zero, ⟨1, 1, 0⟩, Vec3.zero, Vec3.zero, 0⟩
          ⟨Vec3.zero, ⟨1, 0, 1⟩, Vec3.zero, Vec3.zero, 0⟩ Vec3.zero 255 0 0)
        ⟨Vec3.zero, 0, 0, 90, 0, 1, ⟨1, 0, 0⟩, ⟨1, 0, 0⟩⟩
        (planeNormal realMath (⟨1, 0, 0⟩ : Vec3 ℝ) ⟨1, 1, 0⟩ ⟨1, 0, 1⟩)
        (planeOffset (planeNormal realMath (⟨1, 0, 0⟩ : Vec3 ℝ) ⟨1, 1, 0⟩ ⟨1, 0, 1⟩) ⟨1, 0, 0⟩)
        (1 / 2) 3 4
      = (Window.new 8 8 : Window ℝ).depthTest (ctrunc (3 : ℝ)) 4
          ((Vec3.scalarMul
            (planeOffset (planeNormal realMath (⟨1, 0, 0⟩ : Vec3 ℝ) ⟨1, 1, 0⟩ ⟨1, 0, 1⟩)
                ⟨1, 0, 0⟩
              / (planeNormal realMath (⟨1, 0, 0⟩ : Vec3 ℝ) ⟨1, 1, 0⟩ ⟨1, 0, 1⟩).dot
                ⟨1, 1 / 2, (⟨Vec3.zero, 0, 0, 90, 0, 1, ⟨1, 0, 0⟩, ⟨1, 0, 0⟩⟩ :
                  Camera ℝ).getCameraZFromPixel 4 (Window.new 8 8 : Window ℝ).height⟩)
            ⟨1, 1 / 2, (⟨Vec3.zero, 0, 0, 90, 0, 1, ⟨1, 0, 0⟩, ⟨1, 0, 0⟩⟩ :
              Camera ℝ).getCameraZFromPixel 4 (Window.new 8 8 : Window ℝ).height⟩).mag
            realMath) 255 0 0 := by
  have hN : ((⟨1, 0, 0⟩ : Vec3 ℝ).sub ⟨1, 1, 0⟩).cross ((⟨1, 0, 0⟩ : Vec3 ℝ).sub ⟨1, 0, 1⟩)
      = ⟨1, 0, 0⟩ := by
    ext <;> simp [Vec3.cross, Vec3.sub]
  have hn : planeNormal realMath (⟨1, 0, 0⟩ : Vec3 ℝ) ⟨1, 1, 0⟩ ⟨1, 0, 1⟩ = ⟨1, 0, 0⟩ := by
    unfold planeNormal
    rw [hN]
    ext <;> simp [Vec3.normalize, Vec3.divAssign, Vec3.mag, realMath]
  have h := C19_depth_is_distance_to_plane realMath realMath_lawful ⟨1, 0, 0⟩ ⟨1, 1, 0⟩
    ⟨1, 0, 1⟩ (1 / 2)
    ((⟨Vec3.zero, 0, 0, 90, 0, 1, ⟨1, 0, 0⟩, ⟨1, 0, 0⟩⟩ : Camera ℝ).getCameraZFromPixel 4
      (Window.new 8 8 : Window ℝ).height)
    (by
      rw [hN]
      intro h
      have := congrArg Vec3.x h
      simp [Vec3.zero] at this)
    (by
      rw [hn]
      simp [Vec3.dot])
  refine ⟨h.1, (h.2.2.2.2.2
    (Triangle.mk ⟨Vec3.zero, ⟨1, 0, 0⟩, Vec3.zero, Vec3.zero, 0⟩
      ⟨Vec3.zero, ⟨1, 1, 0⟩, Vec3.zero, Vec3.zero, 0⟩
      ⟨Vec3.zero, ⟨1, 0, 1⟩, Vec3.zero, Vec3.zero, 0⟩ Vec3.zero 255 0 0)
    ⟨Vec3.zero, 0, 0, 90, 0, 1, ⟨1, 0, 0⟩, ⟨1, 0, 0⟩⟩ (Window.new 8 8) 3 4
    rfl rfl rfl rfl).2.1 ?_⟩
  rw [hn]
  simp [planeOffset, Vec3.dot]

/-- C21: for every line with one end point in front (`cameraPos.x > 0`) and one behind
(`cameraPos.x < 0`), in both cases `Line::draw` replaces the `x` and `y` of the behind end
point's `projectedPos` by those of `behind + 100 * (front - behind)` and leaves that end
point with a positive `projectedPos.z` (1 if `p1` is behind, 199 if `p2` is behind), keeps
the `x` and `y` of the front end point's `projectedPos`, and then makes its one call of
`Window::drawLine`, on the line whose two screen positions are those computed from the
clipped `projectedPos`. -/
theorem C21_line_clipping (M : FloatMath K) (l : Line K) (cam : Camera K) (w : Window K) :
    ((l.p1.calculateCameraPos M cam).cameraPos.x < 0 →
      0 < (l.p2.calculateCameraPos M cam).cameraPos.x →
      (l.draw M cam w).1.p1.projectedPos.x
          = ((l.p1.calculateCameraPos M cam).calculateProjectedPos.projectedPos.add
              (Vec3.scalarMul 100
                ((l.p2.calculateCameraPos M cam).calculateProjectedPos.projectedPos.sub
                  (l.p1.calculateCameraPos M cam).calculateProjectedPos.projectedPos))).x
        ∧ (l.draw M cam w).1.p1.projectedPos.y
          = ((l.p1.calculateCameraPos M cam).calculateProjectedPos.projectedPos.add
              (Vec3.scalarMul 100
                ((l.p2.calculateCameraPos M cam).calculateProjectedPos.projectedPos.sub
                  (l.p1.calculateCameraPos M cam).calculateProjectedPos.projectedPos))).y
        ∧ (l.draw M cam w).1.p1.projectedPos.z = 1
        ∧ (l.draw M cam w).1.p2.projectedPos
          = (l.p2.calculateCameraPos M cam).calculateProjectedPos.projectedPos)
    ∧ (0 < (l.p1.calculateCameraPos M cam).cameraPos.x →
      (l.p2.calculateCameraPos M cam).cameraPos.x < 0 →
      (l.draw M cam w).1.p2.projectedPos.x
          = ((l.p2.calculateCameraPos M cam).calculateProjectedPos.projectedPos.add
              (Vec3.scalarMul 100
                ((l.p1.calculateCameraPos M cam).calculateProjectedPos.projectedPos.sub
                  (l.p2.calculateCameraPos M cam).calculateProjectedPos.projectedPos))).x
        ∧ (l.draw M cam w).1.p2.projectedPos.y
          = ((l.p2.calculateCameraPos M cam).calculateProjectedPos.projectedPos.add
              (Vec3.scalarMul 100
                ((l.p1.calculateCameraPos M cam).calculateProjectedPos.projectedPos.sub
                  (l.p2.calculateCameraPos M cam).calculateProjectedPos.projectedPos))).y
        ∧ (l.draw M cam w).1.p2.projectedPos.z = 199
        ∧ (l.draw M cam w).1.p1.projectedPos.x
          = (l.p1.calculateCameraPos M cam).calculateProjectedPos.projectedPos.x
        ∧ (l.draw M cam w).1.p1.projectedPos.y
          = (l.p1.calculateCameraPos M cam).calculateProjectedPos.projectedPos.y
        ∧ (l.draw M cam w).1.p1.projectedPos.z = 2)
    ∧ (((l.p1.calculateCameraPos M cam).cameraPos.x < 0
          ∧ 0 < (l.p2.calculateCameraPos M cam).cameraPos.x)
        ∨ (0 < (l.p1.calculateCameraPos M cam).cameraPos.x
          ∧ (l.p2.calculateCameraPos M cam).cameraPos.x < 0) →
      (l.draw M cam w).2 = w.drawLine (l.draw M cam w).1
        ∧ ((l.draw M cam w).1.p1.calculateScreenPos cam w).screenPos
            = (l.draw M cam w).1.p1.screenPos
        ∧ ((l.draw M cam w).1.p2.calculateScreenPos cam w).screenPos
            = (l.draw M cam w).1.p2.screenPos) := by
  refine ⟨?_, ?_, ?_⟩
  · intro h1 h2
    rw [Line.draw_first_behind M l cam w h1 h2]
    exact ⟨rfl, rfl, rfl, rfl⟩
  · intro h1 h2
    rw [Line.draw_second_behind M l cam w h1 h2]
    refine ⟨rfl, rfl, ?_, rfl, rfl, rfl⟩
    have z1 := Point.flag_front _ h1
    have z2 := Point.flag_behind _ h2
    simp only [Point.calculateScreenPos, Point.pushToward, Vec3.add, Vec3.sub, Vec3.scalarMul,
      z1, z2]
    norm_num
  · rintro (⟨h1, h2⟩ | ⟨h1, h2⟩)
    · rw [Line.draw_first_behind M l cam w h1 h2]
      exact ⟨rfl, rfl, rfl⟩
    · rw [Line.draw_second_behind M l cam w h1 h2]
      exact ⟨rfl, rfl, rfl⟩

/-- C21 at concrete inputs: a line from `(-5,1,1)` behind `sampleCamera` to `(5,2,-2)` in
front of it, and the same line with its end points exchanged. -/
theorem C21_witness :
    ((Line.mk (samplePoint (-5) 1 1) (samplePoint 5 2 (-2))).draw approxMath sampleCamera
        (Window.new 8 8)).1.p1.projectedPos.z = 1
      ∧ ((Line.mk (samplePoint 5 2 (-2)) (samplePoint (-5) 1 1)).draw approxMath sampleCamera
        (Window.new 8 8)).1.p2.projectedPos.z = 199 :=
  ⟨((C21_line_clipping approxMath (Line.mk (samplePoint (-5) 1 1) (samplePoint 5 2 (-2)))
      sampleCamera (Window.new 8 8)).1
      (by norm_num [Point.calculateCameraPos, Vec3.rotate, Vec3.rotateY, Vec3.rotateZ, Vec3.sub,
        samplePoint, sampleCamera, approxMath, Vec3.zero])
      (by norm_num [Point.calculateCameraPos, Vec3.rotate, Vec3.rotateY, Vec3.rotateZ, Vec3.sub,
        samplePoint, sampleCamera, approxMath, Vec3.zero])).2.2.1,
    ((C21_line_clipping approxMath (Line.mk (samplePoint 5 2 (-2)) (samplePoint (-5) 1 1))
      sampleCamera (Window.new 8 8)).2.1
      (by norm_num [Point.calculateCameraPos, Vec3.rotate, Vec3.rotateY, Vec3.rotateZ, Vec3.sub,
        samplePoint, sampleCamera, approxMath, Vec3.zero])
      (by norm_num [Point.calculateCameraPos, Vec3.rotate, Vec3.rotateY, Vec3.rotateZ, Vec3.sub,
        samplePoint, sampleCamera, approxMath, Vec3.zero])).2.2.1⟩

/-- C22 fails at `gapLine` on a fresh `4 × 1` window: the screen end points `a = (0, 0)`
and `b = (2.75, 0)` are inside the viewport, `a` is the left one and the non-vertical
branch is taken (`max(0, ceil(a.x)) = 0 < 2 = min(width - 1, floor(b.x))`), column 2 lies
in `[floor(a.x), floor(b.x)]`, `Window::drawLine` does not throw, and yet the only pixel
of column 2 is not written: the column loop stops before `endVal = 2` and the end run of
`b` is drawn in column `round(b.x) = 3`. -/
theorem C22_line_leaves_a_column_gap :
    ((0 ≤ gapLine.p1.screenPos.x ∧ gapLine.p1.screenPos.x < 4
        ∧ 0 ≤ gapLine.p1.screenPos.y ∧ gapLine.p1.screenPos.y < 1)
      ∧ (0 ≤ gapLine.p2.screenPos.x ∧ gapLine.p2.screenPos.x < 4
        ∧ 0 ≤ gapLine.p2.screenPos.y ∧ gapLine.p2.screenPos.y < 1))
    ∧ ¬ (gapLine.p1.screenPos.x > gapLine.p2.screenPos.x)
    ∧ (max 0 ⌈gapLine.p1.screenPos.x⌉ < min ((4 : Int) - 1) ⌊gapLine.p2.screenPos.x⌋)
    ∧ (⌊gapLine.p1.screenPos.x⌋ ≤ 2 ∧ (2 : Int) ≤ ⌊gapLine.p2.screenPos.x⌋)
    ∧ ((Window.new 4 1 : Window ℚ).drawLine gapLine).2 = none
    ∧ ((Window.new 4 1 : Window ℚ).drawLine gapLine).1.pixelArray.data
        = [255, 255, 255, 255, 255, 255, 0, 0, 0, 255, 255, 255]
    ∧ (Window.new 4 1 : Window ℚ).pixelArray.getPixel 2 0 = .ok [0, 0, 0]
    ∧ ((Window.new 4 1 : Window ℚ).drawLine gapLine).1.pixelArray.getPixel 2 0
        = .ok [0, 0, 0] := by
  rw [gapLine_drawn]
  refine ⟨⟨?_, ?_⟩, ?_, ?_, ⟨?_, ?_⟩, rfl, rfl, rfl, rfl⟩
  · norm_num [gapLine]
  · norm_num [gapLine]
  · norm_num [gapLine]
  · norm_num [gapLine, floor_eleven_quarters]
  · norm_num [gapLine]
  · norm_num [gapLine, floor_eleven_quarters]

/-- C23: the three conditional swaps at the start of `Window::drawTriangle` sort the
vertices by screen `x`: for every triangle the result `(a, b, c)` has
`a.screenPos.x ≤ b.screenPos.x ≤ c.screenPos.x` and is a permutation of `(p1, p2, p3)`,
and the column loops run on `(a, b, c)` with the plane normal and `d1` computed from the
`cameraPos` of `p1`, `p2`, `p3` in their original order. -/
theorem C23_swaps_sort_by_screen_x (M : FloatMath K) (w : Window K) (triangle : Triangle K)
    (cam : Camera K) :
    ((sortByScreenX triangle.p1 triangle.p2 triangle.p3).1.screenPos.x
        ≤ (sortByScreenX triangle.p1 triangle.p2 triangle.p3).2.1.screenPos.x
      ∧ (sortByScreenX triangle.p1 triangle.p2 triangle.p3).2.1.screenPos.x
        ≤ (sortByScreenX triangle.p1 triangle.p2 triangle.p3).2.2.screenPos.x)
    ∧ List.Perm
        [(sortByScreenX triangle.p1 triangle.p2 triangle.p3).1,
          (sortByScreenX triangle.p1 triangle.p2 triangle.p3).2.1,
          (sortByScreenX triangle.p1 triangle.p2 triangle.p3).2.2]
        [triangle.p1, triangle.p2, triangle.p3]
    ∧ w.drawTriangle M triangle cam =
        w.fillSorted M triangle cam
          (planeNormal M triangle.p1.cameraPos triangle.p2.cameraPos triangle.p3.cameraPos)
          (planeOffset
            (planeNormal M triangle.p1.cameraPos triangle.p2.cameraPos triangle.p3.cameraPos)
            triangle.p1.cameraPos)
          (sortByScreenX triangle.p1 triangle.p2 triangle.p3).1
          (sortByScreenX triangle.p1 triangle.p2 triangle.p3).2.1
          (sortByScreenX triangle.p1 triangle.p2 triangle.p3).2.2 :=
  ⟨sortByScreenX_sorted triangle.p1 triangle.p2 triangle.p3,
    sortByScreenX_perm triangle.p1 triangle.p2 triangle.p3,
    Window.drawTriangle_eq_fillSorted M w triangle cam⟩

/-- C24: in every window state reachable from `Window(width, height)` by any sequence of
`clear` and `Window::drawTriangle` calls, every entry `d` of the depth buffer satisfies
`0 ≤ d ≤ 99999`; a further `drawTriangle` call keeps the length of the depth buffer and
increases no entry; and for every pixel `(x, y)` of the window the depth read after the
call is at most the depth read before, and strictly smaller if the pixel's colour was
changed by the call. -/
theorem C24_depth_buffer_invariant (M : FloatMath K) (width height : Int) (w : Window K)
    (h : w.DepthReachable M width height) (t : Triangle K) (cam : Camera K) :
    (∀ d ∈ w.zBuffer.data, 0 ≤ d ∧ d ≤ 99999)
    ∧ (w.drawTriangle M t cam).1.zBuffer.data.length = w.zBuffer.data.length
    ∧ (∀ i : Nat, (w.drawTriangle M t cam).1.zBuffer.data.getD i 0 ≤ w.zBuffer.data.getD i 0)
    ∧ (∀ x y : Int, 0 ≤ x → x < w.width → 0 ≤ y → y < w.height →
        ∃ d d' : K, w.zBuffer.getDepth x y = .ok d
          ∧ (w.drawTriangle M t cam).1.zBuffer.getDepth x y = .ok d'
          ∧ d' ≤ d
          ∧ ((w.drawTriangle M t cam).1.pixelArray.getPixel x y ≠ w.pixelArray.getPixel x y →
              d' < d)) := by
  obtain ⟨hw, hb⟩ := Window.depth_bounds_of_reachable M width height w h
  have hn := Window.drawTriangle_nearer M w hw t cam
  refine ⟨hb, hn.shape.depthLength, hn.depth_le, ?_⟩
  intro x y hx hx' hy hy'
  have hzw := hw.depthWidth
  have hzh := hw.depthHeight
  have g1 : w.zBuffer.getDepth x y = .ok (w.zBuffer.data.getD (w.width * y + x).toNat 0) := by
    simp only [ZBuffer.getDepth, ZBuffer.getIndex, hzw, hzh]
    rw [if_neg (by omega)]
  have g2 : (w.drawTriangle M t cam).1.zBuffer.getDepth x y
      = .ok ((w.drawTriangle M t cam).1.zBuffer.data.getD (w.width * y + x).toNat 0) := by
    simp only [ZBuffer.getDepth, ZBuffer.getIndex, hn.shape.depthWidth, hn.shape.depthHeight,
      hzw, hzh]
    rw [if_neg (by omega)]
  refine ⟨_, _, g1, g2, hn.depth_le _, ?_⟩
  intro hne
  rcases hn.color (w.width * y + x).toNat with hlt | hcells
  · exact hlt
  · exfalso
    apply hne
    refine Window.getPixel_eq_of_cells _ _ x y hn.shape.pixelWidth hn.shape.pixelHeight hx hy
      (by rw [hw.pixelWidth]; omega) ?_
    rw [hw.pixelWidth]
    exact hcells

/-- C24 at a concrete input: `sampleTriangle` drawn on a cleared `8 × 8` window. -/
theorem C24_witness :
    (∀ d ∈ ((Window.new 8 8 : Window ℚ).clear.drawTriangle approxMath sampleTriangle
        sampleCamera).1.zBuffer.data, 0 ≤ d ∧ d ≤ 99999)
      ∧ ∀ i : Nat,
        (((Window.new 8 8 : Window ℚ).clear.drawTriangle approxMath sampleTriangle
            sampleCamera).1.drawTriangle approxMath splitTriangle
            sampleCamera).1.zBuffer.data.getD i 0
          ≤ ((Window.new 8 8 : Window ℚ).clear.drawTriangle approxMath sampleTriangle
            sampleCamera).1.zBuffer.data.getD i 0 :=
  have h := C24_depth_buffer_invariant approxMath 8 8 _
    (Window.DepthReachable.drawTriangle _ sampleTriangle sampleCamera
      (Window.DepthReachable.clear _ Window.DepthReachable.new))
    splitTriangle sampleCamera
  ⟨h.1, h.2.2.1⟩

/-- C25: for every camera, window state and two triangles (two lines) that agree on the
`absolutePos` of every vertex and on `r`, `g`, `b`, whatever their `cameraPos`,
`projectedPos`, `screenPos`, `distToCamera` (and `normal`) hold and whatever `std::rand()`
returns, `Triangle::draw` (`Line::draw`) leaves the same `PixelArray` and the same
`ZBuffer` and throws the same message, if any. -/
theorem C25_drawing_ignores_stale_state (M : FloatMath K) (cam : Camera K) (w : Window K)
    (t t' : Triangle K) (rand rand' : Nat → Nat) (l l' : Line K)
    (h1 : t.p1.absolutePos = t'.p1.absolutePos) (h2 : t.p2.absolutePos = t'.p2.absolutePos)
    (h3 : t.p3.absolutePos = t'.p3.absolutePos)
    (hr : t.r = t'.r) (hg : t.g = t'.g) (hb : t.b = t'.b)
    (hl1 : l.p1.absolutePos = l'.p1.absolutePos) (hl2 : l.p2.absolutePos = l'.p2.absolutePos) :
    ((t.draw M cam w rand).window.pixelArray = (t'.draw M cam w rand').window.pixelArray
      ∧ (t.draw M cam w rand).window.zBuffer = (t'.draw M cam w rand').window.zBuffer
      ∧ (t.draw M cam w rand).thrown = (t'.draw M cam w rand').thrown)
    ∧ ((l.draw M cam w).2.1.pixelArray = (l'.draw M cam w).2.1.pixelArray
      ∧ (l.draw M cam w).2.1.zBuffer = (l'.draw M cam w).2.1.zBuffer
      ∧ (l.draw M cam w).2.2 = (l'.draw M cam w).2.2) := by
  have ht := Triangle.triangle_draw_congr M cam w t t' rand rand' h1 h2 h3 hr hg hb
  have hl := Line.line_draw_congr M cam w l l' hl1 hl2
  exact ⟨⟨congrArg Window.pixelArray ht.1, congrArg Window.zBuffer ht.1, ht.2⟩,
    congrArg (fun r => r.1.pixelArray) hl, congrArg (fun r => r.1.zBuffer) hl,
    congrArg Prod.snd hl⟩

/-- C25 at a concrete input: `sampleTriangle` and `sampleLine`, which carry derived state,
against the same triangle and line with all derived state still zero. -/
theorem C25_witness :
    (sampleTriangle.draw approxMath sampleCamera (Window.new 8 8) (fun _ => 3)).window.pixelArray
        = ((Triangle.mk (samplePoint 5 (-2) (-2)) (samplePoint 5 2 (-2)) (samplePoint 5 0 3)
            ⟨0, 0, 1⟩ 255 0 0).draw approxMath sampleCamera (Window.new 8 8)
            (fun _ => 9)).window.pixelArray
      ∧ (sampleLine.draw approxMath sampleCamera (Window.new 8 8)).2.1.pixelArray
        = ((Line.mk (samplePoint 5 30 2) (samplePoint 5 (-40) (-9))).draw approxMath
            sampleCamera (Window.new 8 8)).2.1.pixelArray :=
  have h := C25_drawing_ignores_stale_state approxMath sampleCamera (Window.new 8 8)
    sampleTriangle
    (Triangle.mk (samplePoint 5 (-2) (-2)) (samplePoint 5 2 (-2)) (samplePoint 5 0 3)
      ⟨0, 0, 1⟩ 255 0 0)
    (fun _ => 3) (fun _ => 9) sampleLine
    (Line.mk (samplePoint 5 30 2) (samplePoint 5 (-40) (-9)))
    rfl rfl rfl rfl rfl rfl rfl rfl
  ⟨h.1.1, h.2.1⟩

end Claims

end graphics
